import Mathlib

set_option linter.unusedVariables false

/-!
# UE4Singleton: a per-world singleton registry

A shallow embedding of the two singleton managers of the repository,
`UE4Singleton` (Source/UE4Singleton/Private/UE4Singleton.cpp) and
`UMMPSingletons` (Source/Private/UE4Singleton.cpp), followed by theorems about
them.

Conventions of the embedding

* Pointers are identities (`Nat`); a nullable pointer is an `Option`.
* What the engine alone knows or decides (validity of objects and worlds, the
  class of an object, the allocation primitives, the list of world contexts)
  is a read-only parameter `Host`.
* What the code itself mutates (the static array `Managers`, the `Singletons`
  map of every manager object, the manager objects it allocates) is `State`.
* A fatal `check(...)` that fails is the result `none`; a non-fatal
  `ensure...(...)` only matters through the boolean it returns.
* A C++ reference into a map (`UObject*& Ptr`) is the map entry itself:
  writing through it updates the map, reading it reads the map.
-/

/-! ## Host object model -/

/-- Modelled from the spec: the class descriptor of the host reflection system
(`UClass`, declared by the engine, not by this repository): an identifier, a
native flag and a finite chain of ancestors ending at a root. -/
inductive UClass where
  | Root (Name : Nat) (bNative : Bool)
  | Sub (Name : Nat) (bNative : Bool) (Super : UClass)
  deriving DecidableEq, Repr

namespace UClass

/-- The class is defined in compiled code: `UClass::IsNative()`. -/
def IsNative : UClass → Bool
  | Root _ n => n
  | Sub _ n _ => n

/-- The parent class, null at the root: `UClass::GetSuperClass()`. -/
def GetSuperClass : UClass → Option UClass
  | Root _ _ => none
  | Sub _ _ p => some p

/-- Modelled from the spec: the host query "is-a" (`UStruct::IsChildOf`, engine
code): the class is `SomeBase` or `SomeBase` is one of its ancestors. -/
def IsChildOf : UClass → UClass → Bool
  | Root n b, SomeBase => decide (Root n b = SomeBase)
  | Sub n b p, SomeBase => decide (Sub n b p = SomeBase) || IsChildOf p SomeBase

/-- The classes from a class up to its root, the class itself first. -/
def Chain : UClass → List UClass
  | Root n b => [Root n b]
  | Sub n b p => Sub n b p :: Chain p

end UClass

/-- Identity of a world object (`UWorld*`, never null). -/
abbrev UWorld := Nat

/-- Identity of an object (`UObject*`, never null). -/
abbrev UObject := Nat

/-- Identity of an application instance (`UGameInstance*`, never null). -/
abbrev UGameInstance := Nat

/-- Identity of a manager object (`UE4Singleton*` or `UMMPSingletons*`). -/
abbrev UManager := Nat

/-- A `const UObject*` passed as world context: an ordinary object, or a world
itself (`GetSingletonImpl` passes its `UWorld*` on as context). -/
inductive UContext where
  | Object (o : UObject)
  | World (w : UWorld)
  deriving DecidableEq, Repr

/-- The engine enumeration `EWorldType` as far as `FindInstance` reads it. -/
inductive EWorldType where
  | None | Game | Editor | PIE | EditorPreview | GamePreview | GameRPC | Inactive
  deriving DecidableEq, Repr

/-- The engine enumeration `ENetMode`. -/
inductive ENetMode where
  | NM_Standalone | NM_DedicatedServer | NM_ListenServer | NM_Client
  deriving DecidableEq, Repr

/-- The fields of the engine's `FWorldContext` that `FindInstance` reads. -/
structure FWorldContext where
  World : Option UWorld
  WorldType : EWorldType
  PIEInstance : Int
  deriving DecidableEq, Repr

/-- The owner handed to `NewObject`. -/
inductive Outer where
  | Instance (i : UGameInstance)
  | TransientPackage
  | World (w : UWorld)
  deriving DecidableEq, Repr

/-- Everything the code asks the engine: a parameter of every operation. -/
structure Host where
  /-- Result of `IsValid(World)` for a non-null world; a weak pointer to the world is stale exactly when this is false. -/
  IsValidWorld : UWorld → Bool
  /-- Result of `IsValid(Object)` for a non-null object. -/
  IsValidObject : UObject → Bool
  /-- Result of `Object->GetClass()`. -/
  GetClass : UObject → UClass
  /-- Result of `Object->GetWorld()` for an ordinary object. -/
  ObjectWorld : UObject → Option UWorld
  /-- Result of `Object->HasAnyFlags(RF_ClassDefaultObject)`. -/
  IsClassDefaultObject : UObject → Bool
  /-- Result of `IsRunningCommandlet()`. -/
  bRunningCommandlet : Bool
  /-- The class `AActor::StaticClass()`. -/
  AActor : UClass
  /-- The class `UUserWidget::StaticClass()`. -/
  UUserWidget : UClass
  /-- Built with `WITH_EDITOR` and `GIsEditor` is set. -/
  bEditor : Bool
  /-- Result of `GEngine->GetWorldContexts()`. -/
  WorldContexts : List FWorldContext
  /-- Result of `World->IsGameWorld()`. -/
  IsGameWorld : UWorld → Bool
  /-- Result of `World->GetNetMode()`. -/
  GetNetMode : UWorld → ENetMode
  /-- Result of `World->GetGameInstance()`. -/
  GetGameInstance : UWorld → Option UGameInstance
  /-- The game instance of `Cast<UGameEngine>(GEngine)`, null when the cast fails or the field is null. -/
  GameEngineInstance : Option UGameInstance
  /-- Value of the console variable `r.SingletonsCreateMethod`. -/
  SingletonsCreateMethod : Int
  /-- Result of `NewObject<UObject>(Outer, Class)`. -/
  NewObject : Outer → UClass → Option UObject
  /-- Result of `CreateWidget(World, Class)`. -/
  CreateWidget : UWorld → UClass → Option UObject
  /-- Result of `World->SpawnActor<AActor>(Class)`. -/
  SpawnActor : UWorld → UClass → Option UObject

namespace Host

/-- The global `IsValid` on a nullable world pointer. -/
def IsValidWorldPtr (h : Host) : Option UWorld → Bool
  | none => false
  | some w => h.IsValidWorld w

/-- The global `IsValid` on a nullable object pointer. -/
def IsValid (h : Host) : Option UObject → Bool
  | none => false
  | some o => h.IsValidObject o

/-- The world of a context object; `UWorld::GetWorld()` returns the world itself. -/
def GetWorld (h : Host) : UContext → Option UWorld
  | UContext.Object o => h.ObjectWorld o
  | UContext.World w => some w

/-- The expression `WorldContextObject ? WorldContextObject->GetWorld() : nullptr`. -/
def ResolveWorld (h : Host) : Option UContext → Option UWorld
  | none => none
  | some c => h.GetWorld c

/-- Weak world pointer: `TWeakObjectPtr<UWorld>::IsStale(true)`; a null weak pointer is not stale. -/
def IsStale (h : Host) : Option UWorld → Bool
  | none => false
  | some w => !h.IsValidWorld w

/-- Weak world pointer: `TWeakObjectPtr<UWorld>::Get()`. -/
def Get (h : Host) : Option UWorld → Option UWorld
  | none => none
  | some w => if h.IsValidWorld w then some w else none

end Host

/-! ## The class-to-instance map of a manager -/

/-- The field `TMap<UClass*, UObject*> Singletons`: `none` is an absent key,
`some none` a key bound to the null pointer. -/
abbrev TMap := UClass → Option (Option UObject)

namespace TMap

/-- A default-constructed map. -/
def Empty : TMap := fun _ => none

/-- The value `TMap::FindOrAdd` yields: the bound value, null for a key it had to add. -/
def Value (m : TMap) (k : UClass) : Option UObject :=
  match m k with
  | some v => v
  | none => none

/-- The map after `TMap::FindOrAdd`: an absent key is added, bound to null. -/
def FindOrAdd (m : TMap) (k : UClass) : TMap :=
  match m k with
  | some _ => m
  | none => Function.update m k (some none)

/-- Assignment through the reference `FindOrAdd` returned. -/
def Assign (m : TMap) (k : UClass) (v : Option UObject) : TMap :=
  Function.update m k (some v)

end TMap

/-! ## Registry of managers -/

/-- The struct `FWorldPair`: a weak world pointer and a weak manager pointer. -/
structure FWorldPair where
  WeakWorld : Option UWorld
  Manager : Option UManager
  deriving DecidableEq, Repr

/-- Referencer that keeps a manager alive: an application instance
(`RegisterReferencedObject`), the root set (`AddToRoot`) or a world
(`ExtraReferencedObjects.AddUnique`). -/
inductive Referencer where
  | Instance (i : UGameInstance)
  | Root
  | World (w : UWorld)
  deriving DecidableEq, Repr

/-- The weak manager pointer stored at index `i` of an array of pairs (null out of range). -/
def SlotAt : List FWorldPair → Nat → Option UManager
  | [], _ => none
  | e :: _, 0 => e.Manager
  | _ :: rest, i + 1 => SlotAt rest i

/-- The mutable state of one manager variant. -/
structure State where
  /-- The static array `Managers`. -/
  Managers : List FWorldPair
  /-- The field `Singletons` of every manager object. -/
  Singletons : UManager → TMap
  /-- Liveness of manager objects, what `TWeakObjectPtr::IsValid()` reports. -/
  ManagerValid : UManager → Bool
  /-- Identity of the next manager object `NewObject` hands out. -/
  NextManager : UManager
  /-- The keep-alive references taken on managers, oldest first. -/
  Referenced : List (Referencer × UManager)

namespace State

/-- The state at program start: no registry entry, no manager object. -/
def Initial : State where
  Managers := []
  Singletons := fun _ => TMap.Empty
  ManagerValid := fun _ => false
  NextManager := 0
  Referenced := []

/-- The weak manager pointer stored in slot `i` of `Managers`. -/
def Slot (s : State) (i : Nat) : Option UManager :=
  SlotAt s.Managers i

/-- Validity of a weak manager pointer: `TWeakObjectPtr::IsValid()`. -/
def IsValidManager (s : State) : Option UManager → Bool
  | none => false
  | some m => s.ManagerValid m

/-- Replace the field `Singletons` of the manager `Mgr` by `m`. -/
def SetMap (s : State) (Mgr : UManager) (m : TMap) : State :=
  { s with Singletons := Function.update s.Singletons Mgr m }

/-- The map of the manager as a lookup: the instance a class resolves to (null when absent). -/
def Lookup (s : State) (Mgr : UManager) (k : UClass) : Option UObject :=
  TMap.Value (s.Singletons Mgr) k

end State

/-- Write `v` into the `Manager` field of slot `i` of the array. -/
def SetSlot : List FWorldPair → Nat → Option UManager → List FWorldPair
  | [], _, _ => []
  | e :: rest, 0, v => { e with Manager := v } :: rest
  | e :: rest, i + 1, v => e :: SetSlot rest i v

/-! ## `namespace NamespaceUE4Singleton` (Source/UE4Singleton/Private/UE4Singleton.cpp) -/

namespace NamespaceUE4Singleton

/-- The function `FindOrAdd(UWorld* InWorld)`, lines 38-58, on the array
`Managers`: the array afterwards and the index of the entry whose `Manager`
field is returned by reference. A stale entry met by the scan is removed, the
first live entry whose world is `InWorld` ends the scan, and without a match a
defaulted entry is appended, bound to `InWorld` when `IsValid(InWorld)`. -/
def FindOrAdd (h : Host) (InWorld : Option UWorld) : List FWorldPair → List FWorldPair × Nat
  | [] => ([{ WeakWorld := if h.IsValidWorldPtr InWorld then InWorld else none, Manager := none }], 0)
  | e :: rest =>
    if !h.IsStale e.WeakWorld then
      if InWorld = h.Get e.WeakWorld then (e :: rest, 0)
      else (e :: (FindOrAdd h InWorld rest).1, (FindOrAdd h InWorld rest).2 + 1)
    else FindOrAdd h InWorld rest

/-- The scan of `Remove`, lines 64-80, for a non-null `InWorld`. -/
def RemoveScan (h : Host) (InWorld : UWorld) : List FWorldPair → List FWorldPair
  | [] => []
  | e :: rest =>
    if !h.IsStale e.WeakWorld then
      if some InWorld = h.Get e.WeakWorld then rest
      else e :: RemoveScan h InWorld rest
    else RemoveScan h InWorld rest

/-- The function `Remove(UWorld* InWorld)`, lines 59-81, on the array `Managers`. -/
def Remove (h : Host) (InWorld : Option UWorld) (Managers : List FWorldPair) : List FWorldPair :=
  match InWorld with
  | none => Managers
  | some w => RemoveScan h w Managers

/-- The loop of `FindInstance` over the world contexts, lines 90-116: the world
of the first context that makes the loop break. -/
def FindInstanceWorld (h : Host) : List FWorldContext → Option UWorld
  | [] => none
  | Context :: rest =>
    match Context.World with
    | some CurWorld =>
      if h.IsGameWorld CurWorld then
        if Context.WorldType = EWorldType.PIE then some CurWorld
        else if Context.WorldType = EWorldType.Game then some CurWorld
        else if h.GetNetMode CurWorld = ENetMode.NM_Standalone
            || (h.GetNetMode CurWorld = ENetMode.NM_Client && Context.PIEInstance = 2) then some CurWorld
        else FindInstanceWorld h rest
      else FindInstanceWorld h rest
    | none => FindInstanceWorld h rest

/-- The function `FindInstance()`, lines 82-131. -/
def FindInstance (h : Host) : Option UGameInstance :=
  if h.bEditor then
    match FindInstanceWorld h h.WorldContexts with
    | some World => h.GetGameInstance World
    | none => none
  else h.GameEngineInstance

end NamespaceUE4Singleton

/-! ## `class UE4Singleton` (Source/UE4Singleton/Private/UE4Singleton.cpp) -/

namespace UE4Singleton

/-- The branch of `GetManager` that creates the manager, lines 329-354: a new
manager object with an empty map is stored in slot `i` and referenced by the
application instance, the root set or the world. `none` is the failed
`check(Ptr.IsValid())`. -/
def NewManager (h : Host) (World : Option UWorld) (i : Nat) (s : State) : Option (UManager × State) :=
  let Obj := s.NextManager
  let Keeper : Referencer :=
    match World with
    | none =>
      match NamespaceUE4Singleton.FindInstance h with
      | some Instance => Referencer.Instance Instance
      | none => Referencer.Root
    | some w => Referencer.World w
  let s2 : State :=
    { Managers := SetSlot s.Managers i (some Obj)
      Singletons := Function.update s.Singletons Obj TMap.Empty
      ManagerValid := Function.update s.ManagerValid Obj true
      NextManager := Obj + 1
      Referenced := s.Referenced ++ [(Keeper, Obj)] }
  if s2.IsValidManager (s2.Slot i) then some (Obj, s2) else none

/-- The function `UE4Singleton::GetManager(World, bEnsure)`, lines 322-357.
`none` is a failed `check`; `bEnsure` only selects whether a missing
application instance is reported. -/
def GetManager (h : Host) (World : Option UWorld) (bEnsure : Bool) (s : State) : Option (UManager × State) :=
  if !(World.isNone || h.IsValidWorldPtr World) then none
  else
    let r := NamespaceUE4Singleton.FindOrAdd h World s.Managers
    let s1 : State := { s with Managers := r.1 }
    match s1.Slot r.2 with
    | some Mgr => if s1.ManagerValid Mgr then some (Mgr, s1) else NewManager h World r.2 s1
    | none => NewManager h World r.2 s1

/-- The function `UE4Singleton::CreateInstanceImpl(WorldContextObject, Class)`,
lines 229-272. The outer `none` is the failed `check(Class)`. -/
def CreateInstanceImpl (h : Host) (WorldContextObject : Option UContext) (Class : Option UClass) :
    Option (Option UObject) :=
  match Class with
  | none => none
  | some C =>
    let bIsActorClass := C.IsChildOf h.AActor
    match h.ResolveWorld WorldContextObject with
    | none =>
      match NamespaceUE4Singleton.FindInstance h with
      | some Instance =>
        if h.SingletonsCreateMethod = 0 then some (h.NewObject (Outer.Instance Instance) C)
        else some (h.NewObject Outer.TransientPackage C)
      | none => some (h.NewObject Outer.TransientPackage C)
    | some World =>
      if !bIsActorClass then
        if C.IsChildOf h.UUserWidget then some (h.CreateWidget World C)
        else some (h.NewObject (Outer.World World) C)
      else some (h.SpawnActor World C)

/-- The condition of the `ensureAlwaysMsgf` at lines 139-141:
`!InNativeClass || InNativeClass->IsNative() || !Object->IsA(InNativeClass)`. -/
def EnsureStopClass (h : Host) (Object : UObject) : Option UClass → Bool
  | none => true
  | some N => N.IsNative || !(h.GetClass Object).IsChildOf N

/-- The condition that ends the ancestor loop at line 188:
`(InNativeClass && CurClass == InNativeClass) || (!InNativeClass && CurClass->IsNative())`. -/
def WalkBreaks (InNativeClass : Option UClass) (CurClass : UClass) : Bool :=
  match InNativeClass with
  | some N => decide (CurClass = N)
  | none => CurClass.IsNative

/-- The ancestor loop, lines 170-190, started at `CurClass`: the value
`LastPtr` holds when the loop ends, and the map afterwards. -/
def Walk (Object : UObject) (InNativeClass : Option UClass) : UClass → TMap → Option UObject × TMap
  | UClass.Root n b, m =>
    (TMap.Value m (UClass.Root n b),
      TMap.Assign (TMap.FindOrAdd m (UClass.Root n b)) (UClass.Root n b) (some Object))
  | UClass.Sub n b p, m =>
    if WalkBreaks InNativeClass (UClass.Sub n b p) then
      (TMap.Value m (UClass.Sub n b p),
        TMap.Assign (TMap.FindOrAdd m (UClass.Sub n b p)) (UClass.Sub n b p) (some Object))
    else
      Walk Object InNativeClass p
        (TMap.Assign (TMap.FindOrAdd m (UClass.Sub n b p)) (UClass.Sub n b p) (some Object))

/-- The lookups of the mode `!bReplaceExist`, lines 159-161: the value of
`LastPtr` after them and the map after the `FindOrAdd` calls. -/
def LookupExisting (ObjectClass : UClass) (InNativeClass : Option UClass) (m : TMap) :
    Option UObject × TMap :=
  match TMap.Value m ObjectClass, InNativeClass with
  | none, some N =>
    (TMap.Value (TMap.FindOrAdd m ObjectClass) N, TMap.FindOrAdd (TMap.FindOrAdd m ObjectClass) N)
  | LastPtr, _ => (LastPtr, TMap.FindOrAdd m ObjectClass)

/-- Lines 156-192 on the map of the resolved manager: the returned pointer and
the map afterwards. -/
def RegisterInMap (Object : UObject) (ObjectClass : UClass) (bReplaceExist : Bool)
    (InNativeClass : Option UClass) (m : TMap) : Option UObject × TMap :=
  if !bReplaceExist then
    if (LookupExisting ObjectClass InNativeClass m).1.isSome then LookupExisting ObjectClass InNativeClass m
    else Walk Object InNativeClass ObjectClass (LookupExisting ObjectClass InNativeClass m).2
  else Walk Object InNativeClass ObjectClass m

/-- The function `UE4Singleton::RegisterAsSingletonImpl`, lines 135-193: the
returned pointer and the state afterwards; `none` is a failed `check`. -/
def RegisterAsSingletonImpl (h : Host) (Object : Option UObject) (WorldContextObject : Option UContext)
    (bReplaceExist : Bool) (InNativeClass : Option UClass) (s : State) : Option (Option UObject × State) :=
  match Object with
  | none => none
  | some Obj =>
    if !h.IsValidObject Obj then none
    else if !EnsureStopClass h Obj InNativeClass then some (none, s)
    else if h.bRunningCommandlet
        || ((h.ResolveWorld WorldContextObject).isNone && h.IsClassDefaultObject Obj) then some (none, s)
    else
      match GetManager h (h.ResolveWorld WorldContextObject) true s with
      | none => none
      | some (Mgr, s1) =>
        let r := RegisterInMap Obj (h.GetClass Obj) bReplaceExist InNativeClass (s1.Singletons Mgr)
        some (r.1, s1.SetMap Mgr r.2)

/-- The function `UE4Singleton::GetSingletonImpl`, lines 195-227: the returned
pointer and the state afterwards; `none` is a failed `check`. The reference
`Ptr` is the entry of `RegClass` in the map of the manager. -/
def GetSingletonImpl (h : Host) (Class : Option UClass) (WorldContextObject : Option UContext)
    (bCreate : Bool) (RegClass : Option UClass) (s : State) : Option (Option UObject × State) :=
  match Class with
  | none => none
  | some C =>
    let R := RegClass.getD C
    let World := h.ResolveWorld WorldContextObject
    match GetManager h World bCreate s with
    | none => none
    | some (Mgr, s1) =>
      let Ptr := TMap.Value (s1.Singletons Mgr) R
      let s2 : State := s1.SetMap Mgr (TMap.FindOrAdd (s1.Singletons Mgr) R)
      if !h.IsValid Ptr && bCreate then
        match CreateInstanceImpl h (World.map UContext.World) (some C) with
        | none => none
        | some New =>
          let s3 : State := s2.SetMap Mgr (TMap.Assign (s2.Singletons Mgr) R New)
          if h.IsValid New then
            match RegisterAsSingletonImpl h New (World.map UContext.World) true (some R) s3 with
            | none => none
            | some (_, s4) => some (s4.Lookup Mgr R, s4)
          else some (none, s3.SetMap Mgr (TMap.Assign (s3.Singletons Mgr) R none))
      else some (Ptr, s2)

/-- The handler the constructor `UE4Singleton::UE4Singleton()` registers on
`FWorldDelegates::OnWorldCleanup`, lines 278-281: `Remove(World)` on the array
`Managers`. -/
def OnWorldCleanup (h : Host) (World : Option UWorld) (s : State) : State :=
  { s with Managers := NamespaceUE4Singleton.Remove h World s.Managers }

end UE4Singleton

/-! ## `namespace MMPSingletonsManager` (Source/Private/UE4Singleton.cpp) -/

namespace MMPSingletonsManager

/-- The function `FindOrAdd(UWorld* InWorld)`, lines 35-55, on the array
`Managers`: the array afterwards and the index of the entry whose `Manager`
field is returned by reference. A stale entry met by the scan is removed, the
first live entry whose world is `InWorld` ends the scan, and without a match a
defaulted entry is appended, bound to `InWorld` when `IsValid(InWorld)`. -/
def FindOrAdd (h : Host) (InWorld : Option UWorld) : List FWorldPair → List FWorldPair × Nat
  | [] => ([{ WeakWorld := if h.IsValidWorldPtr InWorld then InWorld else none, Manager := none }], 0)
  | e :: rest =>
    if !h.IsStale e.WeakWorld then
      if InWorld = h.Get e.WeakWorld then (e :: rest, 0)
      else (e :: (FindOrAdd h InWorld rest).1, (FindOrAdd h InWorld rest).2 + 1)
    else FindOrAdd h InWorld rest

/-- The scan of `Remove`, lines 61-77, for a non-null `InWorld`. -/
def RemoveScan (h : Host) (InWorld : UWorld) : List FWorldPair → List FWorldPair
  | [] => []
  | e :: rest =>
    if !h.IsStale e.WeakWorld then
      if some InWorld = h.Get e.WeakWorld then rest
      else e :: RemoveScan h InWorld rest
    else RemoveScan h InWorld rest

/-- The function `Remove(UWorld* InWorld)`, lines 56-78, on the array `Managers`. -/
def Remove (h : Host) (InWorld : Option UWorld) (Managers : List FWorldPair) : List FWorldPair :=
  match InWorld with
  | none => Managers
  | some w => RemoveScan h w Managers

/-- The loop of `FindInstance` over the world contexts, lines 87-113: the world
of the first context that makes the loop break. -/
def FindInstanceWorld (h : Host) : List FWorldContext → Option UWorld
  | [] => none
  | Context :: rest =>
    match Context.World with
    | some CurWorld =>
      if h.IsGameWorld CurWorld then
        if Context.WorldType = EWorldType.PIE then some CurWorld
        else if Context.WorldType = EWorldType.Game then some CurWorld
        else if h.GetNetMode CurWorld = ENetMode.NM_Standalone
            || (h.GetNetMode CurWorld = ENetMode.NM_Client && Context.PIEInstance = 2) then some CurWorld
        else FindInstanceWorld h rest
      else FindInstanceWorld h rest
    | none => FindInstanceWorld h rest

/-- The function `FindInstance()`, lines 79-126. -/
def FindInstance (h : Host) : Option UGameInstance :=
  if h.bEditor then
    match FindInstanceWorld h h.WorldContexts with
    | some World => h.GetGameInstance World
    | none => none
  else h.GameEngineInstance

end MMPSingletonsManager

/-! ## `class UMMPSingletons` (Source/Private/UE4Singleton.cpp) -/

namespace UMMPSingletons

/-- The branch of `GetManager` that creates the manager, lines 296-321: a new
manager object with an empty map is stored in slot `i` and referenced by the
application instance, the root set or the world. `none` is the failed
`check(Ptr.IsValid())`. -/
def NewManager (h : Host) (World : Option UWorld) (i : Nat) (s : State) : Option (UManager × State) :=
  let Obj := s.NextManager
  let Keeper : Referencer :=
    match World with
    | none =>
      match MMPSingletonsManager.FindInstance h with
      | some Instance => Referencer.Instance Instance
      | none => Referencer.Root
    | some w => Referencer.World w
  let s2 : State :=
    { Managers := SetSlot s.Managers i (some Obj)
      Singletons := Function.update s.Singletons Obj TMap.Empty
      ManagerValid := Function.update s.ManagerValid Obj true
      NextManager := Obj + 1
      Referenced := s.Referenced ++ [(Keeper, Obj)] }
  if s2.IsValidManager (s2.Slot i) then some (Obj, s2) else none

/-- The function `UMMPSingletons::GetManager(World, bEnsure)`, lines 289-324.
`none` is a failed `check`; `bEnsure` only selects whether a missing
application instance is reported. -/
def GetManager (h : Host) (World : Option UWorld) (bEnsure : Bool) (s : State) : Option (UManager × State) :=
  if !(World.isNone || h.IsValidWorldPtr World) then none
  else
    let r := MMPSingletonsManager.FindOrAdd h World s.Managers
    let s1 : State := { s with Managers := r.1 }
    match s1.Slot r.2 with
    | some Mgr => if s1.ManagerValid Mgr then some (Mgr, s1) else NewManager h World r.2 s1
    | none => NewManager h World r.2 s1

/-- The function `UMMPSingletons::CreateInstance(Class, WorldContextObject)`,
lines 230-271. The outer `none` is the call on a null `Class`, which the
function dereferences. -/
def CreateInstance (h : Host) (Class : Option UClass) (WorldContextObject : Option UContext) :
    Option (Option UObject) :=
  match Class with
  | none => none
  | some C =>
    let bIsActorClass := C.IsChildOf h.AActor
    match h.ResolveWorld WorldContextObject with
    | none =>
      match MMPSingletonsManager.FindInstance h with
      | some Instance =>
        if h.SingletonsCreateMethod = 0 then some (h.NewObject (Outer.Instance Instance) C)
        else some (h.NewObject Outer.TransientPackage C)
      | none => some (h.NewObject Outer.TransientPackage C)
    | some World =>
      if !bIsActorClass then
        if C.IsChildOf h.UUserWidget then some (h.CreateWidget World C)
        else some (h.NewObject (Outer.World World) C)
      else some (h.SpawnActor World C)

/-- The condition of the `ensureAlwaysMsgf` at lines 134-136:
`!InNativeClass || InNativeClass->IsNative() || !Object->IsA(InNativeClass)`. -/
def EnsureStopClass (h : Host) (Object : UObject) : Option UClass → Bool
  | none => true
  | some N => N.IsNative || !(h.GetClass Object).IsChildOf N

/-- The condition of the `ensureAlwaysMsgf` at lines 149-150:
`ObjectClass->IsChildOf(AActor::StaticClass()) && (Object->GetWorld() != World)`. -/
def EnsureActorWorld (h : Host) (Object : UObject) (World : Option UWorld) : Bool :=
  (h.GetClass Object).IsChildOf h.AActor && decide (h.ObjectWorld Object ≠ World)

/-- The condition that ends the ancestor loop at line 184:
`(InNativeClass && CurClass == InNativeClass) || (!InNativeClass && CurClass->IsNative())`. -/
def WalkBreaks (InNativeClass : Option UClass) (CurClass : UClass) : Bool :=
  match InNativeClass with
  | some N => decide (CurClass = N)
  | none => CurClass.IsNative

/-- The ancestor loop, lines 168-186, started at `CurClass`: the value
`LastPtr` holds when the loop ends, and the map afterwards. -/
def Walk (Object : UObject) (InNativeClass : Option UClass) : UClass → TMap → Option UObject × TMap
  | UClass.Root n b, m =>
    (TMap.Value m (UClass.Root n b),
      TMap.Assign (TMap.FindOrAdd m (UClass.Root n b)) (UClass.Root n b) (some Object))
  | UClass.Sub n b p, m =>
    if WalkBreaks InNativeClass (UClass.Sub n b p) then
      (TMap.Value m (UClass.Sub n b p),
        TMap.Assign (TMap.FindOrAdd m (UClass.Sub n b p)) (UClass.Sub n b p) (some Object))
    else
      Walk Object InNativeClass p
        (TMap.Assign (TMap.FindOrAdd m (UClass.Sub n b p)) (UClass.Sub n b p) (some Object))

/-- The lookups of the mode `!bReplaceExist`, lines 157-159: the value of
`LastPtr` after them and the map after the `FindOrAdd` calls. -/
def LookupExisting (ObjectClass : UClass) (InNativeClass : Option UClass) (m : TMap) :
    Option UObject × TMap :=
  match TMap.Value m ObjectClass, InNativeClass with
  | none, some N =>
    (TMap.Value (TMap.FindOrAdd m ObjectClass) N, TMap.FindOrAdd (TMap.FindOrAdd m ObjectClass) N)
  | LastPtr, _ => (LastPtr, TMap.FindOrAdd m ObjectClass)

/-- Lines 154-188 on the map of the resolved manager: the returned pointer and
the map afterwards. -/
def RegisterInMap (Object : UObject) (ObjectClass : UClass) (bReplaceExist : Bool)
    (InNativeClass : Option UClass) (m : TMap) : Option UObject × TMap :=
  if !bReplaceExist then
    if (LookupExisting ObjectClass InNativeClass m).1.isSome then LookupExisting ObjectClass InNativeClass m
    else Walk Object InNativeClass ObjectClass (LookupExisting ObjectClass InNativeClass m).2
  else Walk Object InNativeClass ObjectClass m

/-- The function `UMMPSingletons::RegisterAsSingletonImpl`, lines 130-189: the
returned pointer and the state afterwards; `none` is a failed `check`. -/
def RegisterAsSingletonImpl (h : Host) (Object : Option UObject) (WorldContextObject : Option UContext)
    (bReplaceExist : Bool) (InNativeClass : Option UClass) (s : State) : Option (Option UObject × State) :=
  match Object with
  | none => none
  | some Obj =>
    if !h.IsValidObject Obj then none
    else if !EnsureStopClass h Obj InNativeClass then some (none, s)
    else if h.bRunningCommandlet
        || ((h.ResolveWorld WorldContextObject).isNone && h.IsClassDefaultObject Obj) then some (none, s)
    else if !EnsureActorWorld h Obj (h.ResolveWorld WorldContextObject) then some (none, s)
    else
      match GetManager h (h.ResolveWorld WorldContextObject) true s with
      | none => none
      | some (Mgr, s1) =>
        let r := RegisterInMap Obj (h.GetClass Obj) bReplaceExist InNativeClass (s1.Singletons Mgr)
        some (r.1, s1.SetMap Mgr r.2)

/-- The function `UMMPSingletons::GetSingletonImpl`, lines 191-228: the returned
pointer and the state afterwards; `none` is a failed `check`. The reference
`Ptr` is the entry of `RegClass` in the map of the manager. -/
def GetSingletonImpl (h : Host) (Class : Option UClass) (WorldContextObject : Option UContext)
    (bCreate : Bool) (RegClass : Option UClass) (s : State) : Option (Option UObject × State) :=
  match Class with
  | none => none
  | some C =>
    let R := RegClass.getD C
    let World := h.ResolveWorld WorldContextObject
    match GetManager h World bCreate s with
    | none => none
    | some (Mgr, s1) =>
      let Ptr := TMap.Value (s1.Singletons Mgr) R
      let s2 : State := s1.SetMap Mgr (TMap.FindOrAdd (s1.Singletons Mgr) R)
      if !h.IsValid Ptr && bCreate then
        match CreateInstance h (some C) (World.map UContext.World) with
        | none => none
        | some New =>
          let s3 : State := s2.SetMap Mgr (TMap.Assign (s2.Singletons Mgr) R New)
          if h.IsValid New then
            match RegisterAsSingletonImpl h New (World.map UContext.World) true (some R) s3 with
            | none => none
            | some (_, s4) => some (s4.Lookup Mgr R, s4)
          else some (none, s3.SetMap Mgr (TMap.Assign (s3.Singletons Mgr) R none))
      else some (Ptr, s2)

/-- The handler the constructor `UMMPSingletons::UMMPSingletons()` registers on
`FWorldDelegates::OnWorldCleanup`, lines 279-282: `Remove(World)` on the array
`Managers`. -/
def OnWorldCleanup (h : Host) (World : Option UWorld) (s : State) : State :=
  { s with Managers := MMPSingletonsManager.Remove h World s.Managers }

end UMMPSingletons

/-! ## Vocabulary of the statements -/

/-- The registry of `s` already resolves the scope `W` to the live manager
`Mgr`: the scan of `FindOrAdd` changes nothing and ends on a slot that holds
`Mgr`. -/
def Resolves (h : Host) (W : Option UWorld) (s : State) (Mgr : UManager) : Prop :=
  (NamespaceUE4Singleton.FindOrAdd h W s.Managers).1 = s.Managers ∧
    s.Slot (NamespaceUE4Singleton.FindOrAdd h W s.Managers).2 = some Mgr ∧
    s.ManagerValid Mgr = true

/-- The precondition `check(!World || IsValid(World))` of `GetManager`: the
scope is the global one or a live world. -/
def ScopeOk (h : Host) (W : Option UWorld) : Prop :=
  W = none ∨ h.IsValidWorldPtr W = true

/-- The state `NewManager` leaves behind. -/
def UE4Singleton.NewManagerState (h : Host) (W : Option UWorld) (i : Nat) (s : State) : State :=
  { Managers := SetSlot s.Managers i (some s.NextManager)
    Singletons := Function.update s.Singletons s.NextManager TMap.Empty
    ManagerValid := Function.update s.ManagerValid s.NextManager true
    NextManager := s.NextManager + 1
    Referenced := s.Referenced ++
      [((match W with
          | none =>
            match NamespaceUE4Singleton.FindInstance h with
            | some Instance => Referencer.Instance Instance
            | none => Referencer.Root
          | some w => Referencer.World w), s.NextManager)] }

/-- The classes the ancestor loop of `RegisterAsSingletonImpl` processes when
started at a class, in the order it processes them. -/
def WalkedClasses (InNativeClass : Option UClass) : UClass → List UClass
  | UClass.Root n b => [UClass.Root n b]
  | UClass.Sub n b p =>
    if UE4Singleton.WalkBreaks InNativeClass (UClass.Sub n b p) then [UClass.Sub n b p]
    else UClass.Sub n b p :: WalkedClasses InNativeClass p

/-- The last class the ancestor loop processes: the first class of the chain at
which the loop breaks, the root when it never breaks. -/
def WalkEnd (InNativeClass : Option UClass) : UClass → UClass
  | UClass.Root n b => UClass.Root n b
  | UClass.Sub n b p =>
    if UE4Singleton.WalkBreaks InNativeClass (UClass.Sub n b p) then UClass.Sub n b p
    else WalkEnd InNativeClass p

/-- The weak manager pointer the registry holds for the scope `W`: the
`Manager` field of the first live entry whose world is `W`, null when there is
no such entry. -/
def ManagerOf (h : Host) (W : Option UWorld) : List FWorldPair → Option UManager
  | [] => none
  | e :: rest =>
    if !h.IsStale e.WeakWorld then
      if W = h.Get e.WeakWorld then e.Manager else ManagerOf h W rest
    else ManagerOf h W rest

/-- The mapping of the scope `W`: the map of the live manager the registry
holds for `W`, the empty map while the scope has no live manager. -/
def ScopeMap (h : Host) (W : Option UWorld) (s : State) : TMap :=
  match ManagerOf h W s.Managers with
  | some M => if s.ManagerValid M then s.Singletons M else TMap.Empty
  | none => TMap.Empty

/-- The instance the class `k` resolves to in the scope `W`, null when the
mapping of the scope has no entry for `k`. -/
def ScopedLookup (h : Host) (W : Option UWorld) (s : State) (k : UClass) : Option UObject :=
  TMap.Value (ScopeMap h W s) k

/-- The nearest native class of a class: the class itself when it is native,
otherwise the first native class among its ancestors, the root when no class
of the chain is native. -/
def NearestNative : UClass → UClass
  | UClass.Root n b => UClass.Root n b
  | UClass.Sub n b p => if b then UClass.Sub n b p else NearestNative p

/-- The classes from a class up to and including `Stop`, the whole chain up to
the root when `Stop` is not on it. -/
def ChainUpTo (Stop : UClass) : UClass → List UClass
  | UClass.Root n b => [UClass.Root n b]
  | UClass.Sub n b p =>
    if UClass.Sub n b p = Stop then [UClass.Sub n b p] else UClass.Sub n b p :: ChainUpTo Stop p

/-- The root of the chain of a class. -/
def RootOf : UClass → UClass
  | UClass.Root n b => UClass.Root n b
  | UClass.Sub _ _ p => RootOf p

/-- The guard of `RegisterAsSingletonImpl` after the stop-class check, line 148:
`IsRunningCommandlet() || (!World && Object->HasAnyFlags(RF_ClassDefaultObject))`. -/
def SkipsRegistration (h : Host) (Obj : UObject) (ctx : Option UContext) : Bool :=
  h.bRunningCommandlet || ((h.ResolveWorld ctx).isNone && h.IsClassDefaultObject Obj)

/-- The manager pointers stored in the registry, in order. -/
def ManagerIds (l : List FWorldPair) : List UManager :=
  l.filterMap FWorldPair.Manager

/-- Registry invariant: no manager is held by two entries, and every manager
held was allocated earlier (its identity is below `NextManager`). -/
def RegistryWF (s : State) : Prop :=
  (ManagerIds s.Managers).Nodup ∧ ∀ M ∈ ManagerIds s.Managers, M < s.NextManager

/-- The live entries of a registry, in order: the entries whose weak world
pointer is not stale. -/
def LiveEntries (h : Host) (l : List FWorldPair) : List FWorldPair :=
  l.filter (fun e => !h.IsStale e.WeakWorld)

/-- The scopes of the live entries of a registry, in order: a live world, or
null for the global scope. -/
def LiveScopes (h : Host) (l : List FWorldPair) : List (Option UWorld) :=
  (LiveEntries h l).map (fun e => h.Get e.WeakWorld)

/-- The registry predicate of the data model: at most one entry per distinct
live world and at most one null-world entry. -/
def UniqueScopes (h : Host) (l : List FWorldPair) : Prop :=
  (LiveScopes h l).Nodup

/-- No two entries of the registry carry the same weak world pointer, stale
entries included. -/
def WorldsNodup (s : State) : Prop :=
  (s.Managers.map FWorldPair.WeakWorld).Nodup

/-- The entry `FindOrAdd` appends for `InWorld`, lines 54-56: a defaulted
pair, bound to `InWorld` when `IsValid(InWorld)`. -/
def NewEntry (h : Host) (InWorld : Option UWorld) : FWorldPair :=
  { WeakWorld := if h.IsValidWorldPtr InWorld then InWorld else none, Manager := none }

/-- The entry is live and its world is `W`: the test that ends the scans of
`FindOrAdd` and `Remove`. -/
def Matches (h : Host) (W : Option UWorld) (e : FWorldPair) : Bool :=
  !h.IsStale e.WeakWorld && decide (W = h.Get e.WeakWorld)

/-- The mapping a creating `GetSingletonImpl` leaves in the scope, given the
mapping `m` before: the new instance is written into the entry of the
registration class, and the ancestor loop runs from the class of the new
instance when the nested `RegisterAsSingletonImpl` passes its stop-class check
and the guard of line 148. -/
def CreatedMap (h : Host) (New : UObject) (R : UClass) (W : Option UWorld) (m : TMap) : TMap :=
  if UE4Singleton.EnsureStopClass h New (some R) && !SkipsRegistration h New (W.map UContext.World) then
    (UE4Singleton.Walk New (some R) (h.GetClass New) (TMap.Assign m R (some New))).2
  else TMap.Assign m R (some New)

/-- The states the manager `UE4Singleton` can be in: the initial state, and
every state an operation of the class, a world-cleanup notification or the
engine collecting a manager object leads to, the engine being free to answer
differently at every step. -/
inductive Reachable : State → Prop
  | Initial : Reachable State.Initial
  | GetManager (h : Host) (W : Option UWorld) (b : Bool) (s s2 : State) (Mgr : UManager) :
      Reachable s → UE4Singleton.GetManager h W b s = some (Mgr, s2) → Reachable s2
  | Register (h : Host) (Obj : Option UObject) (ctx : Option UContext) (b : Bool) (N : Option UClass)
      (s s2 : State) (ret : Option UObject) :
      Reachable s → UE4Singleton.RegisterAsSingletonImpl h Obj ctx b N s = some (ret, s2) → Reachable s2
  | GetSingleton (h : Host) (C : Option UClass) (ctx : Option UContext) (b : Bool) (R : Option UClass)
      (s s2 : State) (ret : Option UObject) :
      Reachable s → UE4Singleton.GetSingletonImpl h C ctx b R s = some (ret, s2) → Reachable s2
  | WorldCleanup (h : Host) (W : Option UWorld) (s : State) :
      Reachable s → Reachable { s with Managers := NamespaceUE4Singleton.Remove h W s.Managers }
  | Collected (M : UManager) (s : State) :
      Reachable s → Reachable { s with ManagerValid := Function.update s.ManagerValid M false }

/-- The condition under which the loop of `FindInstance` breaks at a context,
lines 92-113: the world of the context is non-null and a game world, and the
context is of type `PIE`, or of type `Game`, or its world is in standalone net
mode, or in client net mode with PIE instance 2. -/
def Qualifies (h : Host) (Context : FWorldContext) : Bool :=
  match Context.World with
  | some CurWorld =>
    h.IsGameWorld CurWorld &&
      (decide (Context.WorldType = EWorldType.PIE) || (decide (Context.WorldType = EWorldType.Game) ||
        (decide (h.GetNetMode CurWorld = ENetMode.NM_Standalone) ||
          (decide (h.GetNetMode CurWorld = ENetMode.NM_Client) && decide (Context.PIEInstance = 2)))))
  | none => false

/-- Modelled from the spec: the selection by priority among the world
contexts: the first play-in-editor game-world context if there is one,
otherwise the first standalone `Game` context if there is one, otherwise the
first game-world context in standalone net mode or in client net mode with PIE
instance 2; null when there is none. -/
def PrioritySelect (h : Host) (l : List FWorldContext) : Option UWorld :=
  match l.find? (fun c => c.World.any h.IsGameWorld && decide (c.WorldType = EWorldType.PIE)) with
  | some c => c.World
  | none =>
    match l.find? (fun c => c.World.any h.IsGameWorld && decide (c.WorldType = EWorldType.Game)) with
    | some c => c.World
    | none =>
      (l.find? (fun c => c.World.any (fun w => h.IsGameWorld w &&
        (decide (h.GetNetMode w = ENetMode.NM_Standalone) ||
          (decide (h.GetNetMode w = ENetMode.NM_Client) && decide (c.PIEInstance = 2)))))).bind
        FWorldContext.World

/-! ## A small concrete engine, used to evaluate the operations -/

namespace Sample

/-- A native root class. -/
def A : UClass := UClass.Root 0 true

/-- A dynamically defined child of `A`. -/
def B : UClass := UClass.Sub 1 false A

/-- A dynamically defined child of `B`. -/
def D : UClass := UClass.Sub 2 false B

/-- The actor base class. -/
def Actor : UClass := UClass.Root 3 true

/-- The widget base class. -/
def Widget : UClass := UClass.Root 4 true

/-- A native actor class. -/
def Pawn : UClass := UClass.Sub 5 true Actor

/-- A native class unrelated to `A`. -/
def Other : UClass := UClass.Root 6 true

/-- A dynamically defined child of `Pawn`. -/
def ScriptPawn : UClass := UClass.Sub 7 false Pawn

/-- An engine with the live worlds 1 and 2. Object 6 is pending kill, object 8
is an actor of class `Pawn` living in world 1, object 5 is of class `A`,
object 10 of class `ScriptPawn`, every other object is of class `D`; the
factory hands out object 7 (object 8 for an actor class). -/
def Engine : Host where
  IsValidWorld := fun w => w == 1 || w == 2
  IsValidObject := fun o => o != 6
  GetClass := fun o => if o == 8 then Pawn else if o == 5 then A else if o == 10 then ScriptPawn else D
  ObjectWorld := fun o => if o == 8 then some 1 else none
  IsClassDefaultObject := fun _ => false
  bRunningCommandlet := false
  AActor := Actor
  UUserWidget := Widget
  bEditor := false
  WorldContexts := []
  IsGameWorld := fun _ => true
  GetNetMode := fun _ => ENetMode.NM_Standalone
  GetGameInstance := fun _ => some 0
  GameEngineInstance := some 0
  SingletonsCreateMethod := 0
  NewObject := fun _ _ => some 7
  CreateWidget := fun _ _ => some 7
  SpawnActor := fun _ _ => some 8

/-- The engine `Engine` as an editor host whose context list holds a `Game`
context for world 1 ahead of a play-in-editor context for world 2; the game
instance of world `w` is `w + 10`. -/
def Editor : Host :=
  { Engine with
    bEditor := true
    WorldContexts :=
      [{ World := some 1, WorldType := EWorldType.Game, PIEInstance := 0 },
        { World := some 2, WorldType := EWorldType.PIE, PIEInstance := 0 }]
    GetGameInstance := fun w => some (w + 10) }

/-- The engine `Engine` while a commandlet runs. -/
def Cooker : Host := { Engine with bRunningCommandlet := true }

/-- The engine `Engine` with a factory that hands out the pending-kill object 6. -/
def Broken : Host :=
  { Engine with NewObject := fun _ _ => some 6, CreateWidget := fun _ _ => some 6, SpawnActor := fun _ _ => some 6 }

/-- A state in which world 1 has the manager 0, whose map binds `A` to object 5
and `Pawn` to object 9. -/
def S1 : State where
  Managers := [{ WeakWorld := some 1, Manager := some 0 }]
  Singletons := fun M =>
    if M = 0 then TMap.Assign (TMap.Assign TMap.Empty A (some 5)) Pawn (some 9) else TMap.Empty
  ManagerValid := fun M => decide (M = 0)
  NextManager := 1
  Referenced := [(Referencer.World 1, 0)]

/-- A state in which world 1 has the manager 0, whose map binds `D` to the
pending-kill object 6. -/
def S3 : State where
  Managers := [{ WeakWorld := some 1, Manager := some 0 }]
  Singletons := fun M => if M = 0 then TMap.Assign TMap.Empty D (some 6) else TMap.Empty
  ManagerValid := fun M => decide (M = 0)
  NextManager := 1
  Referenced := [(Referencer.World 1, 0)]

/-- A state in which world 2 has the manager 0, whose map binds `D` to object 9. -/
def S2 : State where
  Managers := [{ WeakWorld := some 2, Manager := some 0 }]
  Singletons := fun M => if M = 0 then TMap.Assign TMap.Empty D (some 9) else TMap.Empty
  ManagerValid := fun M => decide (M = 0)
  NextManager := 1
  Referenced := [(Referencer.World 2, 0)]

/-- A registry with the stale worlds 3 and 4 around the live world 1 and the
global scope. -/
def L : List FWorldPair :=
  [{ WeakWorld := some 3, Manager := some 0 }, { WeakWorld := some 1, Manager := some 1 },
    { WeakWorld := some 4, Manager := some 5 }, { WeakWorld := none, Manager := some 2 }]

/-- The state after the first `GetManager` call for the global scope. -/
def SG : State :=
  UE4Singleton.NewManagerState Engine none 0 { State.Initial with Managers := [NewEntry Engine none] }

end Sample

/-! ## Facts about the map operations -/

namespace TMap

@[simp] theorem Value_Assign_same (m : TMap) (k : UClass) (v : Option UObject) :
    Value (Assign m k v) k = v := by
  simp [Value, Assign]

theorem Value_Assign_other (m : TMap) {k k' : UClass} (v : Option UObject) (hk : k' ≠ k) :
    Value (Assign m k v) k' = Value m k' := by
  simp [Value, Assign, Function.update_noteq hk]

theorem Assign_other (m : TMap) {k k' : UClass} (v : Option UObject) (hk : k' ≠ k) :
    Assign m k v k' = m k' := by
  simp [Assign, Function.update_noteq hk]

@[simp] theorem Assign_same (m : TMap) (k : UClass) (v : Option UObject) :
    Assign m k v k = some v := by
  simp [Assign]

@[simp] theorem Assign_FindOrAdd (m : TMap) (k : UClass) (v : Option UObject) :
    Assign (FindOrAdd m k) k v = Assign m k v := by
  unfold FindOrAdd Assign
  cases hm : m k <;> simp

@[simp] theorem Value_FindOrAdd (m : TMap) (k k' : UClass) :
    Value (FindOrAdd m k) k' = Value m k' := by
  unfold FindOrAdd
  cases hm : m k
  · by_cases hk : k' = k
    · subst hk; simp [Value, hm]
    · simp [Value, Function.update_noteq hk]
  · rfl

theorem FindOrAdd_other (m : TMap) {k k' : UClass} (hk : k' ≠ k) :
    FindOrAdd m k k' = m k' := by
  unfold FindOrAdd
  cases hm : m k
  · simp [Function.update_noteq hk]
  · rfl

theorem FindOrAdd_same (m : TMap) (k : UClass) :
    FindOrAdd m k k = some (Value m k) := by
  unfold FindOrAdd Value
  cases hm : m k <;> simp [hm]

theorem FindOrAdd_of_bound {m : TMap} {k : UClass} {v : Option UObject} (hm : m k = some v) :
    FindOrAdd m k = m := by
  simp [FindOrAdd, hm]

theorem bound_of_Value {m : TMap} {k : UClass} {p : UObject} (hv : Value m k = some p) :
    m k = some (some p) := by
  unfold Value at hv
  cases hm : m k with
  | none => simp [hm] at hv
  | some v => simp [hm] at hv; simp [hv]

end TMap

/-! ## Facts about the registry scan -/

namespace NamespaceUE4Singleton

theorem FindOrAdd_index_lt (h : Host) (W : Option UWorld) (l : List FWorldPair) :
    (FindOrAdd h W l).2 < (FindOrAdd h W l).1.length := by
  induction l with
  | nil => simp [FindOrAdd]
  | cons e rest ih =>
    unfold FindOrAdd
    by_cases hs : h.IsStale e.WeakWorld = true
    · simpa [hs] using ih
    · by_cases hw : W = h.Get e.WeakWorld
      · simp [hs, hw]
      · simpa [hs, hw] using ih

end NamespaceUE4Singleton

theorem SetSlot_length (l : List FWorldPair) (i : Nat) (v : Option UManager) :
    (SetSlot l i v).length = l.length := by
  induction l generalizing i with
  | nil => simp [SetSlot]
  | cons e rest ih =>
    cases i with
    | zero => simp [SetSlot]
    | succ j => simp [SetSlot, ih]

theorem SlotAt_SetSlot (l : List FWorldPair) (i : Nat) (v : Option UManager) (hi : i < l.length) :
    SlotAt (SetSlot l i v) i = v := by
  induction l generalizing i with
  | nil => simp at hi
  | cons e rest ih =>
    cases i with
    | zero => simp [SetSlot, SlotAt]
    | succ j =>
      have hj : j < rest.length := by simpa using hi
      simpa [SetSlot, SlotAt] using ih j hj

namespace NamespaceUE4Singleton

theorem FindOrAdd_SetSlot (h : Host) (W : Option UWorld) (hW : ScopeOk h W) (v : Option UManager)
    (l : List FWorldPair) :
    FindOrAdd h W (SetSlot (FindOrAdd h W l).1 (FindOrAdd h W l).2 v)
      = (SetSlot (FindOrAdd h W l).1 (FindOrAdd h W l).2 v, (FindOrAdd h W l).2) := by
  induction l with
  | nil =>
    rcases hW with hW | hW
    · subst hW
      simp [FindOrAdd, SetSlot, Host.IsValidWorldPtr, Host.IsStale, Host.Get]
    · cases W with
      | none => simp [Host.IsValidWorldPtr] at hW
      | some w =>
        have hw : h.IsValidWorld w = true := by simpa [Host.IsValidWorldPtr] using hW
        simp [FindOrAdd, SetSlot, Host.IsValidWorldPtr, Host.IsStale, Host.Get, hw]
  | cons e rest ih =>
    by_cases hs : h.IsStale e.WeakWorld = true
    · have h1 : FindOrAdd h W (e :: rest) = FindOrAdd h W rest := by
        simp [FindOrAdd, hs]
      rw [h1]; exact ih
    · by_cases hw : W = h.Get e.WeakWorld
      · have h1 : FindOrAdd h W (e :: rest) = (e :: rest, 0) := by
          simp [FindOrAdd, hs, hw]
        rw [h1]
        simp only [SetSlot]
        rw [FindOrAdd]
        simp [hs, ← hw]
      · have h1 : FindOrAdd h W (e :: rest)
            = (e :: (FindOrAdd h W rest).1, (FindOrAdd h W rest).2 + 1) := by
          simp [FindOrAdd, hs, hw]
        rw [h1]
        simp only [SetSlot]
        rw [FindOrAdd]
        simp [hs, hw, ih]

theorem FindOrAdd_stable (h : Host) (W : Option UWorld) (hW : ScopeOk h W) (l : List FWorldPair) :
    FindOrAdd h W (FindOrAdd h W l).1 = FindOrAdd h W l := by
  induction l with
  | nil =>
    rcases hW with hW | hW
    · subst hW
      simp [FindOrAdd, Host.IsValidWorldPtr, Host.IsStale, Host.Get]
    · cases W with
      | none => simp [Host.IsValidWorldPtr] at hW
      | some w =>
        have hw : h.IsValidWorld w = true := by simpa [Host.IsValidWorldPtr] using hW
        simp [FindOrAdd, Host.IsValidWorldPtr, Host.IsStale, Host.Get, hw]
  | cons e rest ih =>
    by_cases hs : h.IsStale e.WeakWorld = true
    · have h1 : FindOrAdd h W (e :: rest) = FindOrAdd h W rest := by
        simp [FindOrAdd, hs]
      rw [h1]; exact ih
    · by_cases hw : W = h.Get e.WeakWorld
      · have h1 : FindOrAdd h W (e :: rest) = (e :: rest, 0) := by
          simp [FindOrAdd, hs, hw]
        rw [h1]; exact h1
      · have h1 : FindOrAdd h W (e :: rest)
            = (e :: (FindOrAdd h W rest).1, (FindOrAdd h W rest).2 + 1) := by
          simp [FindOrAdd, hs, hw]
        rw [h1]
        show FindOrAdd h W (e :: (FindOrAdd h W rest).1) = _
        rw [FindOrAdd]
        simp [hs, hw, ih]

end NamespaceUE4Singleton

/-! ## Facts about `UE4Singleton::GetManager` -/

namespace UE4Singleton

theorem ScopeOk_check {h : Host} {W : Option UWorld} (hW : ScopeOk h W) :
    (!(W.isNone || h.IsValidWorldPtr W)) = false := by
  rcases hW with hW | hW
  · subst hW; rfl
  · simp [hW]

theorem NewManager_eq (h : Host) (W : Option UWorld) (i : Nat) (s : State) (hi : i < s.Managers.length) :
    NewManager h W i s = some (s.NextManager, NewManagerState h W i s) := by
  unfold NewManager NewManagerState
  simp [State.Slot, State.IsValidManager, SlotAt_SetSlot _ _ _ hi]

theorem GetManager_of_Resolves {h : Host} {W : Option UWorld} {s : State} {Mgr : UManager}
    (b : Bool) (hW : ScopeOk h W) (hr : Resolves h W s Mgr) :
    GetManager h W b s = some (Mgr, s) := by
  obtain ⟨h1, h2, h3⟩ := hr
  unfold GetManager
  rw [ScopeOk_check hW]
  have hs : ({ s with Managers := (NamespaceUE4Singleton.FindOrAdd h W s.Managers).1 } : State) = s := by
    cases s; simp at h1; simp [h1]
  simp only [hs, h2, h3]
  simp

/-- Outcome of `GetManager` on an accepted scope: it returns a manager, the
registry afterwards resolves the scope to it, and either the manager was found
(no map changed) or it is the newly allocated one (with an empty map). -/
theorem GetManager_cases (h : Host) (W : Option UWorld) (b : Bool) (s : State) (hW : ScopeOk h W) :
    ∃ Mgr s1, GetManager h W b s = some (Mgr, s1) ∧ Resolves h W s1 Mgr ∧
      ((s1 = { s with Managers := (NamespaceUE4Singleton.FindOrAdd h W s.Managers).1 } ∧
          s.ManagerValid Mgr = true ∧
          SlotAt (NamespaceUE4Singleton.FindOrAdd h W s.Managers).1
            (NamespaceUE4Singleton.FindOrAdd h W s.Managers).2 = some Mgr) ∨
        (Mgr = s.NextManager ∧
          s1 = NewManagerState h W (NamespaceUE4Singleton.FindOrAdd h W s.Managers).2
            { s with Managers := (NamespaceUE4Singleton.FindOrAdd h W s.Managers).1 } ∧
          ∀ M, SlotAt (NamespaceUE4Singleton.FindOrAdd h W s.Managers).1
            (NamespaceUE4Singleton.FindOrAdd h W s.Managers).2 = some M → s.ManagerValid M = false)) := by
  have hlt := NamespaceUE4Singleton.FindOrAdd_index_lt h W s.Managers
  have e1 := NewManager_eq h W (NamespaceUE4Singleton.FindOrAdd h W s.Managers).2
      { s with Managers := (NamespaceUE4Singleton.FindOrAdd h W s.Managers).1 } hlt
  have hst := NamespaceUE4Singleton.FindOrAdd_SetSlot h W hW (some s.NextManager) s.Managers
  have hres : Resolves h W (NewManagerState h W (NamespaceUE4Singleton.FindOrAdd h W s.Managers).2
      { s with Managers := (NamespaceUE4Singleton.FindOrAdd h W s.Managers).1 }) s.NextManager := by
    refine ⟨?_, ?_, ?_⟩
    · simp only [NewManagerState]; rw [hst]
    · simp only [NewManagerState, State.Slot]; rw [hst]
      exact SlotAt_SetSlot _ _ _ hlt
    · simp [NewManagerState]
  unfold GetManager
  rw [ScopeOk_check hW]
  simp only [Bool.false_eq_true, if_false]
  cases hslot : SlotAt (NamespaceUE4Singleton.FindOrAdd h W s.Managers).1
      (NamespaceUE4Singleton.FindOrAdd h W s.Managers).2 with
  | none =>
    refine ⟨s.NextManager, _, ?_, hres, Or.inr ⟨rfl, rfl, ?_⟩⟩
    · simp only [State.Slot, hslot]; exact e1
    · intro M hM; simp at hM
  | some M =>
    by_cases hv : s.ManagerValid M = true
    · refine ⟨M, { s with Managers := (NamespaceUE4Singleton.FindOrAdd h W s.Managers).1 }, ?_, ?_,
        Or.inl ⟨rfl, hv, rfl⟩⟩
      · simp [State.Slot, hslot, hv]
      · refine ⟨?_, ?_, hv⟩
        · show (NamespaceUE4Singleton.FindOrAdd h W (NamespaceUE4Singleton.FindOrAdd h W s.Managers).1).1 = _
          rw [NamespaceUE4Singleton.FindOrAdd_stable h W hW]
        · show SlotAt _ (NamespaceUE4Singleton.FindOrAdd h W
              (NamespaceUE4Singleton.FindOrAdd h W s.Managers).1).2 = _
          rw [NamespaceUE4Singleton.FindOrAdd_stable h W hW]
          exact hslot
    · refine ⟨s.NextManager, _, ?_, hres, Or.inr ⟨rfl, rfl, ?_⟩⟩
      · simp only [State.Slot, hslot, hv]; exact e1
      · intro M2 hM; simp at hM; subst hM; simpa using hv

end UE4Singleton

/-! ## Facts about the class chain and the ancestor loop -/

theorem UClass.sizeOf_le_of_mem_Chain {c k : UClass} (hk : k ∈ UClass.Chain c) : sizeOf k ≤ sizeOf c := by
  induction c with
  | Root n b =>
    simp [UClass.Chain] at hk
    subst hk; exact Nat.le_refl _
  | Sub n b p ih =>
    simp only [UClass.Chain, List.mem_cons] at hk
    rcases hk with hk | hk
    · subst hk; exact Nat.le_refl _
    · have := ih hk
      simp only [UClass.Sub.sizeOf_spec]
      omega

theorem UClass.Sub_not_mem_Chain (n : Nat) (b : Bool) (p : UClass) : UClass.Sub n b p ∉ UClass.Chain p := by
  intro hk
  have := UClass.sizeOf_le_of_mem_Chain hk
  simp only [UClass.Sub.sizeOf_spec] at this
  omega

theorem UClass.self_mem_Chain (c : UClass) : c ∈ UClass.Chain c := by
  cases c <;> simp [UClass.Chain]

theorem UClass.IsChildOf_iff_mem_Chain (c k : UClass) : c.IsChildOf k = true ↔ k ∈ UClass.Chain c := by
  induction c with
  | Root n b =>
    simp only [UClass.IsChildOf, UClass.Chain, decide_eq_true_eq, List.mem_singleton]
    exact eq_comm
  | Sub n b p ih =>
    simp only [UClass.IsChildOf, UClass.Chain, Bool.or_eq_true, decide_eq_true_eq, List.mem_cons, ih]
    constructor
    · rintro (h1 | h1)
      · exact Or.inl h1.symm
      · exact Or.inr h1
    · rintro (h1 | h1)
      · exact Or.inl h1.symm
      · exact Or.inr h1

theorem WalkedClasses_subset_Chain (N : Option UClass) (c : UClass) :
    ∀ k, k ∈ WalkedClasses N c → k ∈ UClass.Chain c := by
  induction c with
  | Root n b => intro k hk; simpa [WalkedClasses, UClass.Chain] using hk
  | Sub n b p ih =>
    intro k hk
    unfold WalkedClasses at hk
    by_cases hb : UE4Singleton.WalkBreaks N (UClass.Sub n b p) = true
    · simp [hb] at hk; simp [UClass.Chain, hk]
    · simp [hb] at hk
      rcases hk with hk | hk
      · simp [UClass.Chain, hk]
      · simp [UClass.Chain, ih k hk]

theorem self_mem_WalkedClasses (N : Option UClass) (c : UClass) : c ∈ WalkedClasses N c := by
  cases c with
  | Root n b => simp [WalkedClasses]
  | Sub n b p =>
    unfold WalkedClasses
    by_cases hb : UE4Singleton.WalkBreaks N (UClass.Sub n b p) = true <;> simp [hb]

theorem WalkEnd_mem_WalkedClasses (N : Option UClass) (c : UClass) : WalkEnd N c ∈ WalkedClasses N c := by
  induction c with
  | Root n b => simp [WalkEnd, WalkedClasses]
  | Sub n b p ih =>
    unfold WalkEnd WalkedClasses
    by_cases hb : UE4Singleton.WalkBreaks N (UClass.Sub n b p) = true
    · simp [hb]
    · simp [hb, ih]

namespace UE4Singleton

/-- The map the ancestor loop leaves: every processed class is bound to the
object, every other key is as before. -/
theorem Walk_map (Obj : UObject) (N : Option UClass) (c : UClass) (m : TMap) (k : UClass) :
    (Walk Obj N c m).2 k = if k ∈ WalkedClasses N c then some (some Obj) else m k := by
  induction c generalizing m with
  | Root n b =>
    by_cases hk : k = UClass.Root n b
    · subst hk; simp [Walk, WalkedClasses]
    · simp [Walk, WalkedClasses, hk, TMap.Assign_other]
  | Sub n b p ih =>
    unfold Walk WalkedClasses
    by_cases hb : WalkBreaks N (UClass.Sub n b p) = true
    · by_cases hk : k = UClass.Sub n b p
      · subst hk; simp [hb]
      · simp [hb, hk, TMap.Assign_other]
    · simp only [hb, Bool.false_eq_true, if_false, List.mem_cons]
      rw [ih, TMap.Assign_FindOrAdd]
      by_cases hk : k = UClass.Sub n b p
      · subst hk; simp
      · simp [hk, TMap.Assign_other]

/-- The pointer the ancestor loop returns: what the map held, before the loop,
for the last class processed. -/
theorem Walk_result (Obj : UObject) (N : Option UClass) (c : UClass) (m : TMap) :
    (Walk Obj N c m).1 = TMap.Value m (WalkEnd N c) := by
  induction c generalizing m with
  | Root n b => simp [Walk, WalkEnd]
  | Sub n b p ih =>
    unfold Walk WalkEnd
    by_cases hb : WalkBreaks N (UClass.Sub n b p) = true
    · simp [hb]
    · simp only [hb, Bool.false_eq_true, if_false]
      rw [ih]
      have hne : WalkEnd N p ≠ UClass.Sub n b p := by
        intro he
        have h1 := WalkedClasses_subset_Chain N p _ (WalkEnd_mem_WalkedClasses N p)
        rw [he] at h1
        exact UClass.Sub_not_mem_Chain n b p h1
      simp [TMap.Value_Assign_other _ _ hne]

theorem Walk_Value (Obj : UObject) (N : Option UClass) (c : UClass) (m : TMap) (k : UClass) :
    TMap.Value (Walk Obj N c m).2 k = if k ∈ WalkedClasses N c then some Obj else TMap.Value m k := by
  unfold TMap.Value
  rw [Walk_map]
  by_cases hk : k ∈ WalkedClasses N c <;> simp [hk]

end UE4Singleton

theorem Host.ResolveWorld_map_World (h : Host) (W : Option UWorld) :
    h.ResolveWorld (W.map UContext.World) = W := by
  cases W <;> rfl

/-! ## Facts about `UE4Singleton::RegisterAsSingletonImpl` and `GetSingletonImpl` -/

namespace State

@[simp] theorem SetMap_Singletons_same (s : State) (Mgr : UManager) (m : TMap) :
    (s.SetMap Mgr m).Singletons Mgr = m := by
  simp [SetMap]

theorem SetMap_Singletons_other (s : State) {Mgr M : UManager} (m : TMap) (hM : M ≠ Mgr) :
    (s.SetMap Mgr m).Singletons M = s.Singletons M := by
  simp [SetMap, Function.update_noteq hM]

@[simp] theorem SetMap_Managers (s : State) (Mgr : UManager) (m : TMap) :
    (s.SetMap Mgr m).Managers = s.Managers := rfl

@[simp] theorem SetMap_ManagerValid (s : State) (Mgr : UManager) (m : TMap) :
    (s.SetMap Mgr m).ManagerValid = s.ManagerValid := rfl

@[simp] theorem SetMap_NextManager (s : State) (Mgr : UManager) (m : TMap) :
    (s.SetMap Mgr m).NextManager = s.NextManager := rfl

@[simp] theorem SetMap_Referenced (s : State) (Mgr : UManager) (m : TMap) :
    (s.SetMap Mgr m).Referenced = s.Referenced := rfl

@[simp] theorem SetMap_SetMap (s : State) (Mgr : UManager) (m m2 : TMap) :
    (s.SetMap Mgr m).SetMap Mgr m2 = s.SetMap Mgr m2 := by
  simp [SetMap]

@[simp] theorem SetMap_self (s : State) (Mgr : UManager) :
    s.SetMap Mgr (s.Singletons Mgr) = s := by
  cases s; simp [SetMap]

@[simp] theorem Lookup_SetMap_same (s : State) (Mgr : UManager) (m : TMap) (k : UClass) :
    (s.SetMap Mgr m).Lookup Mgr k = TMap.Value m k := by
  simp [Lookup]

end State

namespace UE4Singleton

theorem Resolves_SetMap {h : Host} {W : Option UWorld} {s : State} {Mgr : UManager}
    (hr : Resolves h W s Mgr) (M : UManager) (m : TMap) : Resolves h W (s.SetMap M m) Mgr := hr

/-- An accepted registration on a registry that already resolves the scope. -/
theorem Register_accepted {h : Host} {Obj : UObject} {ctx : Option UContext} (b : Bool)
    {N : Option UClass} {s : State} {Mgr : UManager}
    (hv : h.IsValidObject Obj = true) (hW : ScopeOk h (h.ResolveWorld ctx))
    (hr : Resolves h (h.ResolveWorld ctx) s Mgr) (hstop : EnsureStopClass h Obj N = true)
    (hcmd : (h.bRunningCommandlet
      || ((h.ResolveWorld ctx).isNone && h.IsClassDefaultObject Obj)) = false) :
    RegisterAsSingletonImpl h (some Obj) ctx b N s =
      some ((RegisterInMap Obj (h.GetClass Obj) b N (s.Singletons Mgr)).1,
        s.SetMap Mgr (RegisterInMap Obj (h.GetClass Obj) b N (s.Singletons Mgr)).2) := by
  unfold RegisterAsSingletonImpl
  simp only [hv, hstop, hcmd, GetManager_of_Resolves true hW hr]
  simp

/-- A registration the stop-class check or the commandlet check turns down. -/
theorem Register_rejected {h : Host} {Obj : UObject} {ctx : Option UContext} (b : Bool)
    {N : Option UClass} {s : State} (hv : h.IsValidObject Obj = true)
    (hrej : EnsureStopClass h Obj N = false ∨ (h.bRunningCommandlet
      || ((h.ResolveWorld ctx).isNone && h.IsClassDefaultObject Obj)) = true) :
    RegisterAsSingletonImpl h (some Obj) ctx b N s = some (none, s) := by
  unfold RegisterAsSingletonImpl
  rcases hrej with hrej | hrej
  · simp [hv, hrej]
  · simp only [hv, hrej]; simp

/-- A lookup that finds a valid instance returns it and changes nothing. -/
theorem Get_found {h : Host} {C : UClass} {ctx : Option UContext} (b : Bool) {RegClass : Option UClass}
    {s : State} {Mgr : UManager} {p : UObject}
    (hW : ScopeOk h (h.ResolveWorld ctx)) (hr : Resolves h (h.ResolveWorld ctx) s Mgr)
    (hp : TMap.Value (s.Singletons Mgr) (RegClass.getD C) = some p) (hv : h.IsValidObject p = true) :
    GetSingletonImpl h (some C) ctx b RegClass s = some (some p, s) := by
  unfold GetSingletonImpl
  simp only [GetManager_of_Resolves b hW hr, hp, Host.IsValid, hv]
  rw [TMap.FindOrAdd_of_bound (TMap.bound_of_Value hp), State.SetMap_self]
  simp

/-- A creating lookup on an accepted scope whose factory succeeds returns a
valid instance and leaves it bound to the registration class in the manager
the registry resolves the scope to. -/
theorem Get_create (h : Host) (C : UClass) (ctx : Option UContext) (RegClass : Option UClass) (s : State)
    (hW : ScopeOk h (h.ResolveWorld ctx))
    (hcreate : ∃ New, CreateInstanceImpl h ((h.ResolveWorld ctx).map UContext.World) (some C) = some (some New)
      ∧ h.IsValidObject New = true) :
    ∃ p Mgr t, GetSingletonImpl h (some C) ctx true RegClass s = some (some p, t) ∧
      Resolves h (h.ResolveWorld ctx) t Mgr ∧
      TMap.Value (t.Singletons Mgr) (RegClass.getD C) = some p ∧ h.IsValidObject p = true := by
  obtain ⟨New, hnew, hnv⟩ := hcreate
  obtain ⟨Mgr, s1, hg, hr, -⟩ := GetManager_cases h (h.ResolveWorld ctx) true s hW
  by_cases hpv : h.IsValid (TMap.Value (s1.Singletons Mgr) (RegClass.getD C)) = true
  · cases hp : TMap.Value (s1.Singletons Mgr) (RegClass.getD C) with
    | none => simp [hp, Host.IsValid] at hpv
    | some p =>
      have hv : h.IsValidObject p = true := by simpa [hp, Host.IsValid] using hpv
      refine ⟨p, Mgr, s1, ?_, hr, hp, hv⟩
      unfold GetSingletonImpl
      simp only [hg, hp, Host.IsValid, hv]
      rw [TMap.FindOrAdd_of_bound (TMap.bound_of_Value hp), State.SetMap_self]
      simp
  · have hcond : (!h.IsValid (TMap.Value (s1.Singletons Mgr) (RegClass.getD C)) && true) = true := by
      simp [hpv]
    have hnv2 : h.IsValid (some New) = true := hnv
    have hW3 : ScopeOk h (h.ResolveWorld ((h.ResolveWorld ctx).map UContext.World)) := by
      rw [Host.ResolveWorld_map_World]; exact hW
    have hr3 : Resolves h (h.ResolveWorld ((h.ResolveWorld ctx).map UContext.World))
        (s1.SetMap Mgr (TMap.Assign (s1.Singletons Mgr) (RegClass.getD C) (some New))) Mgr := by
      rw [Host.ResolveWorld_map_World]; exact hr
    have hr3b : Resolves h (h.ResolveWorld ctx)
        (s1.SetMap Mgr (TMap.Assign (s1.Singletons Mgr) (RegClass.getD C) (some New))) Mgr := hr
    have hunf : GetSingletonImpl h (some C) ctx true RegClass s =
        match RegisterAsSingletonImpl h (some New) ((h.ResolveWorld ctx).map UContext.World) true
            (some (RegClass.getD C))
            (s1.SetMap Mgr (TMap.Assign (s1.Singletons Mgr) (RegClass.getD C) (some New))) with
        | none => none
        | some (_, s4) => some (s4.Lookup Mgr (RegClass.getD C), s4) := by
      unfold GetSingletonImpl
      simp only [hg, hcond, if_true, hnew, hnv2, State.SetMap_SetMap, State.SetMap_Singletons_same,
        TMap.Assign_FindOrAdd]
    rw [hunf]
    by_cases hacc : EnsureStopClass h New (some (RegClass.getD C)) = true ∧ (h.bRunningCommandlet
          || ((h.ResolveWorld ((h.ResolveWorld ctx).map UContext.World)).isNone
            && h.IsClassDefaultObject New)) = false
    · rw [Register_accepted true hnv hW3 hr3 hacc.1 hacc.2]
      have hval : TMap.Value (RegisterInMap New (h.GetClass New) true (some (RegClass.getD C))
          (TMap.Assign (s1.Singletons Mgr) (RegClass.getD C) (some New))).2 (RegClass.getD C) = some New := by
        simp only [RegisterInMap, Bool.not_true, Bool.false_eq_true, if_false]
        rw [Walk_Value]
        simp
      refine ⟨New, Mgr, s1.SetMap Mgr (RegisterInMap New (h.GetClass New) true (some (RegClass.getD C))
          (TMap.Assign (s1.Singletons Mgr) (RegClass.getD C) (some New))).2, ?_, Resolves_SetMap hr Mgr _, ?_, hnv⟩
      · simp only [State.SetMap_Singletons_same, State.SetMap_SetMap, State.Lookup_SetMap_same, hval]
      · simp only [State.SetMap_Singletons_same, hval]
    · have hrej : EnsureStopClass h New (some (RegClass.getD C)) = false ∨ (h.bRunningCommandlet
          || ((h.ResolveWorld ((h.ResolveWorld ctx).map UContext.World)).isNone
            && h.IsClassDefaultObject New)) = true := by
        by_cases h1 : EnsureStopClass h New (some (RegClass.getD C)) = true
        · right
          by_contra h2
          exact hacc ⟨h1, by simpa using h2⟩
        · left; simpa using h1
      rw [Register_rejected true hnv hrej]
      refine ⟨New, Mgr, s1.SetMap Mgr (TMap.Assign (s1.Singletons Mgr) (RegClass.getD C) (some New)),
        ?_, hr3b, by simp, hnv⟩
      simp only [State.Lookup_SetMap_same, TMap.Value_Assign_same]

end UE4Singleton

/-! ## Facts about the manager the registry holds for a scope -/

namespace NamespaceUE4Singleton

theorem SlotAt_FindOrAdd (h : Host) (W : Option UWorld) (l : List FWorldPair) :
    SlotAt (FindOrAdd h W l).1 (FindOrAdd h W l).2 = ManagerOf h W l := by
  induction l with
  | nil => simp [FindOrAdd, SlotAt, ManagerOf]
  | cons e rest ih =>
    unfold FindOrAdd ManagerOf
    by_cases hs : h.IsStale e.WeakWorld = true
    · simpa [hs] using ih
    · by_cases hw : W = h.Get e.WeakWorld
      · simp [hs, ← hw, SlotAt]
      · simpa [hs, hw, SlotAt] using ih

theorem ManagerOf_FindOrAdd (h : Host) (W1 W2 : Option UWorld) (l : List FWorldPair) :
    ManagerOf h W2 (FindOrAdd h W1 l).1 = ManagerOf h W2 l := by
  induction l with
  | nil =>
    simp only [FindOrAdd, ManagerOf]
    by_cases h1 : h.IsValidWorldPtr W1 = true
    · cases W1 with
      | none => simp [Host.IsValidWorldPtr] at h1
      | some w => simp [h1, Host.IsStale]
    · simp [h1, Host.IsStale]
  | cons e rest ih =>
    by_cases hs : h.IsStale e.WeakWorld = true
    · have h1 : FindOrAdd h W1 (e :: rest) = FindOrAdd h W1 rest := by simp [FindOrAdd, hs]
      rw [h1, ih]; simp [ManagerOf, hs]
    · by_cases hw : W1 = h.Get e.WeakWorld
      · have h1 : FindOrAdd h W1 (e :: rest) = (e :: rest, 0) := by simp [FindOrAdd, hs, hw]
        rw [h1]
      · have h1 : FindOrAdd h W1 (e :: rest)
            = (e :: (FindOrAdd h W1 rest).1, (FindOrAdd h W1 rest).2 + 1) := by
          simp [FindOrAdd, hs, hw]
        rw [h1]
        simp only [ManagerOf, ih]

theorem ManagerOf_SetSlot_other (h : Host) (W1 W2 : Option UWorld) (hW : ScopeOk h W1) (hne : W1 ≠ W2)
    (v : Option UManager) (l : List FWorldPair) :
    ManagerOf h W2 (SetSlot (FindOrAdd h W1 l).1 (FindOrAdd h W1 l).2 v) = ManagerOf h W2 l := by
  induction l with
  | nil =>
    rcases hW with hW | hW
    · subst hW
      have : ¬ W2 = none := fun hh => hne hh.symm
      simp [FindOrAdd, SetSlot, ManagerOf, Host.IsValidWorldPtr, Host.IsStale, Host.Get, this]
    · cases W1 with
      | none => simp [Host.IsValidWorldPtr] at hW
      | some w =>
        have hw : h.IsValidWorld w = true := by simpa [Host.IsValidWorldPtr] using hW
        have : ¬ W2 = some w := fun hh => hne hh.symm
        simp [FindOrAdd, SetSlot, ManagerOf, Host.IsValidWorldPtr, Host.IsStale, Host.Get, hw, this]
  | cons e rest ih =>
    by_cases hs : h.IsStale e.WeakWorld = true
    · have h1 : FindOrAdd h W1 (e :: rest) = FindOrAdd h W1 rest := by simp [FindOrAdd, hs]
      rw [h1, ih]; simp [ManagerOf, hs]
    · by_cases hw : W1 = h.Get e.WeakWorld
      · have h1 : FindOrAdd h W1 (e :: rest) = (e :: rest, 0) := by simp [FindOrAdd, hs, hw]
        have h2 : ¬ W2 = h.Get e.WeakWorld := fun hh => hne (hw.trans hh.symm)
        rw [h1]
        simp [SetSlot, ManagerOf, hs, h2]
      · have h1 : FindOrAdd h W1 (e :: rest)
            = (e :: (FindOrAdd h W1 rest).1, (FindOrAdd h W1 rest).2 + 1) := by
          simp [FindOrAdd, hs, hw]
        rw [h1]
        simp only [SetSlot, ManagerOf, ih]

end NamespaceUE4Singleton

theorem ManagerOf_mem {h : Host} {W : Option UWorld} {l : List FWorldPair} {M : UManager}
    (hM : ManagerOf h W l = some M) : M ∈ ManagerIds l := by
  induction l with
  | nil => simp [ManagerOf] at hM
  | cons e rest ih =>
    unfold ManagerOf at hM
    have hsub : ∀ x, x ∈ ManagerIds rest → x ∈ ManagerIds (e :: rest) := by
      intro x hx
      unfold ManagerIds at hx ⊢
      rw [List.filterMap_cons]
      cases e.Manager <;> simp [hx]
    by_cases hs : h.IsStale e.WeakWorld = true
    · simp [hs] at hM; exact hsub _ (ih hM)
    · by_cases hw : W = h.Get e.WeakWorld
      · simp [hs, ← hw] at hM
        unfold ManagerIds
        rw [List.filterMap_cons]
        simp [hM]
      · simp [hs, hw] at hM; exact hsub _ (ih hM)

theorem ManagerIds_cons_nodup {e : FWorldPair} {rest : List FWorldPair}
    (hn : (ManagerIds (e :: rest)).Nodup) :
    (ManagerIds rest).Nodup ∧ ∀ M, e.Manager = some M → M ∉ ManagerIds rest := by
  unfold ManagerIds at hn ⊢
  rw [List.filterMap_cons] at hn
  cases he : e.Manager with
  | none => simp [he] at hn; exact ⟨hn, by simp⟩
  | some M =>
    simp [he] at hn
    refine ⟨hn.2, ?_⟩
    intro M2 hM2
    simp at hM2; subst hM2
    simpa using hn.1

theorem ManagerOf_ne {h : Host} {W1 W2 : Option UWorld} {l : List FWorldPair} {M : UManager}
    (hn : (ManagerIds l).Nodup) (hne : W1 ≠ W2) (h1 : ManagerOf h W1 l = some M) :
    ManagerOf h W2 l ≠ some M := by
  induction l with
  | nil => simp [ManagerOf] at h1
  | cons e rest ih =>
    obtain ⟨hn1, hn2⟩ := ManagerIds_cons_nodup hn
    unfold ManagerOf at h1 ⊢
    by_cases hs : h.IsStale e.WeakWorld = true
    · simp [hs] at h1 ⊢; exact ih hn1 h1
    · by_cases hw1 : W1 = h.Get e.WeakWorld
      · have hw2 : ¬ W2 = h.Get e.WeakWorld := fun hh => hne (hw1.trans hh.symm)
        simp [hs, ← hw1] at h1
        simp only [hs, hw2]
        simp only [Bool.not_false, if_true, if_false]
        intro h2
        exact hn2 M h1 (ManagerOf_mem h2)
      · by_cases hw2 : W2 = h.Get e.WeakWorld
        · simp [hs, hw1] at h1
          simp only [hs, ← hw2]
          simp only [Bool.not_false, if_true]
          intro h2
          exact hn2 M h2 (ManagerOf_mem h1)
        · simp [hs, hw1] at h1
          simp [hs, hw2]
          exact ih hn1 h1

/-! ## `GetManager` and the operations in terms of the scope's manager -/

namespace UE4Singleton

/-- The function `GetManager` on an accepted scope, as one equation: the live
manager the registry holds for the scope, or else a newly allocated one. -/
theorem GetManager_eq (h : Host) (W : Option UWorld) (b : Bool) (s : State) (hW : ScopeOk h W) :
    GetManager h W b s =
      match ManagerOf h W s.Managers with
      | some M =>
        if s.ManagerValid M then
          some (M, { s with Managers := (NamespaceUE4Singleton.FindOrAdd h W s.Managers).1 })
        else
          some (s.NextManager, NewManagerState h W (NamespaceUE4Singleton.FindOrAdd h W s.Managers).2
            { s with Managers := (NamespaceUE4Singleton.FindOrAdd h W s.Managers).1 })
      | none =>
        some (s.NextManager, NewManagerState h W (NamespaceUE4Singleton.FindOrAdd h W s.Managers).2
          { s with Managers := (NamespaceUE4Singleton.FindOrAdd h W s.Managers).1 }) := by
  have hlt := NamespaceUE4Singleton.FindOrAdd_index_lt h W s.Managers
  have e1 := NewManager_eq h W (NamespaceUE4Singleton.FindOrAdd h W s.Managers).2
      { s with Managers := (NamespaceUE4Singleton.FindOrAdd h W s.Managers).1 } hlt
  unfold GetManager
  rw [ScopeOk_check hW]
  simp only [Bool.false_eq_true, if_false, State.Slot, NamespaceUE4Singleton.SlotAt_FindOrAdd, e1]

/-- What `GetManager` on the scope `W1` leaves untouched for another scope
`W2`: the manager the registry holds for `W2`, its map and its liveness. -/
theorem GetManager_frame {h : Host} {W1 W2 : Option UWorld} {b : Bool} {s s1 : State} {Mgr : UManager}
    (hwf : RegistryWF s) (hW : ScopeOk h W1) (hne : W1 ≠ W2)
    (hg : GetManager h W1 b s = some (Mgr, s1)) :
    ManagerOf h W2 s1.Managers = ManagerOf h W2 s.Managers ∧
      ∀ M, ManagerOf h W2 s.Managers = some M →
        M ≠ Mgr ∧ s1.Singletons M = s.Singletons M ∧ s1.ManagerValid M = s.ManagerValid M := by
  rw [GetManager_eq h W1 b s hW] at hg
  have hfresh : ∀ M, ManagerOf h W2 s.Managers = some M → M ≠ s.NextManager := by
    intro M hM
    exact Nat.ne_of_lt (hwf.2 M (ManagerOf_mem hM))
  have hcreated : ∀ {Mgr s1}, some (s.NextManager, NewManagerState h W1
        (NamespaceUE4Singleton.FindOrAdd h W1 s.Managers).2
        { s with Managers := (NamespaceUE4Singleton.FindOrAdd h W1 s.Managers).1 }) = some (Mgr, s1) →
      ManagerOf h W2 s1.Managers = ManagerOf h W2 s.Managers ∧
      ∀ M, ManagerOf h W2 s.Managers = some M →
        M ≠ Mgr ∧ s1.Singletons M = s.Singletons M ∧ s1.ManagerValid M = s.ManagerValid M := by
    intro Mgr s1 hg
    simp only [Option.some.injEq, Prod.mk.injEq] at hg
    obtain ⟨hM, hs⟩ := hg
    subst hM; subst hs
    refine ⟨NamespaceUE4Singleton.ManagerOf_SetSlot_other h W1 W2 hW hne _ _, ?_⟩
    intro M hM
    have hMne := hfresh M hM
    refine ⟨hMne, ?_, ?_⟩
    · simp [NewManagerState, Function.update_noteq hMne]
    · simp [NewManagerState, Function.update_noteq hMne]
  cases h1 : ManagerOf h W1 s.Managers with
  | none => rw [h1] at hg; exact hcreated hg
  | some M1 =>
    rw [h1] at hg
    by_cases hv : s.ManagerValid M1 = true
    · simp only [hv, if_true, Option.some.injEq, Prod.mk.injEq] at hg
      obtain ⟨hM, hs⟩ := hg
      subst hM; subst hs
      refine ⟨NamespaceUE4Singleton.ManagerOf_FindOrAdd h W1 W2 _, ?_⟩
      intro M hM
      refine ⟨?_, rfl, rfl⟩
      intro he
      subst he
      exact ManagerOf_ne hwf.1 hne h1 hM
    · simp only [hv, Bool.false_eq_true, if_false] at hg
      exact hcreated hg

/-- The shape of every result of `RegisterAsSingletonImpl` on a valid object
and an accepted scope: turned down without any change, or registered in the
map of the manager `GetManager` yields. -/
theorem Register_cases (h : Host) (Obj : UObject) (ctx : Option UContext) (b : Bool) (N : Option UClass)
    (s : State) (hv : h.IsValidObject Obj = true) (hW : ScopeOk h (h.ResolveWorld ctx)) :
    RegisterAsSingletonImpl h (some Obj) ctx b N s = some (none, s) ∨
      ∃ Mgr s1, GetManager h (h.ResolveWorld ctx) true s = some (Mgr, s1) ∧
        RegisterAsSingletonImpl h (some Obj) ctx b N s =
          some ((RegisterInMap Obj (h.GetClass Obj) b N (s1.Singletons Mgr)).1,
            s1.SetMap Mgr (RegisterInMap Obj (h.GetClass Obj) b N (s1.Singletons Mgr)).2) := by
  by_cases hrej : EnsureStopClass h Obj N = false ∨ (h.bRunningCommandlet
      || ((h.ResolveWorld ctx).isNone && h.IsClassDefaultObject Obj)) = true
  · exact Or.inl (Register_rejected b hv hrej)
  · right
    have h1 : EnsureStopClass h Obj N = true := by
      by_contra hh; exact hrej (Or.inl (eq_false_of_ne_true hh))
    have h2 : (h.bRunningCommandlet
        || ((h.ResolveWorld ctx).isNone && h.IsClassDefaultObject Obj)) = false := by
      by_contra hh; exact hrej (Or.inr (eq_true_of_ne_false hh))
    obtain ⟨Mgr, s1, hg, -, -⟩ := GetManager_cases h (h.ResolveWorld ctx) true s hW
    refine ⟨Mgr, s1, hg, ?_⟩
    unfold RegisterAsSingletonImpl
    simp only [hv, h1, h2, hg]
    simp

/-- The manager `GetManager` yields carries the mapping of the scope, and the
registry afterwards resolves the scope to it. -/
theorem GetManager_spec (h : Host) (W : Option UWorld) (b : Bool) (s : State) (hW : ScopeOk h W) :
    ∃ Mgr s1, GetManager h W b s = some (Mgr, s1) ∧ Resolves h W s1 Mgr ∧
      s1.Singletons Mgr = ScopeMap h W s := by
  obtain ⟨Mgr, s1, hg, hr, hc⟩ := GetManager_cases h W b s hW
  refine ⟨Mgr, s1, hg, hr, ?_⟩
  rw [NamespaceUE4Singleton.SlotAt_FindOrAdd] at hc
  unfold ScopeMap
  rcases hc with ⟨hs, hv, hM⟩ | ⟨hM, hs, hinv⟩
  · subst hs; simp [hM, hv]
  · subst hM; subst hs
    cases h1 : ManagerOf h W s.Managers with
    | none => simp [NewManagerState]
    | some M => simp [NewManagerState, hinv M h1]

theorem ScopeMap_of_Resolves {h : Host} {W : Option UWorld} {t : State} {Mgr : UManager}
    (hr : Resolves h W t Mgr) : ScopeMap h W t = t.Singletons Mgr := by
  obtain ⟨h1, h2, h3⟩ := hr
  have h4 := NamespaceUE4Singleton.SlotAt_FindOrAdd h W t.Managers
  rw [h1] at h4
  simp only [State.Slot] at h2
  rw [h2] at h4
  simp [ScopeMap, ← h4, h3]

theorem ScopeMap_SetMap {h : Host} {W : Option UWorld} {t : State} {Mgr : UManager}
    (hr : Resolves h W t Mgr) (m : TMap) : ScopeMap h W (t.SetMap Mgr m) = m := by
  rw [ScopeMap_of_Resolves (Resolves_SetMap hr Mgr m)]
  simp

/-- The result of a lookup that may not create: the instance the registration
class resolves to in the scope, and the key of the registration class added to
the mapping of the scope. -/
theorem Get_nocreate (h : Host) (C : UClass) (ctx : Option UContext) (RegClass : Option UClass) (s : State)
    (hW : ScopeOk h (h.ResolveWorld ctx)) :
    ∃ Mgr s1, Resolves h (h.ResolveWorld ctx) s1 Mgr ∧
      GetSingletonImpl h (some C) ctx false RegClass s =
        some (ScopedLookup h (h.ResolveWorld ctx) s (RegClass.getD C),
          s1.SetMap Mgr (TMap.FindOrAdd (ScopeMap h (h.ResolveWorld ctx) s) (RegClass.getD C))) := by
  obtain ⟨Mgr, s1, hg, hr, hm⟩ := GetManager_spec h (h.ResolveWorld ctx) false s hW
  refine ⟨Mgr, s1, hr, ?_⟩
  unfold GetSingletonImpl
  simp only [hg, Bool.and_false, Bool.false_eq_true, if_false, hm, ScopedLookup]

/-- An accepted registration: the object is registered in the mapping of the
scope by the lines 156-192, and nothing else of that mapping changes. -/
theorem Register_spec (h : Host) (Obj : UObject) (ctx : Option UContext) (b : Bool) (N : Option UClass)
    (s : State) (hv : h.IsValidObject Obj = true) (hW : ScopeOk h (h.ResolveWorld ctx))
    (hstop : EnsureStopClass h Obj N = true) (hskip : SkipsRegistration h Obj ctx = false) :
    ∃ Mgr s1, Resolves h (h.ResolveWorld ctx) s1 Mgr ∧
      RegisterAsSingletonImpl h (some Obj) ctx b N s =
        some ((RegisterInMap Obj (h.GetClass Obj) b N (ScopeMap h (h.ResolveWorld ctx) s)).1,
          s1.SetMap Mgr (RegisterInMap Obj (h.GetClass Obj) b N (ScopeMap h (h.ResolveWorld ctx) s)).2) := by
  obtain ⟨Mgr, s1, hg, hr, hm⟩ := GetManager_spec h (h.ResolveWorld ctx) true s hW
  refine ⟨Mgr, s1, hr, ?_⟩
  unfold RegisterAsSingletonImpl
  have hskip2 : (h.bRunningCommandlet
      || ((h.ResolveWorld ctx).isNone && h.IsClassDefaultObject Obj)) = false := hskip
  simp only [hv, hstop, hskip2, hg, hm]
  simp

/-- Registering under one scope does not change the mapping of another scope. -/
theorem Register_ScopeMap_other {h : Host} {Obj : UObject} {ctx : Option UContext} {b : Bool}
    {N : Option UClass} {s s2 : State} {ret : Option UObject} {W2 : Option UWorld}
    (hwf : RegistryWF s) (hv : h.IsValidObject Obj = true) (hW : ScopeOk h (h.ResolveWorld ctx))
    (hne : h.ResolveWorld ctx ≠ W2)
    (hreg : RegisterAsSingletonImpl h (some Obj) ctx b N s = some (ret, s2)) :
    ManagerOf h W2 s2.Managers = ManagerOf h W2 s.Managers ∧
      (∀ M, ManagerOf h W2 s.Managers = some M →
        s2.Singletons M = s.Singletons M ∧ s2.ManagerValid M = s.ManagerValid M) ∧
      ScopeMap h W2 s2 = ScopeMap h W2 s := by
  have key : ManagerOf h W2 s2.Managers = ManagerOf h W2 s.Managers ∧
      (∀ M, ManagerOf h W2 s.Managers = some M →
        s2.Singletons M = s.Singletons M ∧ s2.ManagerValid M = s.ManagerValid M) := by
    rcases Register_cases h Obj ctx b N s hv hW with hc | ⟨Mgr, s1, hg, hc⟩
    · rw [hc] at hreg
      simp only [Option.some.injEq, Prod.mk.injEq] at hreg
      obtain ⟨-, hs⟩ := hreg
      subst hs
      exact ⟨rfl, fun M _ => ⟨rfl, rfl⟩⟩
    · rw [hc] at hreg
      simp only [Option.some.injEq, Prod.mk.injEq] at hreg
      obtain ⟨-, hs⟩ := hreg
      subst hs
      obtain ⟨f1, f2⟩ := GetManager_frame hwf hW hne hg
      refine ⟨f1, ?_⟩
      intro M hM
      obtain ⟨g1, g2, g3⟩ := f2 M hM
      exact ⟨by rw [State.SetMap_Singletons_other _ _ g1, g2], g3⟩
  refine ⟨key.1, key.2, ?_⟩
  unfold ScopeMap
  rw [key.1]
  cases hM : ManagerOf h W2 s.Managers with
  | none => rfl
  | some M =>
    obtain ⟨g1, g2⟩ := key.2 M hM
    simp [g1, g2]

end UE4Singleton

/-! ## Where the ancestor loop stops -/

theorem WalkedClasses_some (N c : UClass) : WalkedClasses (some N) c = ChainUpTo N c := by
  induction c with
  | Root n b => rfl
  | Sub n b p ih =>
    unfold WalkedClasses ChainUpTo
    by_cases hc : UClass.Sub n b p = N
    · simp [UE4Singleton.WalkBreaks, hc]
    · simp [UE4Singleton.WalkBreaks, hc, ih]

theorem NearestNative_mem_Chain (c : UClass) : NearestNative c ∈ UClass.Chain c := by
  induction c with
  | Root n b => simp [NearestNative, UClass.Chain]
  | Sub n b p ih =>
    unfold NearestNative UClass.Chain
    cases b
    · simp [ih]
    · simp

theorem RootOf_mem_Chain (c : UClass) : RootOf c ∈ UClass.Chain c := by
  induction c with
  | Root n b => simp [RootOf, UClass.Chain]
  | Sub n b p ih => simp [RootOf, UClass.Chain, ih]

theorem WalkedClasses_none (c : UClass) : WalkedClasses none c = ChainUpTo (NearestNative c) c := by
  induction c with
  | Root n b => rfl
  | Sub n b p ih =>
    unfold WalkedClasses ChainUpTo NearestNative
    cases b
    · have hne : UClass.Sub n false p ≠ NearestNative p := by
        intro he
        have := NearestNative_mem_Chain p
        rw [← he] at this
        exact UClass.Sub_not_mem_Chain n false p this
      simp [UE4Singleton.WalkBreaks, UClass.IsNative, hne, ih]
    · simp [UE4Singleton.WalkBreaks, UClass.IsNative]

theorem WalkEnd_none (c : UClass) : WalkEnd none c = NearestNative c := by
  induction c with
  | Root n b => rfl
  | Sub n b p ih =>
    unfold WalkEnd NearestNative
    cases b
    · simp [UE4Singleton.WalkBreaks, UClass.IsNative, ih]
    · simp [UE4Singleton.WalkBreaks, UClass.IsNative]

theorem WalkEnd_some_on_chain {N c : UClass} (hN : N ∈ UClass.Chain c) : WalkEnd (some N) c = N := by
  induction c with
  | Root n b =>
    simp only [UClass.Chain, List.mem_singleton] at hN
    simp [WalkEnd, hN]
  | Sub n b p ih =>
    unfold WalkEnd
    by_cases hc : UClass.Sub n b p = N
    · simp [UE4Singleton.WalkBreaks, hc]
    · have hN2 : N ∈ UClass.Chain p := by
        simp only [UClass.Chain, List.mem_cons] at hN
        rcases hN with hN | hN
        · exact absurd hN.symm hc
        · exact hN
      simp [UE4Singleton.WalkBreaks, hc, ih hN2]

theorem WalkEnd_some_off_chain {N c : UClass} (hN : N ∉ UClass.Chain c) : WalkEnd (some N) c = RootOf c := by
  induction c with
  | Root n b => rfl
  | Sub n b p ih =>
    unfold WalkEnd RootOf
    have hc : ¬ UClass.Sub n b p = N := by
      intro he; apply hN; rw [← he]; exact UClass.self_mem_Chain _
    have hN2 : N ∉ UClass.Chain p := by
      intro hh; apply hN; simp [UClass.Chain, hh]
    simp [UE4Singleton.WalkBreaks, hc, ih hN2]

namespace UE4Singleton

/-- The lookups of the mode `!bReplaceExist` when the object's class, or else
the stop class, resolves to an instance: that instance is the result, and the
only change to the map is the key of the object's class, added when absent. -/
theorem LookupExisting_found {c : UClass} {N : Option UClass} {m : TMap} {A : UObject}
    (hex : TMap.Value m c = some A ∨
      (TMap.Value m c = none ∧ ∃ R, N = some R ∧ TMap.Value m R = some A)) :
    LookupExisting c N m = (some A, TMap.FindOrAdd m c) := by
  unfold LookupExisting
  rcases hex with hA | ⟨hnone, R, hN, hA⟩
  · rw [hA]
  · subst hN
    rw [hnone]
    simp only [TMap.Value_FindOrAdd, hA]
    have hb : TMap.FindOrAdd m c R = some (some A) := by
      by_cases hRc : R = c
      · subst hRc; rw [hnone] at hA; cases hA
      · rw [TMap.FindOrAdd_other m hRc]; exact TMap.bound_of_Value hA
    rw [TMap.FindOrAdd_of_bound hb]

end UE4Singleton

theorem WalkedClasses_getLast (N : Option UClass) (c : UClass) :
    (WalkedClasses N c).getLast? = some (WalkEnd N c) := by
  induction c with
  | Root n b => rfl
  | Sub n b p ih =>
    unfold WalkedClasses WalkEnd
    by_cases hb : UE4Singleton.WalkBreaks N (UClass.Sub n b p) = true
    · simp [hb]
    · simp only [hb, Bool.false_eq_true, if_false]
      rw [List.getLast?_cons, ih]
      rfl

/-! ## The registry invariant holds in every reachable state -/

theorem ManagerIds_cons (e : FWorldPair) (rest : List FWorldPair) :
    ManagerIds (e :: rest) = (match e.Manager with
      | some M => M :: ManagerIds rest
      | none => ManagerIds rest) := by
  unfold ManagerIds
  rw [List.filterMap_cons]
  cases e.Manager <;> rfl

theorem ManagerIds_cons_sublist (e : FWorldPair) (rest : List FWorldPair) :
    (ManagerIds rest).Sublist (ManagerIds (e :: rest)) := by
  rw [ManagerIds_cons]
  cases e.Manager with
  | none => exact List.Sublist.refl _
  | some M => exact List.sublist_cons_self _ _

namespace NamespaceUE4Singleton

theorem ManagerIds_FindOrAdd (h : Host) (W : Option UWorld) (l : List FWorldPair) :
    (ManagerIds (FindOrAdd h W l).1).Sublist (ManagerIds l) := by
  induction l with
  | nil => simp [FindOrAdd, ManagerIds]
  | cons e rest ih =>
    unfold FindOrAdd
    by_cases hs : h.IsStale e.WeakWorld = true
    · simp only [hs, Bool.not_true, Bool.false_eq_true, if_false]
      exact ih.trans (ManagerIds_cons_sublist e rest)
    · by_cases hw : W = h.Get e.WeakWorld
      · simp [hs, ← hw]
      · simp only [hs, hw, Bool.not_eq_true, Bool.not_false, if_true, if_false]
        rw [ManagerIds_cons, ManagerIds_cons]
        cases e.Manager with
        | none => exact ih
        | some M => exact ih.cons₂ M

theorem ManagerIds_RemoveScan (h : Host) (w : UWorld) (l : List FWorldPair) :
    (ManagerIds (RemoveScan h w l)).Sublist (ManagerIds l) := by
  induction l with
  | nil => simp [RemoveScan]
  | cons e rest ih =>
    unfold RemoveScan
    by_cases hs : h.IsStale e.WeakWorld = true
    · simp only [hs, Bool.not_true, Bool.false_eq_true, if_false]
      exact ih.trans (ManagerIds_cons_sublist e rest)
    · by_cases hw : some w = h.Get e.WeakWorld
      · simp only [hs, ← hw, Bool.not_eq_true, Bool.not_false, if_true]
        exact ManagerIds_cons_sublist e rest
      · simp only [hs, hw, Bool.not_eq_true, Bool.not_false, if_true, if_false]
        rw [ManagerIds_cons, ManagerIds_cons]
        cases e.Manager with
        | none => exact ih
        | some M => exact ih.cons₂ M

theorem ManagerIds_Remove (h : Host) (W : Option UWorld) (l : List FWorldPair) :
    (ManagerIds (Remove h W l)).Sublist (ManagerIds l) := by
  cases W with
  | none => exact List.Sublist.refl _
  | some w => exact ManagerIds_RemoveScan h w l

end NamespaceUE4Singleton

theorem ManagerIds_SetSlot_mem (l : List FWorldPair) (i : Nat) (M : UManager) :
    ∀ x, x ∈ ManagerIds (SetSlot l i (some M)) → x = M ∨ x ∈ ManagerIds l := by
  induction l generalizing i with
  | nil => intro x hx; simp [SetSlot, ManagerIds] at hx
  | cons e rest ih =>
    intro x hx
    cases i with
    | zero =>
      simp only [SetSlot] at hx
      rw [ManagerIds_cons] at hx
      simp only [List.mem_cons] at hx
      rcases hx with hx | hx
      · exact Or.inl hx
      · exact Or.inr ((ManagerIds_cons_sublist e rest).subset hx)
    | succ j =>
      simp only [SetSlot] at hx
      rw [ManagerIds_cons] at hx ⊢
      cases he : e.Manager with
      | none =>
        rw [he] at hx
        exact ih j x hx
      | some M2 =>
        rw [he] at hx
        simp only [List.mem_cons] at hx ⊢
        rcases hx with hx | hx
        · exact Or.inr (Or.inl hx)
        · rcases ih j x hx with h1 | h1
          · exact Or.inl h1
          · exact Or.inr (Or.inr h1)

theorem ManagerIds_SetSlot_nodup (l : List FWorldPair) (i : Nat) (M : UManager)
    (hn : (ManagerIds l).Nodup) (hM : M ∉ ManagerIds l) :
    (ManagerIds (SetSlot l i (some M))).Nodup := by
  induction l generalizing i with
  | nil => simp [SetSlot, ManagerIds]
  | cons e rest ih =>
    have hsub := ManagerIds_cons_sublist e rest
    have hn2 : (ManagerIds rest).Nodup := hn.sublist hsub
    have hM2 : M ∉ ManagerIds rest := fun hh => hM (hsub.subset hh)
    cases i with
    | zero =>
      simp only [SetSlot]
      rw [ManagerIds_cons]
      exact List.nodup_cons.mpr ⟨hM2, hn2⟩
    | succ j =>
      simp only [SetSlot]
      rw [ManagerIds_cons] at hn hM ⊢
      cases he : e.Manager with
      | none => exact ih j hn2 hM2
      | some M2 =>
        rw [he] at hn hM
        simp only [List.mem_cons, not_or] at hM
        refine List.nodup_cons.mpr ⟨?_, ih j hn2 hM2⟩
        intro hx
        rcases ManagerIds_SetSlot_mem rest j M M2 hx with h1 | h1
        · exact hM.1 h1.symm
        · exact (List.nodup_cons.mp hn).1 h1

namespace UE4Singleton

theorem RegistryWF_SetMap {s : State} (hwf : RegistryWF s) (Mgr : UManager) (m : TMap) :
    RegistryWF (s.SetMap Mgr m) := hwf

theorem RegistryWF_GetManager {h : Host} {W : Option UWorld} {b : Bool} {s s2 : State} {Mgr : UManager}
    (hwf : RegistryWF s) (hg : GetManager h W b s = some (Mgr, s2)) : RegistryWF s2 := by
  by_cases hW : ScopeOk h W
  · obtain ⟨Mgr2, s1, hg2, -, hc⟩ := GetManager_cases h W b s hW
    rw [hg2] at hg
    simp only [Option.some.injEq, Prod.mk.injEq] at hg
    obtain ⟨-, hs⟩ := hg
    subst hs
    have hsub := NamespaceUE4Singleton.ManagerIds_FindOrAdd h W s.Managers
    rcases hc with ⟨hs, -, -⟩ | ⟨-, hs, -⟩
    · subst hs
      exact ⟨hwf.1.sublist hsub, fun M hM => hwf.2 M (hsub.subset hM)⟩
    · subst hs
      have hfresh : s.NextManager ∉ ManagerIds (NamespaceUE4Singleton.FindOrAdd h W s.Managers).1 := by
        intro hh
        exact Nat.lt_irrefl _ (hwf.2 _ (hsub.subset hh))
      refine ⟨ManagerIds_SetSlot_nodup _ _ _ (hwf.1.sublist hsub) hfresh, ?_⟩
      intro M hM
      simp only [NewManagerState] at hM ⊢
      rcases ManagerIds_SetSlot_mem _ _ _ M hM with h1 | h1
      · rw [h1]; exact Nat.lt_succ_self _
      · exact Nat.lt_succ_of_lt (hwf.2 M (hsub.subset h1))
  · exfalso
    unfold GetManager at hg
    have hchk : (!(W.isNone || h.IsValidWorldPtr W)) = true := by
      cases W with
      | none => exact absurd (Or.inl rfl) hW
      | some w =>
        have : h.IsValidWorldPtr (some w) ≠ true := fun hh => hW (Or.inr hh)
        simp [this]
    rw [if_pos hchk] at hg
    cases hg

theorem RegistryWF_Register {h : Host} {Obj : Option UObject} {ctx : Option UContext} {b : Bool}
    {N : Option UClass} {s s2 : State} {ret : Option UObject}
    (hwf : RegistryWF s) (hreg : RegisterAsSingletonImpl h Obj ctx b N s = some (ret, s2)) :
    RegistryWF s2 := by
  unfold RegisterAsSingletonImpl at hreg
  cases Obj with
  | none => simp at hreg
  | some o =>
    simp only at hreg
    split at hreg
    · cases hreg
    · split at hreg
      · simp only [Option.some.injEq, Prod.mk.injEq] at hreg
        rw [← hreg.2]; exact hwf
      · split at hreg
        · simp only [Option.some.injEq, Prod.mk.injEq] at hreg
          rw [← hreg.2]; exact hwf
        · split at hreg
          · cases hreg
          · rename_i Mgr s1 hg
            simp only [Option.some.injEq, Prod.mk.injEq] at hreg
            rw [← hreg.2]
            exact RegistryWF_SetMap (RegistryWF_GetManager hwf hg) _ _

theorem RegistryWF_GetSingleton {h : Host} {C : Option UClass} {ctx : Option UContext} {b : Bool}
    {R : Option UClass} {s s2 : State} {ret : Option UObject}
    (hwf : RegistryWF s) (hget : GetSingletonImpl h C ctx b R s = some (ret, s2)) :
    RegistryWF s2 := by
  unfold GetSingletonImpl at hget
  cases C with
  | none => simp at hget
  | some c =>
    simp only at hget
    split at hget
    · cases hget
    · rename_i Mgr s1 hg
      have hwf1 := RegistryWF_GetManager hwf hg
      split at hget
      · split at hget
        · cases hget
        · rename_i New hnew
          split at hget
          · split at hget
            · cases hget
            · rename_i r4 s4 hreg
              simp only [Option.some.injEq, Prod.mk.injEq] at hget
              rw [← hget.2]
              exact RegistryWF_Register (RegistryWF_SetMap (RegistryWF_SetMap hwf1 _ _) _ _) hreg
          · simp only [Option.some.injEq, Prod.mk.injEq] at hget
            rw [← hget.2]
            exact RegistryWF_SetMap (RegistryWF_SetMap (RegistryWF_SetMap hwf1 _ _) _ _) _ _
      · simp only [Option.some.injEq, Prod.mk.injEq] at hget
        rw [← hget.2]
        exact RegistryWF_SetMap hwf1 _ _

end UE4Singleton

/-- The registry invariant holds in every reachable state. -/
theorem RegistryWF_of_Reachable {s : State} (hs : Reachable s) : RegistryWF s := by
  induction hs with
  | Initial => exact ⟨List.nodup_nil, fun M hM => by simp [State.Initial, ManagerIds] at hM⟩
  | GetManager h W b s s2 Mgr _ hg ih => exact UE4Singleton.RegistryWF_GetManager ih hg
  | Register h Obj ctx b N s s2 ret _ hreg ih => exact UE4Singleton.RegistryWF_Register ih hreg
  | GetSingleton h C ctx b R s s2 ret _ hget ih => exact UE4Singleton.RegistryWF_GetSingleton ih hget
  | WorldCleanup h W s _ ih =>
    have hsub := NamespaceUE4Singleton.ManagerIds_Remove h W s.Managers
    exact ⟨ih.1.sublist hsub, fun M hM => ih.2 M (hsub.subset hM)⟩
  | Collected M s _ ih => exact ih

/-- A lookup that may not create returns a pending-kill entry as it is: in
`S3` the class `D` is bound to the invalid object 6, and line 226 returns it. -/
theorem GetSingletonImpl_returns_invalid_entry :
    Sample.Engine.IsValid (some 6) = false ∧
    ScopedLookup Sample.Engine (some 1) Sample.S3 Sample.D = some 6 ∧
    (UE4Singleton.GetSingletonImpl Sample.Engine (some Sample.D) (some (UContext.World 1)) false none
        Sample.S3).map Prod.fst = some (some 6) := by
  decide

/-! ## The registry scans in terms of the live entries -/

theorem LiveEntries_cons_stale {h : Host} {e : FWorldPair} (rest : List FWorldPair)
    (hs : h.IsStale e.WeakWorld = true) : LiveEntries h (e :: rest) = LiveEntries h rest := by
  simp [LiveEntries, hs]

theorem LiveEntries_cons_live {h : Host} {e : FWorldPair} (rest : List FWorldPair)
    (hs : ¬ h.IsStale e.WeakWorld = true) : LiveEntries h (e :: rest) = e :: LiveEntries h rest := by
  simp [LiveEntries, hs]

theorem LiveEntries_append (h : Host) (a b : List FWorldPair) :
    LiveEntries h (a ++ b) = LiveEntries h a ++ LiveEntries h b := by
  simp [LiveEntries]

theorem LiveEntries_idem (h : Host) (l : List FWorldPair) : LiveEntries h (LiveEntries h l) = LiveEntries h l := by
  simp [LiveEntries]

theorem LiveEntries_sublist (h : Host) (l : List FWorldPair) : (LiveEntries h l).Sublist l := by
  simp [LiveEntries]

theorem LiveScopes_cons_stale {h : Host} {e : FWorldPair} (rest : List FWorldPair)
    (hs : h.IsStale e.WeakWorld = true) : LiveScopes h (e :: rest) = LiveScopes h rest := by
  simp [LiveScopes, LiveEntries_cons_stale rest hs]

theorem LiveScopes_cons_live {h : Host} {e : FWorldPair} (rest : List FWorldPair)
    (hs : ¬ h.IsStale e.WeakWorld = true) :
    LiveScopes h (e :: rest) = h.Get e.WeakWorld :: LiveScopes h rest := by
  simp [LiveScopes, LiveEntries_cons_live rest hs]

theorem Matches_of_stale {h : Host} {e : FWorldPair} (W : Option UWorld)
    (hs : h.IsStale e.WeakWorld = true) : Matches h W e = false := by
  simp [Matches, hs]

theorem Matches_of_live {h : Host} {e : FWorldPair} (W : Option UWorld)
    (hs : ¬ h.IsStale e.WeakWorld = true) : Matches h W e = decide (W = h.Get e.WeakWorld) := by
  simp [Matches, hs]

/-- A scope is among the live scopes exactly when some entry matches it. -/
theorem mem_LiveScopes_iff (h : Host) (W : Option UWorld) (l : List FWorldPair) :
    W ∈ LiveScopes h l ↔ ∃ x ∈ l, Matches h W x = true := by
  induction l with
  | nil => simp [LiveScopes, LiveEntries]
  | cons e rest ih =>
    by_cases hs : h.IsStale e.WeakWorld = true
    · rw [LiveScopes_cons_stale rest hs, ih]
      simp [Matches_of_stale W hs]
    · rw [LiveScopes_cons_live rest hs, List.mem_cons, ih]
      simp [Matches_of_live W hs]

theorem NewEntry_of_ScopeOk {h : Host} {W : Option UWorld} (hW : ScopeOk h W) :
    NewEntry h W = { WeakWorld := W, Manager := none } := by
  unfold NewEntry
  rcases hW with hW | hW
  · subst hW; simp [Host.IsValidWorldPtr]
  · simp [hW]

theorem NewEntry_live {h : Host} {W : Option UWorld} (hW : ScopeOk h W) :
    h.IsStale (NewEntry h W).WeakWorld = false ∧ h.Get (NewEntry h W).WeakWorld = W := by
  rw [NewEntry_of_ScopeOk hW]
  rcases hW with hW | hW
  · subst hW; simp [Host.IsStale, Host.Get]
  · cases W with
    | none => simp [Host.IsValidWorldPtr] at hW
    | some w =>
      have hw : h.IsValidWorld w = true := hW
      simp [Host.IsStale, Host.Get, hw]

namespace NamespaceUE4Singleton

/-- The scan of `FindOrAdd` when no entry matches: the live entries in order,
followed by the new entry, whose slot is returned. -/
theorem FindOrAdd_nomatch (h : Host) (W : Option UWorld) (l : List FWorldPair)
    (hno : ∀ x ∈ l, Matches h W x = false) :
    FindOrAdd h W l = (LiveEntries h l ++ [NewEntry h W], (LiveEntries h l).length) := by
  induction l with
  | nil => simp [FindOrAdd, LiveEntries, NewEntry]
  | cons e rest ih =>
    have ih2 := ih (fun x hx => hno x (List.mem_cons_of_mem _ hx))
    have he := hno e (List.mem_cons_self _ _)
    unfold FindOrAdd
    by_cases hs : h.IsStale e.WeakWorld = true
    · simp only [hs, Bool.not_true, Bool.false_eq_true, if_false]
      rw [ih2, LiveEntries_cons_stale rest hs]
    · rw [Matches_of_live W hs] at he
      have hw : ¬ W = h.Get e.WeakWorld := by simpa using he
      simp only [hs, hw, Bool.not_eq_true, Bool.not_false, if_true, if_false]
      rw [ih2, LiveEntries_cons_live rest hs]
      simp

/-- The scan of `FindOrAdd` when an entry matches: the stale entries before
the first match are removed, the match and everything after it are untouched,
and the slot of the match is returned. -/
theorem FindOrAdd_match (h : Host) (W : Option UWorld) (pre : List FWorldPair) (e : FWorldPair)
    (post : List FWorldPair) (he : Matches h W e = true) (hpre : ∀ x ∈ pre, Matches h W x = false) :
    FindOrAdd h W (pre ++ e :: post) = (LiveEntries h pre ++ e :: post, (LiveEntries h pre).length) := by
  induction pre with
  | nil =>
    have hs : ¬ h.IsStale e.WeakWorld = true := by
      intro hs; rw [Matches_of_stale W hs] at he; cases he
    rw [Matches_of_live W hs] at he
    have hw : W = h.Get e.WeakWorld := by simpa using he
    simp [FindOrAdd, LiveEntries, hs, ← hw]
  | cons a pre ih =>
    have ih2 := ih (fun x hx => hpre x (List.mem_cons_of_mem _ hx))
    have ha := hpre a (List.mem_cons_self _ _)
    show FindOrAdd h W (a :: (pre ++ e :: post)) = _
    unfold FindOrAdd
    by_cases hs : h.IsStale a.WeakWorld = true
    · simp only [hs, Bool.not_true, Bool.false_eq_true, if_false]
      rw [ih2, LiveEntries_cons_stale pre hs]
    · rw [Matches_of_live W hs] at ha
      have hw : ¬ W = h.Get a.WeakWorld := by simpa using ha
      simp only [hs, hw, Bool.not_eq_true, Bool.not_false, if_true, if_false]
      rw [ih2, LiveEntries_cons_live pre hs]
      simp

/-- The scan of `Remove` when no entry matches: only the stale entries go. -/
theorem RemoveScan_nomatch (h : Host) (w : UWorld) (l : List FWorldPair)
    (hno : ∀ x ∈ l, Matches h (some w) x = false) : RemoveScan h w l = LiveEntries h l := by
  induction l with
  | nil => simp [RemoveScan, LiveEntries]
  | cons e rest ih =>
    have ih2 := ih (fun x hx => hno x (List.mem_cons_of_mem _ hx))
    have he := hno e (List.mem_cons_self _ _)
    unfold RemoveScan
    by_cases hs : h.IsStale e.WeakWorld = true
    · simp only [hs, Bool.not_true, Bool.false_eq_true, if_false]
      rw [ih2, LiveEntries_cons_stale rest hs]
    · rw [Matches_of_live _ hs] at he
      have hw : ¬ some w = h.Get e.WeakWorld := by simpa using he
      simp only [hs, hw, Bool.not_eq_true, Bool.not_false, if_true, if_false]
      rw [ih2, LiveEntries_cons_live rest hs]

/-- The scan of `Remove` when an entry matches: the stale entries before the
first match and the match itself go, everything after it is untouched. -/
theorem RemoveScan_match (h : Host) (w : UWorld) (pre : List FWorldPair) (e : FWorldPair)
    (post : List FWorldPair) (he : Matches h (some w) e = true)
    (hpre : ∀ x ∈ pre, Matches h (some w) x = false) :
    RemoveScan h w (pre ++ e :: post) = LiveEntries h pre ++ post := by
  induction pre with
  | nil =>
    have hs : ¬ h.IsStale e.WeakWorld = true := by
      intro hs; rw [Matches_of_stale _ hs] at he; cases he
    rw [Matches_of_live _ hs] at he
    have hw : some w = h.Get e.WeakWorld := by simpa using he
    simp [RemoveScan, LiveEntries, hs, ← hw]
  | cons a pre ih =>
    have ih2 := ih (fun x hx => hpre x (List.mem_cons_of_mem _ hx))
    have ha := hpre a (List.mem_cons_self _ _)
    show RemoveScan h w (a :: (pre ++ e :: post)) = _
    unfold RemoveScan
    by_cases hs : h.IsStale a.WeakWorld = true
    · simp only [hs, Bool.not_true, Bool.false_eq_true, if_false]
      rw [ih2, LiveEntries_cons_stale pre hs]
    · rw [Matches_of_live _ hs] at ha
      have hw : ¬ some w = h.Get a.WeakWorld := by simpa using ha
      simp only [hs, hw, Bool.not_eq_true, Bool.not_false, if_true, if_false]
      rw [ih2, LiveEntries_cons_live pre hs]
      simp

end NamespaceUE4Singleton

/-- Every registry either has no entry matching a scope, or splits at the
first entry matching it. -/
theorem first_match_split (h : Host) (W : Option UWorld) (l : List FWorldPair) :
    (∀ x ∈ l, Matches h W x = false) ∨
      ∃ pre e post, l = pre ++ e :: post ∧ Matches h W e = true ∧ ∀ x ∈ pre, Matches h W x = false := by
  induction l with
  | nil => left; simp
  | cons a rest ih =>
    by_cases ha : Matches h W a = true
    · right; exact ⟨[], a, rest, rfl, ha, by simp⟩
    · have ha2 : Matches h W a = false := by simpa using ha
      rcases ih with hno | ⟨pre, e, post, hl, he, hpre⟩
      · left
        intro x hx
        rcases List.mem_cons.mp hx with hx | hx
        · rw [hx]; exact ha2
        · exact hno x hx
      · right
        refine ⟨a :: pre, e, post, by rw [hl]; rfl, he, ?_⟩
        intro x hx
        rcases List.mem_cons.mp hx with hx | hx
        · rw [hx]; exact ha2
        · exact hpre x hx

namespace NamespaceUE4Singleton

theorem LiveScopes_FindOrAdd (h : Host) (W : Option UWorld) (hW : ScopeOk h W) (l : List FWorldPair) :
    LiveScopes h (FindOrAdd h W l).1 =
      if W ∈ LiveScopes h l then LiveScopes h l else LiveScopes h l ++ [W] := by
  induction l with
  | nil =>
    obtain ⟨h1, h2⟩ := NewEntry_live hW
    have : FindOrAdd h W [] = ([NewEntry h W], 0) := rfl
    rw [this]
    simp [LiveScopes, LiveEntries, h1, h2]
  | cons e rest ih =>
    by_cases hs : h.IsStale e.WeakWorld = true
    · have h1 : FindOrAdd h W (e :: rest) = FindOrAdd h W rest := by simp [FindOrAdd, hs]
      rw [h1, ih, LiveScopes_cons_stale rest hs]
    · by_cases hw : W = h.Get e.WeakWorld
      · have h1 : FindOrAdd h W (e :: rest) = (e :: rest, 0) := by simp [FindOrAdd, hs, hw]
        rw [h1, LiveScopes_cons_live rest hs]
        simp [hw]
      · have h1 : FindOrAdd h W (e :: rest)
            = (e :: (FindOrAdd h W rest).1, (FindOrAdd h W rest).2 + 1) := by
          simp [FindOrAdd, hs, hw]
        rw [h1]
        simp only [LiveScopes_cons_live _ hs, ih, List.mem_cons, hw, false_or]
        by_cases hm : W ∈ LiveScopes h rest <;> simp [hm]

theorem LiveEntries_RemoveScan (h : Host) (w : UWorld) (l : List FWorldPair) :
    LiveEntries h (RemoveScan h w l) = (LiveEntries h l).eraseP (Matches h (some w)) := by
  induction l with
  | nil => simp [RemoveScan, LiveEntries]
  | cons e rest ih =>
    unfold RemoveScan
    by_cases hs : h.IsStale e.WeakWorld = true
    · simp only [hs, Bool.not_true, Bool.false_eq_true, if_false]
      rw [ih, LiveEntries_cons_stale rest hs]
    · by_cases hw : some w = h.Get e.WeakWorld
      · have hm : Matches h (some w) e = true := by rw [Matches_of_live _ hs]; simp [hw]
        simp only [hs, ← hw, Bool.not_eq_true, Bool.not_false, if_true]
        rw [LiveEntries_cons_live rest hs, List.eraseP_cons_of_pos hm]
      · have hm : ¬ Matches h (some w) e = true := by rw [Matches_of_live _ hs]; simp [hw]
        simp only [hs, hw, Bool.not_eq_true, Bool.not_false, if_true, if_false]
        rw [LiveEntries_cons_live _ hs, LiveEntries_cons_live rest hs, List.eraseP_cons_of_neg hm, ih]

theorem LiveScopes_RemoveScan (h : Host) (w : UWorld) (l : List FWorldPair) :
    LiveScopes h (RemoveScan h w l) = (LiveScopes h l).erase (some w) := by
  induction l with
  | nil => simp [RemoveScan, LiveScopes, LiveEntries]
  | cons e rest ih =>
    unfold RemoveScan
    by_cases hs : h.IsStale e.WeakWorld = true
    · simp only [hs, Bool.not_true, Bool.false_eq_true, if_false]
      rw [ih, LiveScopes_cons_stale rest hs]
    · by_cases hw : some w = h.Get e.WeakWorld
      · simp only [hs, ← hw, Bool.not_eq_true, Bool.not_false, if_true]
        rw [LiveScopes_cons_live rest hs, ← hw, List.erase_cons_head]
      · simp only [hs, hw, Bool.not_eq_true, Bool.not_false, if_true, if_false]
        rw [LiveScopes_cons_live _ hs, LiveScopes_cons_live rest hs, ih]
        have hne : h.Get e.WeakWorld ≠ some w := fun hh => hw hh.symm
        rw [List.erase_cons_tail]
        simpa using hne

theorem RemoveScan_sublist (h : Host) (w : UWorld) (l : List FWorldPair) : (RemoveScan h w l).Sublist l := by
  induction l with
  | nil => simp [RemoveScan]
  | cons e rest ih =>
    unfold RemoveScan
    by_cases hs : h.IsStale e.WeakWorld = true
    · simp only [hs, Bool.not_true, Bool.false_eq_true, if_false]
      exact ih.trans (List.sublist_cons_self _ _)
    · by_cases hw : some w = h.Get e.WeakWorld
      · simp only [hs, ← hw, Bool.not_eq_true, Bool.not_false, if_true]
        exact List.sublist_cons_self _ _
      · simp only [hs, hw, Bool.not_eq_true, Bool.not_false, if_true, if_false]
        exact ih.cons₂ e

/-- Under the registry predicate nothing matches the world any more once
`Remove` has run for it. -/
theorem RemoveScan_no_match_left (h : Host) (w : UWorld) (l : List FWorldPair) (hu : UniqueScopes h l) :
    ∀ x ∈ RemoveScan h w l, Matches h (some w) x = false := by
  have hnot : some w ∉ LiveScopes h (RemoveScan h w l) := by
    rw [LiveScopes_RemoveScan]
    exact fun hh => (List.Nodup.mem_erase_iff hu).mp hh |>.1 rfl
  intro x hx
  by_contra hm
  exact hnot ((mem_LiveScopes_iff h (some w) _).mpr ⟨x, hx, by simpa using hm⟩)

end NamespaceUE4Singleton

/-! ## Creating lookups, cleanup and the uniqueness of world pointers -/

theorem ManagerOf_nomatch {h : Host} {W : Option UWorld} {l : List FWorldPair}
    (hno : ∀ x ∈ l, Matches h W x = false) : ManagerOf h W l = none := by
  induction l with
  | nil => rfl
  | cons e rest ih =>
    have ih2 := ih (fun x hx => hno x (List.mem_cons_of_mem _ hx))
    have he := hno e (List.mem_cons_self _ _)
    unfold ManagerOf
    by_cases hs : h.IsStale e.WeakWorld = true
    · simp [hs, ih2]
    · rw [Matches_of_live W hs] at he
      have hw : ¬ W = h.Get e.WeakWorld := by simpa using he
      simp [hs, hw, ih2]

namespace UE4Singleton

/-- The function `GetManager` on an accepted scope, with everything it leaves
alone: the manager it yields carries the mapping of the scope, the registry
afterwards resolves the scope to it, and the map of every other manager is as
before. -/
theorem GetManager_full (h : Host) (W : Option UWorld) (b : Bool) (s : State) (hW : ScopeOk h W) :
    ∃ Mgr s1, GetManager h W b s = some (Mgr, s1) ∧ Resolves h W s1 Mgr ∧
      s1.Singletons Mgr = ScopeMap h W s ∧ ∀ M, M ≠ Mgr → s1.Singletons M = s.Singletons M := by
  obtain ⟨Mgr, s1, hg, hr, hm⟩ := GetManager_spec h W b s hW
  refine ⟨Mgr, s1, hg, hr, hm, ?_⟩
  obtain ⟨Mgr2, s2, hg2, -, hc⟩ := GetManager_cases h W b s hW
  rw [hg] at hg2
  simp only [Option.some.injEq, Prod.mk.injEq] at hg2
  obtain ⟨hM, hs⟩ := hg2
  rw [← hM, ← hs] at hc
  intro M hM
  rcases hc with ⟨hs, -, -⟩ | ⟨hMgr, hs, -⟩
  · rw [hs]
  · have hM2 : M ≠ s.NextManager := fun hh => hM (hh.trans hMgr.symm)
    rw [hs]
    simp [NewManagerState, Function.update_noteq hM2]

/-- A creating lookup whose registration class resolves to no valid instance
and whose factory yields a valid one: it returns the new instance and leaves
`CreatedMap` as the mapping of the scope, the maps of other managers being
untouched. -/
theorem Get_create_spec (h : Host) (C : UClass) (ctx : Option UContext) (RegClass : Option UClass)
    (s : State) (New : UObject) (hW : ScopeOk h (h.ResolveWorld ctx))
    (hinv : h.IsValid (ScopedLookup h (h.ResolveWorld ctx) s (RegClass.getD C)) = false)
    (hnew : CreateInstanceImpl h ((h.ResolveWorld ctx).map UContext.World) (some C) = some (some New))
    (hnv : h.IsValidObject New = true) :
    ∃ Mgr s1, Resolves h (h.ResolveWorld ctx) s1 Mgr ∧
      (∀ M, M ≠ Mgr → s1.Singletons M = s.Singletons M) ∧
      GetSingletonImpl h (some C) ctx true RegClass s =
        some (some New, s1.SetMap Mgr (CreatedMap h New (RegClass.getD C) (h.ResolveWorld ctx)
          (ScopeMap h (h.ResolveWorld ctx) s))) := by
  obtain ⟨Mgr, s1, hg, hr, hm, hframe⟩ := GetManager_full h (h.ResolveWorld ctx) true s hW
  refine ⟨Mgr, s1, hr, hframe, ?_⟩
  have hinv2 : h.IsValid (TMap.Value (s1.Singletons Mgr) (RegClass.getD C)) = false := by
    rw [hm]; exact hinv
  have hcond : (!h.IsValid (TMap.Value (s1.Singletons Mgr) (RegClass.getD C)) && true) = true := by
    simp [hinv2]
  have hnv2 : h.IsValid (some New) = true := hnv
  have hW3 : ScopeOk h (h.ResolveWorld ((h.ResolveWorld ctx).map UContext.World)) := by
    rw [Host.ResolveWorld_map_World]; exact hW
  have hr3 : Resolves h (h.ResolveWorld ((h.ResolveWorld ctx).map UContext.World))
      (s1.SetMap Mgr (TMap.Assign (s1.Singletons Mgr) (RegClass.getD C) (some New))) Mgr := by
    rw [Host.ResolveWorld_map_World]; exact hr
  have hunf : GetSingletonImpl h (some C) ctx true RegClass s =
      match RegisterAsSingletonImpl h (some New) ((h.ResolveWorld ctx).map UContext.World) true
          (some (RegClass.getD C))
          (s1.SetMap Mgr (TMap.Assign (s1.Singletons Mgr) (RegClass.getD C) (some New))) with
      | none => none
      | some (_, s4) => some (s4.Lookup Mgr (RegClass.getD C), s4) := by
    unfold GetSingletonImpl
    simp only [hg, hcond, if_true, hnew, hnv2, State.SetMap_SetMap, State.SetMap_Singletons_same,
      TMap.Assign_FindOrAdd]
    try rfl
  rw [hunf]
  unfold CreatedMap
  by_cases hacc : EnsureStopClass h New (some (RegClass.getD C)) = true ∧
      SkipsRegistration h New ((h.ResolveWorld ctx).map UContext.World) = false
  · rw [Register_accepted true hnv hW3 hr3 hacc.1 hacc.2]
    have hval : TMap.Value (RegisterInMap New (h.GetClass New) true (some (RegClass.getD C))
        (TMap.Assign (s1.Singletons Mgr) (RegClass.getD C) (some New))).2 (RegClass.getD C) = some New := by
      simp only [RegisterInMap, Bool.not_true, Bool.false_eq_true, if_false]
      rw [Walk_Value]
      simp
    simp only [State.SetMap_Singletons_same, State.SetMap_SetMap, State.Lookup_SetMap_same, hval,
      hacc.1, hacc.2, Bool.not_false, Bool.and_self, if_true, hm]
    have hval2 : TMap.Value (Walk New (some (RegClass.getD C)) (h.GetClass New)
        (TMap.Assign (ScopeMap h (h.ResolveWorld ctx) s) (RegClass.getD C) (some New))).2
        (RegClass.getD C) = some New := by
      rw [Walk_Value]; simp
    simp [RegisterInMap, hval2]
  · have hrej : EnsureStopClass h New (some (RegClass.getD C)) = false ∨
        SkipsRegistration h New ((h.ResolveWorld ctx).map UContext.World) = true := by
      by_cases h1 : EnsureStopClass h New (some (RegClass.getD C)) = true
      · right
        by_contra h2
        exact hacc ⟨h1, eq_false_of_ne_true h2⟩
      · left; exact eq_false_of_ne_true h1
    rw [Register_rejected true hnv hrej]
    have hif : (EnsureStopClass h New (some (RegClass.getD C)) &&
        !SkipsRegistration h New ((h.ResolveWorld ctx).map UContext.World)) = false := by
      rcases hrej with h1 | h1 <;> simp [h1]
    simp only [State.Lookup_SetMap_same, TMap.Value_Assign_same, hif, Bool.false_eq_true, if_false, hm]

end UE4Singleton

/-! ## No two registry entries carry the same world pointer -/

theorem Host.Get_of_live {h : Host} {w : Option UWorld} (hs : ¬ h.IsStale w = true) : h.Get w = w := by
  cases w with
  | none => rfl
  | some x =>
    have : h.IsValidWorld x = true := by simpa [Host.IsStale] using hs
    simp [Host.Get, this]

theorem SetSlot_map_WeakWorld (l : List FWorldPair) (i : Nat) (v : Option UManager) :
    (SetSlot l i v).map FWorldPair.WeakWorld = l.map FWorldPair.WeakWorld := by
  induction l generalizing i with
  | nil => rfl
  | cons e rest ih =>
    cases i with
    | zero => simp [SetSlot]
    | succ j => simp [SetSlot, ih]

namespace NamespaceUE4Singleton

theorem FindOrAdd_sublist_or (h : Host) (W : Option UWorld) (l : List FWorldPair) :
    (FindOrAdd h W l).1.Sublist l ∨
      ((FindOrAdd h W l).1 = LiveEntries h l ++ [NewEntry h W] ∧ ∀ x ∈ l, Matches h W x = false) := by
  rcases first_match_split h W l with hno | ⟨pre, e, post, hl, he, hpre⟩
  · right
    rw [FindOrAdd_nomatch h W l hno]
    exact ⟨rfl, hno⟩
  · left
    rw [hl, FindOrAdd_match h W pre e post he hpre]
    exact (LiveEntries_sublist h pre).append (List.Sublist.refl _)

theorem WeakWorld_nodup_FindOrAdd (h : Host) (W : Option UWorld) (hW : ScopeOk h W) (l : List FWorldPair)
    (hn : (l.map FWorldPair.WeakWorld).Nodup) :
    ((FindOrAdd h W l).1.map FWorldPair.WeakWorld).Nodup := by
  rcases FindOrAdd_sublist_or h W l with hsub | ⟨heq, hno⟩
  · exact hn.sublist (hsub.map _)
  · rw [heq, List.map_append, NewEntry_of_ScopeOk hW]
    refine List.Nodup.append (hn.sublist ((LiveEntries_sublist h l).map _)) (List.nodup_singleton _) ?_
    intro ww h1 h2
    have hww : ww = W := by simpa using h2
    obtain ⟨x, hx, hxw⟩ := List.mem_map.mp h1
    rw [hww] at hxw
    have hxl : x ∈ l := (LiveEntries_sublist h l).subset hx
    have hs : ¬ h.IsStale x.WeakWorld = true := by
      have := (List.mem_filter.mp hx).2
      simpa using this
    have hm := hno x hxl
    rw [Matches_of_live W hs, Host.Get_of_live hs] at hm
    simp [hxw] at hm

end NamespaceUE4Singleton

namespace UE4Singleton

theorem WorldsNodup_SetMap {s : State} (hn : WorldsNodup s) (Mgr : UManager) (m : TMap) :
    WorldsNodup (s.SetMap Mgr m) := hn

theorem WorldsNodup_GetManager {h : Host} {W : Option UWorld} {b : Bool} {s s2 : State} {Mgr : UManager}
    (hn : WorldsNodup s) (hg : GetManager h W b s = some (Mgr, s2)) : WorldsNodup s2 := by
  by_cases hW : ScopeOk h W
  · obtain ⟨Mgr2, s1, hg2, -, hc⟩ := GetManager_cases h W b s hW
    rw [hg2] at hg
    simp only [Option.some.injEq, Prod.mk.injEq] at hg
    obtain ⟨-, hs⟩ := hg
    subst hs
    have hscan := NamespaceUE4Singleton.WeakWorld_nodup_FindOrAdd h W hW s.Managers hn
    rcases hc with ⟨hs, -, -⟩ | ⟨-, hs, -⟩
    · subst hs; exact hscan
    · subst hs
      unfold WorldsNodup
      simp only [NewManagerState]
      rw [SetSlot_map_WeakWorld]
      exact hscan
  · exfalso
    unfold GetManager at hg
    have hchk : (!(W.isNone || h.IsValidWorldPtr W)) = true := by
      cases W with
      | none => exact absurd (Or.inl rfl) hW
      | some w =>
        have : h.IsValidWorldPtr (some w) ≠ true := fun hh => hW (Or.inr hh)
        simp [this]
    rw [if_pos hchk] at hg
    cases hg

theorem WorldsNodup_Register {h : Host} {Obj : Option UObject} {ctx : Option UContext} {b : Bool}
    {N : Option UClass} {s s2 : State} {ret : Option UObject}
    (hn : WorldsNodup s) (hreg : RegisterAsSingletonImpl h Obj ctx b N s = some (ret, s2)) :
    WorldsNodup s2 := by
  unfold RegisterAsSingletonImpl at hreg
  cases Obj with
  | none => simp at hreg
  | some o =>
    simp only at hreg
    split at hreg
    · cases hreg
    · split at hreg
      · simp only [Option.some.injEq, Prod.mk.injEq] at hreg
        rw [← hreg.2]; exact hn
      · split at hreg
        · simp only [Option.some.injEq, Prod.mk.injEq] at hreg
          rw [← hreg.2]; exact hn
        · split at hreg
          · cases hreg
          · rename_i Mgr s1 hg
            simp only [Option.some.injEq, Prod.mk.injEq] at hreg
            rw [← hreg.2]
            exact WorldsNodup_SetMap (WorldsNodup_GetManager hn hg) _ _

theorem WorldsNodup_GetSingleton {h : Host} {C : Option UClass} {ctx : Option UContext} {b : Bool}
    {R : Option UClass} {s s2 : State} {ret : Option UObject}
    (hn : WorldsNodup s) (hget : GetSingletonImpl h C ctx b R s = some (ret, s2)) :
    WorldsNodup s2 := by
  unfold GetSingletonImpl at hget
  cases C with
  | none => simp at hget
  | some c =>
    simp only at hget
    split at hget
    · cases hget
    · rename_i Mgr s1 hg
      have hn1 := WorldsNodup_GetManager hn hg
      split at hget
      · split at hget
        · cases hget
        · rename_i New hnew
          split at hget
          · split at hget
            · cases hget
            · rename_i r4 s4 hreg
              simp only [Option.some.injEq, Prod.mk.injEq] at hget
              rw [← hget.2]
              exact WorldsNodup_Register (WorldsNodup_SetMap (WorldsNodup_SetMap hn1 _ _) _ _) hreg
          · simp only [Option.some.injEq, Prod.mk.injEq] at hget
            rw [← hget.2]
            exact WorldsNodup_SetMap (WorldsNodup_SetMap (WorldsNodup_SetMap hn1 _ _) _ _) _ _
      · simp only [Option.some.injEq, Prod.mk.injEq] at hget
        rw [← hget.2]
        exact WorldsNodup_SetMap hn1 _ _

end UE4Singleton

/-- In every reachable state no two registry entries carry the same world
pointer. -/
theorem WorldsNodup_of_Reachable {s : State} (hs : Reachable s) : WorldsNodup s := by
  induction hs with
  | Initial => exact List.nodup_nil
  | GetManager h W b s s2 Mgr _ hg ih => exact UE4Singleton.WorldsNodup_GetManager ih hg
  | Register h Obj ctx b N s s2 ret _ hreg ih => exact UE4Singleton.WorldsNodup_Register ih hreg
  | GetSingleton h C ctx b R s s2 ret _ hget ih => exact UE4Singleton.WorldsNodup_GetSingleton ih hget
  | WorldCleanup h W s _ ih =>
    cases W with
    | none => exact ih
    | some w => exact ih.sublist ((NamespaceUE4Singleton.RemoveScan_sublist h w s.Managers).map _)
  | Collected M s _ ih => exact ih

/-- The registry predicate holds, for every engine, as soon as no two entries
carry the same world pointer: so it holds in every reachable state. -/
theorem UniqueScopes_of_WorldsNodup (h : Host) {s : State} (hn : WorldsNodup s) :
    UniqueScopes h s.Managers := by
  unfold UniqueScopes LiveScopes
  have hmap : (LiveEntries h s.Managers).map (fun e => h.Get e.WeakWorld)
      = (LiveEntries h s.Managers).map FWorldPair.WeakWorld := by
    apply List.map_congr_left
    intro x hx
    have hs : ¬ h.IsStale x.WeakWorld = true := by
      have := (List.mem_filter.mp hx).2
      simpa using this
    exact Host.Get_of_live hs
  rw [hmap]
  exact hn.sublist ((LiveEntries_sublist h s.Managers).map _)

/-! ## Facts for the registry, creation and walk claims -/

/-- With a world argument that is neither null nor valid `FindOrAdd` appends a
second null-world entry: the precondition of `GetManager` is needed. -/
theorem FindOrAdd_invalid_world_breaks_UniqueScopes :
    Sample.Engine.IsValidWorldPtr (some 3) = false ∧
    UniqueScopes Sample.Engine [{ WeakWorld := none, Manager := some 2 }] ∧
    ¬ UniqueScopes Sample.Engine
      (NamespaceUE4Singleton.FindOrAdd Sample.Engine (some 3) [{ WeakWorld := none, Manager := some 2 }]).1 := by
  unfold UniqueScopes
  decide

theorem length_filter_eq_le_one {α : Type} [DecidableEq α] {l : List α} (hl : l.Nodup) (a : α) :
    (l.filter (fun w => decide (w = a))).length ≤ 1 := by
  induction l with
  | nil => simp
  | cons x xs ih =>
    rw [List.nodup_cons] at hl
    by_cases hx : x = a
    · subst hx
      have : xs.filter (fun w => decide (w = x)) = [] := by
        rw [List.filter_eq_nil_iff]
        intro y hy
        simp only [decide_eq_true_eq]
        intro hyx
        exact hl.1 (hyx ▸ hy)
      simp [List.filter_cons, this]
    · simp only [List.filter_cons, hx, decide_False]
      exact ih hl.2

theorem ChainUpTo_self (c : UClass) : ChainUpTo c c = [c] := by
  cases c <;> simp [ChainUpTo]

theorem mem_ChainUpTo_of_mem_Chain {R C : UClass} (hR : R ∈ UClass.Chain C) : R ∈ ChainUpTo R C := by
  have h1 := WalkEnd_mem_WalkedClasses (some R) C
  rw [WalkEnd_some_on_chain hR, WalkedClasses_some] at h1
  exact h1

theorem UClass.Chain_nodup (c : UClass) : (UClass.Chain c).Nodup := by
  induction c with
  | Root n b => simp [UClass.Chain]
  | Sub n b p ih =>
    unfold UClass.Chain
    exact List.nodup_cons.mpr ⟨UClass.Sub_not_mem_Chain n b p, ih⟩

theorem WalkedClasses_initial_segment (N : Option UClass) (c : UClass) :
    WalkedClasses N c <+: UClass.Chain c := by
  induction c with
  | Root n b => exact List.prefix_refl _
  | Sub n b p ih =>
    unfold WalkedClasses UClass.Chain
    by_cases hb : UE4Singleton.WalkBreaks N (UClass.Sub n b p) = true
    · simp only [hb, if_true]
      exact ⟨UClass.Chain p, rfl⟩
    · simp only [hb, Bool.false_eq_true, if_false]
      exact (List.prefix_cons_inj _).mpr ih

theorem WalkedClasses_nodup (N : Option UClass) (c : UClass) : (WalkedClasses N c).Nodup :=
  List.Nodup.sublist (WalkedClasses_initial_segment N c).sublist (UClass.Chain_nodup c)

theorem WalkedClasses_off_chain {R c : UClass} (hR : R ∉ UClass.Chain c) :
    WalkedClasses (some R) c = UClass.Chain c := by
  induction c with
  | Root n b => rfl
  | Sub n b p ih =>
    unfold WalkedClasses UClass.Chain
    have hc : ¬ UClass.Sub n b p = R := by
      intro he; apply hR; rw [← he]; exact UClass.self_mem_Chain _
    have hR2 : R ∉ UClass.Chain p := by
      intro hh; apply hR; simp [UClass.Chain, hh]
    simp [UE4Singleton.WalkBreaks, hc, ih hR2]

/-- The ancestor loop is the left fold, over the classes it processes, of the
two steps of its body: `FindOrAdd(CurClass)` and the write through `Ptr`. -/
theorem UE4Singleton.Walk_fold (Obj : UObject) (N : Option UClass) (c : UClass) (m : TMap) :
    (UE4Singleton.Walk Obj N c m).2 =
      (WalkedClasses N c).foldl (fun a k => TMap.Assign (TMap.FindOrAdd a k) k (some Obj)) m := by
  induction c generalizing m with
  | Root n b => simp [UE4Singleton.Walk, WalkedClasses]
  | Sub n b p ih =>
    unfold UE4Singleton.Walk WalkedClasses
    by_cases hb : UE4Singleton.WalkBreaks N (UClass.Sub n b p) = true
    · simp [hb]
    · simp only [hb, Bool.false_eq_true, if_false, List.foldl_cons]
      rw [ih]

/-- An accepted registration in replace mode, with the maps of the managers
that are not the one of the scope. -/
theorem UE4Singleton.Register_replace_full (h : Host) (Obj : UObject) (ctx : Option UContext)
    (N : Option UClass) (s : State) (hv : h.IsValidObject Obj = true)
    (hW : ScopeOk h (h.ResolveWorld ctx))
    (hstop : UE4Singleton.EnsureStopClass h Obj N = true) (hskip : SkipsRegistration h Obj ctx = false) :
    ∃ Mgr s1, Resolves h (h.ResolveWorld ctx) s1 Mgr ∧
      (∀ M, M ≠ Mgr → s1.Singletons M = s.Singletons M) ∧
      UE4Singleton.RegisterAsSingletonImpl h (some Obj) ctx true N s =
        some (TMap.Value (ScopeMap h (h.ResolveWorld ctx) s) (WalkEnd N (h.GetClass Obj)),
          s1.SetMap Mgr (UE4Singleton.Walk Obj N (h.GetClass Obj) (ScopeMap h (h.ResolveWorld ctx) s)).2) := by
  obtain ⟨Mgr, s1, hg, hr, hm, hfr⟩ := UE4Singleton.GetManager_full h (h.ResolveWorld ctx) true s hW
  refine ⟨Mgr, s1, hr, hfr, ?_⟩
  unfold UE4Singleton.RegisterAsSingletonImpl
  have hskip2 : (h.bRunningCommandlet
      || ((h.ResolveWorld ctx).isNone && h.IsClassDefaultObject Obj)) = false := hskip
  simp only [hv, hstop, hskip2, hg, hm]
  simp [UE4Singleton.RegisterInMap, UE4Singleton.Walk_result]

/-! ## Facts for the instance selection, the variants and the registration modes -/

theorem NamespaceUE4Singleton.FindInstanceWorld_eq_find (h : Host) (l : List FWorldContext) :
    NamespaceUE4Singleton.FindInstanceWorld h l = (l.find? (Qualifies h)).bind FWorldContext.World := by
  induction l with
  | nil => rfl
  | cons c rest ih =>
    unfold NamespaceUE4Singleton.FindInstanceWorld
    cases hw : c.World with
    | none => simp [List.find?, Qualifies, hw, ih]
    | some w =>
      by_cases hg : h.IsGameWorld w = true
      · by_cases h1 : c.WorldType = EWorldType.PIE
        · simp [List.find?, Qualifies, hw, hg, h1]
        · by_cases h2 : c.WorldType = EWorldType.Game
          · simp [List.find?, Qualifies, hw, hg, h1, h2]
          · by_cases h3 : (decide (h.GetNetMode w = ENetMode.NM_Standalone)
                || (decide (h.GetNetMode w = ENetMode.NM_Client) && decide (c.PIEInstance = 2))) = true
            · simp only [hg, h1, h2, h3, if_true, if_false]
              simp [List.find?, Qualifies, hw, hg, h1, h2, h3]
            · simp only [hg, h1, h2, h3, if_true, if_false, Bool.false_eq_true]
              rw [ih]
              have hq : Qualifies h c = false := by
                simp only [Qualifies, hw, hg, h1, h2, decide_False, Bool.false_or, Bool.true_and]
                exact eq_false_of_ne_true h3
              simp [List.find?, hq]
      · have hq : Qualifies h c = false := by simp [Qualifies, hw, hg]
        simp [List.find?, hq, hg, ih]

theorem Variant_FindInstanceWorld (h : Host) (l : List FWorldContext) :
    MMPSingletonsManager.FindInstanceWorld h l = NamespaceUE4Singleton.FindInstanceWorld h l := by
  induction l with
  | nil => rfl
  | cons c rest ih =>
    unfold MMPSingletonsManager.FindInstanceWorld NamespaceUE4Singleton.FindInstanceWorld
    rw [ih]

theorem Variant_FindInstance (h : Host) :
    MMPSingletonsManager.FindInstance h = NamespaceUE4Singleton.FindInstance h := by
  unfold MMPSingletonsManager.FindInstance NamespaceUE4Singleton.FindInstance
  rw [Variant_FindInstanceWorld]

theorem find_of_filter_length_le_one {α : Type} (q : α → Bool) (l : List α) (c : α)
    (hone : (l.filter q).length ≤ 1) (hc : c ∈ l) (hq : q c = true) : l.find? q = some c := by
  induction l with
  | nil => cases hc
  | cons x xs ih =>
    by_cases hx : q x = true
    · have hnil : xs.filter q = [] := by
        simp only [List.filter_cons, hx, if_true, List.length_cons] at hone
        exact List.length_eq_zero.mp (by omega)
      rcases List.mem_cons.mp hc with rfl | hmem
      · simp [List.find?, hx]
      · have : c ∈ xs.filter q := List.mem_filter.mpr ⟨hmem, hq⟩
        rw [hnil] at this
        cases this
    · have hx2 : q x = false := eq_false_of_ne_true hx
      rcases List.mem_cons.mp hc with rfl | hmem
      · exact absurd hq hx
      · simp only [List.filter_cons, hx2, Bool.false_eq_true, if_false] at hone
        simp [List.find?, hx2, ih hone hmem]

theorem find_stronger_of_unique {α : Type} (p q : α → Bool) (l : List α)
    (hpq : ∀ x, p x = true → q x = true) (hone : (l.filter q).length ≤ 1) (c : α)
    (hp : l.find? p = some c) : l.find? q = some c :=
  find_of_filter_length_le_one q l c hone (List.mem_of_find?_eq_some hp) (hpq c (List.find?_some hp))

theorem find_none_of_cover {α : Type} (p1 p2 p3 q : α → Bool) (l : List α)
    (hcov : ∀ x, q x = true → p1 x = true ∨ p2 x = true ∨ p3 x = true)
    (h1 : l.find? p1 = none) (h2 : l.find? p2 = none) (h3 : l.find? p3 = none) : l.find? q = none := by
  rw [List.find?_eq_none] at h1 h2 h3 ⊢
  intro x hx hq
  rcases hcov x hq with h | h | h
  · exact h1 x hx h
  · exact h2 x hx h
  · exact h3 x hx h

/-- The selection by priority and the selection by list position coincide when
at most one context of the list makes the loop break. -/
theorem PrioritySelect_eq_of_unique (h : Host) (l : List FWorldContext)
    (hone : (l.filter (Qualifies h)).length ≤ 1) :
    PrioritySelect h l = NamespaceUE4Singleton.FindInstanceWorld h l := by
  rw [NamespaceUE4Singleton.FindInstanceWorld_eq_find]
  have q1 : ∀ x : FWorldContext,
      (x.World.any h.IsGameWorld && decide (x.WorldType = EWorldType.PIE)) = true →
        Qualifies h x = true := by
    intro x hx
    cases hw : x.World with
    | none => simp [hw] at hx
    | some w =>
      simp only [hw, Option.any_some, Bool.and_eq_true, decide_eq_true_eq] at hx
      simp [Qualifies, hw, hx.1, hx.2]
  have q2 : ∀ x : FWorldContext,
      (x.World.any h.IsGameWorld && decide (x.WorldType = EWorldType.Game)) = true →
        Qualifies h x = true := by
    intro x hx
    cases hw : x.World with
    | none => simp [hw] at hx
    | some w =>
      simp only [hw, Option.any_some, Bool.and_eq_true, decide_eq_true_eq] at hx
      simp [Qualifies, hw, hx.1, hx.2]
  have q3 : ∀ x : FWorldContext,
      (x.World.any (fun w => h.IsGameWorld w &&
        (decide (h.GetNetMode w = ENetMode.NM_Standalone) ||
          (decide (h.GetNetMode w = ENetMode.NM_Client) && decide (x.PIEInstance = 2))))) = true →
        Qualifies h x = true := by
    intro x hx
    cases hw : x.World with
    | none => simp [hw] at hx
    | some w =>
      simp only [hw, Option.any_some, Bool.and_eq_true] at hx
      simp only [Qualifies, hw, hx.1, hx.2, Bool.true_and, Bool.or_true]
  have hcov : ∀ x : FWorldContext, Qualifies h x = true →
      (x.World.any h.IsGameWorld && decide (x.WorldType = EWorldType.PIE)) = true ∨
      (x.World.any h.IsGameWorld && decide (x.WorldType = EWorldType.Game)) = true ∨
      (x.World.any (fun w => h.IsGameWorld w &&
        (decide (h.GetNetMode w = ENetMode.NM_Standalone) ||
          (decide (h.GetNetMode w = ENetMode.NM_Client) && decide (x.PIEInstance = 2))))) = true := by
    intro x hx
    cases hw : x.World with
    | none => simp [Qualifies, hw] at hx
    | some w =>
      simp only [Qualifies, hw, Bool.and_eq_true, Bool.or_eq_true] at hx
      obtain ⟨hg, hx⟩ := hx
      rcases hx with hx | hx | hx
      · left; simp only [Option.any_some, hg, hx, Bool.and_self]
      · right; left; simp only [Option.any_some, hg, hx, Bool.and_self]
      · right; right
        simp only [Option.any_some, hg, Bool.true_and, Bool.or_eq_true, Bool.and_eq_true]
        exact hx
  unfold PrioritySelect
  cases h1 : l.find? (fun c => c.World.any h.IsGameWorld && decide (c.WorldType = EWorldType.PIE)) with
  | some c => rw [find_stronger_of_unique _ (Qualifies h) l q1 hone c h1]; rfl
  | none =>
    cases h2 : l.find? (fun c => c.World.any h.IsGameWorld && decide (c.WorldType = EWorldType.Game)) with
    | some c => rw [find_stronger_of_unique _ (Qualifies h) l q2 hone c h2]; rfl
    | none =>
      cases h3 : l.find? (fun c => c.World.any (fun w => h.IsGameWorld w &&
          (decide (h.GetNetMode w = ENetMode.NM_Standalone) ||
            (decide (h.GetNetMode w = ENetMode.NM_Client) && decide (c.PIEInstance = 2))))) with
      | some c => rw [find_stronger_of_unique _ (Qualifies h) l q3 hone c h3]
      | none => rw [find_none_of_cover _ _ _ (Qualifies h) l hcov h1 h2 h3]

theorem Variant_FindOrAdd (h : Host) (W : Option UWorld) (l : List FWorldPair) :
    MMPSingletonsManager.FindOrAdd h W l = NamespaceUE4Singleton.FindOrAdd h W l := by
  induction l with
  | nil => rfl
  | cons e rest ih =>
    unfold MMPSingletonsManager.FindOrAdd NamespaceUE4Singleton.FindOrAdd
    rw [ih]

theorem Variant_NewManager (h : Host) (W : Option UWorld) (i : Nat) (s : State) :
    UMMPSingletons.NewManager h W i s = UE4Singleton.NewManager h W i s := by
  unfold UMMPSingletons.NewManager UE4Singleton.NewManager
  rw [Variant_FindInstance]

theorem Variant_GetManager (h : Host) (W : Option UWorld) (b : Bool) (s : State) :
    UMMPSingletons.GetManager h W b s = UE4Singleton.GetManager h W b s := by
  unfold UMMPSingletons.GetManager UE4Singleton.GetManager
  simp only [Variant_FindOrAdd, Variant_NewManager]

theorem Variant_CreateInstance (h : Host) (C : Option UClass) (ctx : Option UContext) :
    UMMPSingletons.CreateInstance h C ctx = UE4Singleton.CreateInstanceImpl h ctx C := by
  unfold UMMPSingletons.CreateInstance UE4Singleton.CreateInstanceImpl
  rw [Variant_FindInstance]

theorem Variant_EnsureStopClass (h : Host) (Obj : UObject) (N : Option UClass) :
    UMMPSingletons.EnsureStopClass h Obj N = UE4Singleton.EnsureStopClass h Obj N := by
  cases N <;> rfl

theorem Variant_Walk (Obj : UObject) (N : Option UClass) (c : UClass) (m : TMap) :
    UMMPSingletons.Walk Obj N c m = UE4Singleton.Walk Obj N c m := by
  induction c generalizing m with
  | Root n b => rfl
  | Sub n b p ih =>
    unfold UMMPSingletons.Walk UE4Singleton.Walk
    rw [ih]
    cases N <;> rfl

theorem Variant_LookupExisting (c : UClass) (N : Option UClass) (m : TMap) :
    UMMPSingletons.LookupExisting c N m = UE4Singleton.LookupExisting c N m := rfl

theorem Variant_RegisterInMap (Obj : UObject) (c : UClass) (b : Bool) (N : Option UClass) (m : TMap) :
    UMMPSingletons.RegisterInMap Obj c b N m = UE4Singleton.RegisterInMap Obj c b N m := by
  unfold UMMPSingletons.RegisterInMap UE4Singleton.RegisterInMap
  simp only [Variant_LookupExisting, Variant_Walk]

/-- The variant `UMMPSingletons` registers like `UE4Singleton`, except that it
turns down the calls that pass the stop-class check and the guard of line 148
but fail its actor-world check. -/
theorem Variant_Register (h : Host) (Obj : UObject) (ctx : Option UContext) (b : Bool)
    (N : Option UClass) (s : State) :
    UMMPSingletons.RegisterAsSingletonImpl h (some Obj) ctx b N s =
      if (h.IsValidObject Obj && UE4Singleton.EnsureStopClass h Obj N && !SkipsRegistration h Obj ctx
          && !UMMPSingletons.EnsureActorWorld h Obj (h.ResolveWorld ctx)) = true then some (none, s)
      else UE4Singleton.RegisterAsSingletonImpl h (some Obj) ctx b N s := by
  unfold UMMPSingletons.RegisterAsSingletonImpl UE4Singleton.RegisterAsSingletonImpl
  simp only [Variant_EnsureStopClass, Variant_GetManager, Variant_RegisterInMap]
  have hsk : SkipsRegistration h Obj ctx = (h.bRunningCommandlet
      || ((h.ResolveWorld ctx).isNone && h.IsClassDefaultObject Obj)) := rfl
  rw [hsk]
  cases h.IsValidObject Obj <;> cases UE4Singleton.EnsureStopClass h Obj N <;>
    cases (h.bRunningCommandlet || ((h.ResolveWorld ctx).isNone && h.IsClassDefaultObject Obj)) <;>
    cases UMMPSingletons.EnsureActorWorld h Obj (h.ResolveWorld ctx) <;> simp

theorem Variant_Register_null (h : Host) (ctx : Option UContext) (b : Bool)
    (N : Option UClass) (s : State) :
    UMMPSingletons.RegisterAsSingletonImpl h none ctx b N s =
      UE4Singleton.RegisterAsSingletonImpl h none ctx b N s := rfl

theorem UE4Singleton.ScopeOk_of_GetManager {h : Host} {W : Option UWorld} {b : Bool} {s : State}
    {r : UManager × State} (hg : UE4Singleton.GetManager h W b s = some r) : ScopeOk h W := by
  unfold UE4Singleton.GetManager at hg
  cases W with
  | none => exact Or.inl rfl
  | some w =>
    right
    by_contra hc
    have hc2 : h.IsValidWorldPtr (some w) = false := eq_false_of_ne_true hc
    simp [hc2] at hg

/-- The creating branch of `UE4Singleton::GetSingletonImpl`, lines 208-217: the
new instance is written through `Ptr` and handed to `RegisterAsSingletonImpl`. -/
theorem UE4Singleton.Get_unfold_create {h : Host} {C : UClass} {ctx : Option UContext}
    {RegClass : Option UClass} {s : State} {New : UObject} {Mgr : UManager} {s1 : State}
    (hg : UE4Singleton.GetManager h (h.ResolveWorld ctx) true s = some (Mgr, s1))
    (hinv : h.IsValid (TMap.Value (s1.Singletons Mgr) (RegClass.getD C)) = false)
    (hnew : UE4Singleton.CreateInstanceImpl h ((h.ResolveWorld ctx).map UContext.World) (some C)
      = some (some New))
    (hnv : h.IsValidObject New = true) :
    UE4Singleton.GetSingletonImpl h (some C) ctx true RegClass s =
      match UE4Singleton.RegisterAsSingletonImpl h (some New) ((h.ResolveWorld ctx).map UContext.World) true
          (some (RegClass.getD C))
          (s1.SetMap Mgr (TMap.Assign (s1.Singletons Mgr) (RegClass.getD C) (some New))) with
      | none => none
      | some (_, s4) => some (s4.Lookup Mgr (RegClass.getD C), s4) := by
  have hcond : (!h.IsValid (TMap.Value (s1.Singletons Mgr) (RegClass.getD C)) && true) = true := by
    simp [hinv]
  have hnv2 : h.IsValid (some New) = true := hnv
  unfold UE4Singleton.GetSingletonImpl
  simp only [hg, hcond, if_true, hnew, hnv2, State.SetMap_SetMap, State.SetMap_Singletons_same,
    TMap.Assign_FindOrAdd]
  try rfl

/-- The creating branch of `UMMPSingletons::GetSingletonImpl`, lines 209-218. -/
theorem Variant_Get_unfold_create {h : Host} {C : UClass} {ctx : Option UContext}
    {RegClass : Option UClass} {s : State} {New : UObject} {Mgr : UManager} {s1 : State}
    (hg : UE4Singleton.GetManager h (h.ResolveWorld ctx) true s = some (Mgr, s1))
    (hinv : h.IsValid (TMap.Value (s1.Singletons Mgr) (RegClass.getD C)) = false)
    (hnew : UE4Singleton.CreateInstanceImpl h ((h.ResolveWorld ctx).map UContext.World) (some C)
      = some (some New))
    (hnv : h.IsValidObject New = true) :
    UMMPSingletons.GetSingletonImpl h (some C) ctx true RegClass s =
      match UMMPSingletons.RegisterAsSingletonImpl h (some New) ((h.ResolveWorld ctx).map UContext.World)
          true (some (RegClass.getD C))
          (s1.SetMap Mgr (TMap.Assign (s1.Singletons Mgr) (RegClass.getD C) (some New))) with
      | none => none
      | some (_, s4) => some (s4.Lookup Mgr (RegClass.getD C), s4) := by
  have hcond : (!h.IsValid (TMap.Value (s1.Singletons Mgr) (RegClass.getD C)) && true) = true := by
    simp [hinv]
  have hnv2 : h.IsValid (some New) = true := hnv
  unfold UMMPSingletons.GetSingletonImpl
  simp only [Variant_GetManager, Variant_CreateInstance, hg, hcond, if_true, hnew, hnv2,
    State.SetMap_SetMap, State.SetMap_Singletons_same, TMap.Assign_FindOrAdd]
  try rfl

/-- A creating lookup of the variant `UMMPSingletons` whose registration class
resolves to no valid instance and whose factory yields a valid one: it returns
the new instance; the mapping of the scope afterwards is `CreatedMap` when the
instance passes the actor-world check, and otherwise the mapping before with
the registration class bound to the instance. -/
theorem Variant_Get_create_spec (h : Host) (C : UClass) (ctx : Option UContext)
    (RegClass : Option UClass) (s : State) (New : UObject) (hW : ScopeOk h (h.ResolveWorld ctx))
    (hinv : h.IsValid (ScopedLookup h (h.ResolveWorld ctx) s (RegClass.getD C)) = false)
    (hnew : UE4Singleton.CreateInstanceImpl h ((h.ResolveWorld ctx).map UContext.World) (some C)
      = some (some New))
    (hnv : h.IsValidObject New = true) :
    ∃ Mgr s1, Resolves h (h.ResolveWorld ctx) s1 Mgr ∧
      (∀ M, M ≠ Mgr → s1.Singletons M = s.Singletons M) ∧
      UMMPSingletons.GetSingletonImpl h (some C) ctx true RegClass s =
        some (some New, s1.SetMap Mgr
          (if UMMPSingletons.EnsureActorWorld h New (h.ResolveWorld ctx) = true then
            CreatedMap h New (RegClass.getD C) (h.ResolveWorld ctx) (ScopeMap h (h.ResolveWorld ctx) s)
          else TMap.Assign (ScopeMap h (h.ResolveWorld ctx) s) (RegClass.getD C) (some New))) := by
  obtain ⟨Mgr, s1, hg, hr, hm, hframe⟩ := UE4Singleton.GetManager_full h (h.ResolveWorld ctx) true s hW
  have hinv2 : h.IsValid (TMap.Value (s1.Singletons Mgr) (RegClass.getD C)) = false := by
    rw [hm]; exact hinv
  have hU := Variant_Get_unfold_create hg hinv2 hnew hnv
  rw [Variant_Register, Host.ResolveWorld_map_World] at hU
  by_cases hcond : (h.IsValidObject New && UE4Singleton.EnsureStopClass h New (some (RegClass.getD C))
      && !SkipsRegistration h New ((h.ResolveWorld ctx).map UContext.World)
      && !UMMPSingletons.EnsureActorWorld h New (h.ResolveWorld ctx)) = true
  · refine ⟨Mgr, s1, hr, hframe, ?_⟩
    rw [hU, if_pos hcond]
    have hact : UMMPSingletons.EnsureActorWorld h New (h.ResolveWorld ctx) = false := by
      simp only [Bool.and_eq_true, Bool.not_eq_true'] at hcond
      exact hcond.2
    simp [hact, State.Lookup, hm]
  · rw [if_neg hcond, ← UE4Singleton.Get_unfold_create hg hinv2 hnew hnv] at hU
    obtain ⟨Mgr2, s2, hr2, hframe2, hget⟩ := UE4Singleton.Get_create_spec h C ctx RegClass s New hW hinv hnew hnv
    refine ⟨Mgr2, s2, hr2, hframe2, ?_⟩
    rw [hU, hget]
    by_cases hact : UMMPSingletons.EnsureActorWorld h New (h.ResolveWorld ctx) = true
    · rw [if_pos hact]
    · rw [if_neg hact]
      have hact2 : UMMPSingletons.EnsureActorWorld h New (h.ResolveWorld ctx) = false :=
        eq_false_of_ne_true hact
      have hc2 : (UE4Singleton.EnsureStopClass h New (some (RegClass.getD C))
          && !SkipsRegistration h New ((h.ResolveWorld ctx).map UContext.World)) = false := by
        apply eq_false_of_ne_true
        intro hh
        apply hcond
        simp only [Bool.and_eq_true] at hh
        simp [hnv, hh.1, hh.2, hact2]
      simp [CreatedMap, hc2]

/-- The two variants of `GetSingletonImpl` run alike, or else the call creates,
on an accepted scope, a valid instance that passes the stop-class check and the
guard of line 148 and fails the actor-world check of `UMMPSingletons`. -/
theorem Variant_Get_cases (h : Host) (C : Option UClass) (ctx : Option UContext) (b : Bool)
    (RegClass : Option UClass) (s : State) :
    UMMPSingletons.GetSingletonImpl h C ctx b RegClass s
        = UE4Singleton.GetSingletonImpl h C ctx b RegClass s ∨
      ∃ c New, C = some c ∧ b = true ∧ ScopeOk h (h.ResolveWorld ctx) ∧
        h.IsValid (ScopedLookup h (h.ResolveWorld ctx) s (RegClass.getD c)) = false ∧
        UE4Singleton.CreateInstanceImpl h ((h.ResolveWorld ctx).map UContext.World) (some c)
          = some (some New) ∧
        h.IsValidObject New = true ∧
        UMMPSingletons.EnsureActorWorld h New (h.ResolveWorld ctx) = false := by
  cases C with
  | none => exact Or.inl rfl
  | some c =>
    cases b with
    | false =>
      left
      unfold UMMPSingletons.GetSingletonImpl UE4Singleton.GetSingletonImpl
      simp only [Variant_GetManager, Bool.and_false, Bool.false_eq_true, if_false]
    | true =>
      cases hg : UE4Singleton.GetManager h (h.ResolveWorld ctx) true s with
      | none =>
        left
        unfold UMMPSingletons.GetSingletonImpl UE4Singleton.GetSingletonImpl
        simp only [Variant_GetManager, hg]
      | some r =>
        obtain ⟨Mgr, s1⟩ := r
        have hW := UE4Singleton.ScopeOk_of_GetManager hg
        obtain ⟨Mgr2, s2, hg2, -, hm, -⟩ := UE4Singleton.GetManager_full h (h.ResolveWorld ctx) true s hW
        rw [hg] at hg2
        simp only [Option.some.injEq, Prod.mk.injEq] at hg2
        obtain ⟨hM, hs⟩ := hg2
        subst hM; subst hs
        by_cases hinv : h.IsValid (TMap.Value (s1.Singletons Mgr) (RegClass.getD c)) = true
        · left
          unfold UMMPSingletons.GetSingletonImpl UE4Singleton.GetSingletonImpl
          simp only [Variant_GetManager, hg, hinv, Bool.not_true, Bool.false_and, Bool.false_eq_true,
            if_false]
        · have hinv2 : h.IsValid (TMap.Value (s1.Singletons Mgr) (RegClass.getD c)) = false :=
            eq_false_of_ne_true hinv
          cases hnew : UE4Singleton.CreateInstanceImpl h ((h.ResolveWorld ctx).map UContext.World)
              (some c) with
          | none =>
            left
            unfold UMMPSingletons.GetSingletonImpl UE4Singleton.GetSingletonImpl
            simp only [Variant_GetManager, Variant_CreateInstance, hg, hnew]
          | some New =>
            cases New with
            | none =>
              left
              unfold UMMPSingletons.GetSingletonImpl UE4Singleton.GetSingletonImpl
              simp only [Variant_GetManager, Variant_CreateInstance, hg, hnew, Host.IsValid, Bool.false_eq_true,
                if_false]
            | some o =>
              by_cases hnv : h.IsValidObject o = true
              · by_cases hact : UMMPSingletons.EnsureActorWorld h o (h.ResolveWorld ctx) = true
                · left
                  rw [Variant_Get_unfold_create hg hinv2 hnew hnv,
                    UE4Singleton.Get_unfold_create hg hinv2 hnew hnv, Variant_Register,
                    Host.ResolveWorld_map_World]
                  simp [hact]
                · right
                  refine ⟨c, o, rfl, rfl, hW, ?_, hnew, hnv, eq_false_of_ne_true hact⟩
                  unfold ScopedLookup
                  rw [← hm]; exact hinv2
              · left
                have hnv2 : h.IsValidObject o = false := eq_false_of_ne_true hnv
                unfold UMMPSingletons.GetSingletonImpl UE4Singleton.GetSingletonImpl
                simp only [Variant_GetManager, Variant_CreateInstance, hg, hnew, Host.IsValid, hnv2,
                  Bool.false_eq_true, if_false]

/-- An accepted registration, on the manager and the state `GetManager`
yields. -/
theorem UE4Singleton.Register_at {h : Host} {Obj : UObject} {ctx : Option UContext} (b : Bool)
    {N : Option UClass} {s : State} {Mgr : UManager} {s1 : State}
    (hv : h.IsValidObject Obj = true)
    (hstop : UE4Singleton.EnsureStopClass h Obj N = true) (hskip : SkipsRegistration h Obj ctx = false)
    (hg : UE4Singleton.GetManager h (h.ResolveWorld ctx) true s = some (Mgr, s1)) :
    UE4Singleton.RegisterAsSingletonImpl h (some Obj) ctx b N s =
      some ((UE4Singleton.RegisterInMap Obj (h.GetClass Obj) b N (s1.Singletons Mgr)).1,
        s1.SetMap Mgr (UE4Singleton.RegisterInMap Obj (h.GetClass Obj) b N (s1.Singletons Mgr)).2) := by
  unfold UE4Singleton.RegisterAsSingletonImpl
  have hskip2 : (h.bRunningCommandlet
      || ((h.ResolveWorld ctx).isNone && h.IsClassDefaultObject Obj)) = false := hskip
  simp only [hv, hstop, hskip2, hg]
  simp

/-- The mode `!bReplaceExist` on a map in which neither the object's class nor
the stop class resolves to an instance: the two lookups add their keys and the
ancestor loop runs as in replace mode. -/
theorem UE4Singleton.RegisterInMap_no_replace (Obj : UObject) (c : UClass) (N : Option UClass) (m : TMap)
    (hc : TMap.Value m c = none) (hN : ∀ R, N = some R → TMap.Value m R = none) :
    (UE4Singleton.RegisterInMap Obj c false N m).1 = (UE4Singleton.RegisterInMap Obj c true N m).1 ∧
      (∀ k, (UE4Singleton.RegisterInMap Obj c false N m).2 k =
        if k ∈ WalkedClasses N c then some (some Obj)
        else if N = some k then some (TMap.Value m k) else m k) ∧
      (∀ k, (UE4Singleton.RegisterInMap Obj c true N m).2 k =
        if k ∈ WalkedClasses N c then some (some Obj) else m k) := by
  have hT : UE4Singleton.RegisterInMap Obj c true N m = UE4Singleton.Walk Obj N c m := by
    simp [UE4Singleton.RegisterInMap]
  have hself := self_mem_WalkedClasses N c
  cases N with
  | none =>
    have hF : UE4Singleton.RegisterInMap Obj c false none m
        = UE4Singleton.Walk Obj none c (TMap.FindOrAdd m c) := by
      simp [UE4Singleton.RegisterInMap, UE4Singleton.LookupExisting, hc]
    rw [hF, hT]
    refine ⟨?_, ?_, ?_⟩
    · rw [UE4Singleton.Walk_result, UE4Singleton.Walk_result, TMap.Value_FindOrAdd]
    · intro k
      rw [UE4Singleton.Walk_map]
      by_cases hk : k ∈ WalkedClasses none c
      · simp [hk]
      · have hkc : k ≠ c := fun hh => hk (hh ▸ hself)
        simp [hk, TMap.FindOrAdd_other m hkc]
    · intro k
      rw [UE4Singleton.Walk_map]
  | some R =>
    have hR := hN R rfl
    have hF : UE4Singleton.RegisterInMap Obj c false (some R) m
        = UE4Singleton.Walk Obj (some R) c (TMap.FindOrAdd (TMap.FindOrAdd m c) R) := by
      simp [UE4Singleton.RegisterInMap, UE4Singleton.LookupExisting, hc, hR]
    rw [hF, hT]
    refine ⟨?_, ?_, ?_⟩
    · rw [UE4Singleton.Walk_result, UE4Singleton.Walk_result, TMap.Value_FindOrAdd, TMap.Value_FindOrAdd]
    · intro k
      rw [UE4Singleton.Walk_map]
      by_cases hk : k ∈ WalkedClasses (some R) c
      · simp [hk]
      · have hkc : k ≠ c := fun hh => hk (hh ▸ hself)
        by_cases hkR : k = R
        · subst hkR
          simp [hk, TMap.FindOrAdd_same]
        · have hne : ¬ (some R = some k) := fun hh => hkR (Option.some.inj hh).symm
          simp [hk, hne, TMap.FindOrAdd_other _ hkR, TMap.FindOrAdd_other m hkc]
    · intro k
      rw [UE4Singleton.Walk_map]

theorem CreatedMap_Value (h : Host) (New : UObject) (R : UClass) (W : Option UWorld) (m : TMap) :
    TMap.Value (CreatedMap h New R W m) R = some New := by
  unfold CreatedMap
  split
  · rw [UE4Singleton.Walk_Value]; simp
  · simp

theorem CreatedMap_rejected (h : Host) (New : UObject) (R : UClass) (W : Option UWorld) (m : TMap)
    (hrej : UE4Singleton.EnsureStopClass h New (some R) = false ∨
      SkipsRegistration h New (W.map UContext.World) = true) :
    CreatedMap h New R W m = TMap.Assign m R (some New) := by
  unfold CreatedMap
  rcases hrej with hr | hr <;> simp [hr]

/-! ## The registry under another engine with the same valid worlds -/

/-- The registry scan asks the engine only which worlds are valid. -/
theorem NamespaceUE4Singleton.FindOrAdd_host (h h2 : Host) (hw : h2.IsValidWorld = h.IsValidWorld)
    (W : Option UWorld) (l : List FWorldPair) :
    NamespaceUE4Singleton.FindOrAdd h2 W l = NamespaceUE4Singleton.FindOrAdd h W l := by
  have hstale : ∀ w, h2.IsStale w = h.IsStale w := by
    intro w; cases w <;> simp [Host.IsStale, hw]
  have hget : ∀ w, h2.Get w = h.Get w := by
    intro w; cases w <;> simp [Host.Get, hw]
  have hptr : ∀ w, h2.IsValidWorldPtr w = h.IsValidWorldPtr w := by
    intro w; cases w <;> simp [Host.IsValidWorldPtr, hw]
  induction l with
  | nil => simp [NamespaceUE4Singleton.FindOrAdd, hptr]
  | cons e rest ih =>
    unfold NamespaceUE4Singleton.FindOrAdd
    rw [ih, hstale, hget]

theorem Resolves_host {h h2 : Host} (hw : h2.IsValidWorld = h.IsValidWorld) {W : Option UWorld}
    {s : State} {Mgr : UManager} (hr : Resolves h W s Mgr) : Resolves h2 W s Mgr := by
  unfold Resolves at hr ⊢
  rw [NamespaceUE4Singleton.FindOrAdd_host h h2 hw]
  exact hr

theorem ScopeOk_host {h h2 : Host} (hw : h2.IsValidWorld = h.IsValidWorld) {W : Option UWorld}
    (hW : ScopeOk h W) : ScopeOk h2 W := by
  rcases hW with hW | hW
  · exact Or.inl hW
  · right
    cases W with
    | none => exact hW
    | some w => simpa [Host.IsValidWorldPtr, hw] using hW

/-! ## The claims -/

/-- C1: on an accepted scope (the global scope or a live world) and with a
factory that yields a valid instance, `GetSingletonImpl(C, ctx, true, RegClass)`
returns a valid instance and leaves the registration class bound to it in the
mapping of the scope. The same call repeated on the state it leaves returns
that same instance and changes nothing, and it does so under every engine with
the same valid worlds (no teardown) in which the instance is still valid,
whatever the factory of that engine would yield and whether or not the call may
create: the second call finds the stored entry and does not create again. -/
theorem C1_GetSingletonImpl_twice_same_instance (h : Host) (C : UClass) (ctx : Option UContext)
    (RegClass : Option UClass) (s : State)
    (hW : ScopeOk h (h.ResolveWorld ctx))
    (hcreate : ∃ New,
      UE4Singleton.CreateInstanceImpl h ((h.ResolveWorld ctx).map UContext.World) (some C) = some (some New)
        ∧ h.IsValidObject New = true) :
    ∃ p s1, h.IsValidObject p = true ∧
      UE4Singleton.GetSingletonImpl h (some C) ctx true RegClass s = some (some p, s1) ∧
      UE4Singleton.GetSingletonImpl h (some C) ctx true RegClass s1 = some (some p, s1) ∧
      ScopedLookup h (h.ResolveWorld ctx) s1 (RegClass.getD C) = some p ∧
      ∀ (h2 : Host) (b : Bool), h2.IsValidWorld = h.IsValidWorld →
        h2.ResolveWorld ctx = h.ResolveWorld ctx → h2.IsValidObject p = true →
        UE4Singleton.GetSingletonImpl h2 (some C) ctx b RegClass s1 = some (some p, s1) := by
  obtain ⟨p, Mgr, t, h1, hr, hp, hv⟩ := UE4Singleton.Get_create h C ctx RegClass s hW hcreate
  refine ⟨p, t, hv, h1, UE4Singleton.Get_found true hW hr hp hv, ?_, ?_⟩
  · unfold ScopedLookup
    rw [UE4Singleton.ScopeMap_of_Resolves hr]
    exact hp
  · intro h2 b hw hres hv2
    have hW2 : ScopeOk h2 (h2.ResolveWorld ctx) := by rw [hres]; exact ScopeOk_host hw hW
    have hr2 : Resolves h2 (h2.ResolveWorld ctx) t Mgr := by rw [hres]; exact Resolves_host hw hr
    exact UE4Singleton.Get_found b hW2 hr2 hp hv2

/-- Instance of C1: class `D` requested for the live world 1, starting from the
initial state; the second call returns the same instance also under the engine
`Broken`, whose factory would hand out the pending-kill object 6, and also
with `bCreate = false`. -/
theorem C1_GetSingletonImpl_twice_same_instance_witness :
    ScopeOk Sample.Engine (Sample.Engine.ResolveWorld (some (UContext.World 1))) ∧
    (∃ New,
      UE4Singleton.CreateInstanceImpl Sample.Engine
          ((Sample.Engine.ResolveWorld (some (UContext.World 1))).map UContext.World) (some Sample.D)
        = some (some New) ∧ Sample.Engine.IsValidObject New = true) ∧
    UE4Singleton.CreateInstanceImpl Sample.Broken (some (UContext.World 1)) (some Sample.D) = some (some 6) ∧
    ∃ p s1, Sample.Engine.IsValidObject p = true ∧
      UE4Singleton.GetSingletonImpl Sample.Engine (some Sample.D) (some (UContext.World 1)) true none
        State.Initial = some (some p, s1) ∧
      UE4Singleton.GetSingletonImpl Sample.Engine (some Sample.D) (some (UContext.World 1)) true none
        s1 = some (some p, s1) ∧
      UE4Singleton.GetSingletonImpl Sample.Broken (some Sample.D) (some (UContext.World 1)) true none
        s1 = some (some p, s1) ∧
      UE4Singleton.GetSingletonImpl Sample.Engine (some Sample.D) (some (UContext.World 1)) false none
        s1 = some (some p, s1) := by
  obtain ⟨p, s1, hv, h1, h2, -, h4⟩ :=
    C1_GetSingletonImpl_twice_same_instance Sample.Engine Sample.D (some (UContext.World 1)) none
      State.Initial (Or.inr rfl) ⟨7, rfl, rfl⟩
  exact ⟨Or.inr rfl, ⟨7, rfl, rfl⟩, rfl, p, s1, hv, h1, h2, h4 Sample.Broken true rfl rfl hv,
    h4 Sample.Engine false rfl rfl hv⟩

/-- C2: registering any valid object under a live world `W1` leaves, for every
other live world `W2`, the manager the registry holds for `W2` and the map of
that manager unchanged, so the mapping of the scope `W2` is the same before and
after, and a lookup scoped to `W2` that may not create returns exactly what
`W2` itself resolved the class to before the registration under `W1`. The
registry invariant `RegistryWF` assumed of the state holds in every reachable
state. -/
theorem C2_Register_leaves_other_world_untouched (h : Host) (Obj : UObject) (ctx1 ctx2 : Option UContext)
    (b : Bool) (N : Option UClass) (C : UClass) (RegClass : Option UClass) (s : State)
    (hwf : RegistryWF s) (hv : h.IsValidObject Obj = true)
    (hW1 : h.IsValidWorldPtr (h.ResolveWorld ctx1) = true)
    (hW2 : h.IsValidWorldPtr (h.ResolveWorld ctx2) = true)
    (hne : h.ResolveWorld ctx1 ≠ h.ResolveWorld ctx2) :
    ∃ ret s2, UE4Singleton.RegisterAsSingletonImpl h (some Obj) ctx1 b N s = some (ret, s2) ∧
      ManagerOf h (h.ResolveWorld ctx2) s2.Managers = ManagerOf h (h.ResolveWorld ctx2) s.Managers ∧
      (∀ M, ManagerOf h (h.ResolveWorld ctx2) s.Managers = some M → s2.Singletons M = s.Singletons M) ∧
      ScopeMap h (h.ResolveWorld ctx2) s2 = ScopeMap h (h.ResolveWorld ctx2) s ∧
      ∃ t2, UE4Singleton.GetSingletonImpl h (some C) ctx2 false RegClass s2
        = some (ScopedLookup h (h.ResolveWorld ctx2) s (RegClass.getD C), t2) := by
  have hret : ∃ ret s2, UE4Singleton.RegisterAsSingletonImpl h (some Obj) ctx1 b N s = some (ret, s2) := by
    rcases UE4Singleton.Register_cases h Obj ctx1 b N s hv (Or.inr hW1) with hc | ⟨Mgr, s1, -, hc⟩
    · exact ⟨_, _, hc⟩
    · exact ⟨_, _, hc⟩
  obtain ⟨ret, s2, hreg⟩ := hret
  obtain ⟨f1, f2, f3⟩ := UE4Singleton.Register_ScopeMap_other hwf hv
    (Or.inr hW1) hne hreg
  refine ⟨ret, s2, hreg, f1, fun M hM => (f2 M hM).1, f3, ?_⟩
  obtain ⟨Mgr, t1, -, hget⟩ := UE4Singleton.Get_nocreate h C ctx2 RegClass s2 (Or.inr hW2)
  refine ⟨t1.SetMap Mgr (TMap.FindOrAdd (ScopeMap h (h.ResolveWorld ctx2) s2) (RegClass.getD C)), ?_⟩
  rw [hget]
  simp only [ScopedLookup, f3]

/-- Instance of C2: object 7 registered under world 1 while world 2 holds object 9 for `D`. -/
theorem C2_Register_leaves_other_world_untouched_witness :
    RegistryWF Sample.S2 ∧ Sample.Engine.IsValidObject 7 = true ∧
    Sample.Engine.IsValidWorldPtr (Sample.Engine.ResolveWorld (some (UContext.World 1))) = true ∧
    Sample.Engine.IsValidWorldPtr (Sample.Engine.ResolveWorld (some (UContext.World 2))) = true ∧
    Sample.Engine.ResolveWorld (some (UContext.World 1))
      ≠ Sample.Engine.ResolveWorld (some (UContext.World 2)) ∧
    ∃ ret s2, UE4Singleton.RegisterAsSingletonImpl Sample.Engine (some 7) (some (UContext.World 1)) true none
        Sample.S2 = some (ret, s2) ∧
      ManagerOf Sample.Engine (Sample.Engine.ResolveWorld (some (UContext.World 2))) s2.Managers
        = ManagerOf Sample.Engine (Sample.Engine.ResolveWorld (some (UContext.World 2))) Sample.S2.Managers ∧
      (∀ M, ManagerOf Sample.Engine (Sample.Engine.ResolveWorld (some (UContext.World 2))) Sample.S2.Managers
          = some M → s2.Singletons M = Sample.S2.Singletons M) ∧
      ScopeMap Sample.Engine (Sample.Engine.ResolveWorld (some (UContext.World 2))) s2
        = ScopeMap Sample.Engine (Sample.Engine.ResolveWorld (some (UContext.World 2))) Sample.S2 ∧
      ∃ t2, UE4Singleton.GetSingletonImpl Sample.Engine (some Sample.D) (some (UContext.World 2)) false none s2
        = some (ScopedLookup Sample.Engine (Sample.Engine.ResolveWorld (some (UContext.World 2))) Sample.S2
            ((none : Option UClass).getD Sample.D), t2) :=
  ⟨by unfold RegistryWF; decide, rfl, rfl, rfl, by decide,
    C2_Register_leaves_other_world_untouched Sample.Engine 7 (some (UContext.World 1))
      (some (UContext.World 2)) true none Sample.D none Sample.S2 (by unfold RegistryWF; decide) rfl rfl rfl
      (by decide)⟩

/-- Counterexample to C3 as stated: while a commandlet runs, registering the
valid object 7, whose class chain is D -> B -> A, returns null in both variants
and leaves the entry of D absent. -/
theorem C3_counterexample_commandlet :
    Sample.Cooker.IsValidObject 7 = true ∧
    Sample.Cooker.GetClass 7 = UClass.Sub 2 false (UClass.Sub 1 false (UClass.Root 0 true)) ∧
    UE4Singleton.RegisterAsSingletonImpl Sample.Cooker (some 7) (some (UContext.World 1)) true none
      State.Initial = some (none, State.Initial) ∧
    UMMPSingletons.RegisterAsSingletonImpl Sample.Cooker (some 7) (some (UContext.World 1)) true none
      State.Initial = some (none, State.Initial) ∧
    ScopeMap Sample.Cooker (some 1) State.Initial (UClass.Sub 2 false (UClass.Sub 1 false (UClass.Root 0 true)))
      = none :=
  ⟨rfl, rfl, rfl, rfl, rfl⟩

/-- C3 (amended): for a valid object, a context whose world is null or live,
and a call `RegisterAsSingletonImpl(obj, ctx, true, null)` that the guard of
line 148 does not turn down, the mapping of the scope afterwards binds to the
object every class from the object's class up to and including its nearest
native class and leaves every other key as it was; for a chain D -> B -> A with
D and B dynamic and A native these classes are exactly D, B and A. The same
holds of `UMMPSingletons::RegisterAsSingletonImpl` on the calls that its
actor-world check of lines 149-151 does not turn down either. -/
theorem C3_Register_walk_up_to_nearest_native (h : Host) (Obj : UObject) (ctx : Option UContext) (s : State)
    (hv : h.IsValidObject Obj = true) (hW : ScopeOk h (h.ResolveWorld ctx))
    (hskip : SkipsRegistration h Obj ctx = false) :
    (∃ ret s2, UE4Singleton.RegisterAsSingletonImpl h (some Obj) ctx true none s = some (ret, s2) ∧
      (∀ k, ScopeMap h (h.ResolveWorld ctx) s2 k =
        if k ∈ ChainUpTo (NearestNative (h.GetClass Obj)) (h.GetClass Obj) then some (some Obj)
        else ScopeMap h (h.ResolveWorld ctx) s k) ∧
      (∀ nD nB A, A.IsNative = true → h.GetClass Obj = UClass.Sub nD false (UClass.Sub nB false A) →
        ScopeMap h (h.ResolveWorld ctx) s2 (UClass.Sub nD false (UClass.Sub nB false A)) = some (some Obj) ∧
        ScopeMap h (h.ResolveWorld ctx) s2 (UClass.Sub nB false A) = some (some Obj) ∧
        ScopeMap h (h.ResolveWorld ctx) s2 A = some (some Obj) ∧
        ∀ k, k ≠ UClass.Sub nD false (UClass.Sub nB false A) → k ≠ UClass.Sub nB false A → k ≠ A →
          ScopeMap h (h.ResolveWorld ctx) s2 k = ScopeMap h (h.ResolveWorld ctx) s k)) ∧
    (UMMPSingletons.EnsureActorWorld h Obj (h.ResolveWorld ctx) = true →
      ∃ ret s2, UMMPSingletons.RegisterAsSingletonImpl h (some Obj) ctx true none s = some (ret, s2) ∧
        (∀ k, ScopeMap h (h.ResolveWorld ctx) s2 k =
          if k ∈ ChainUpTo (NearestNative (h.GetClass Obj)) (h.GetClass Obj) then some (some Obj)
          else ScopeMap h (h.ResolveWorld ctx) s k) ∧
        (∀ nD nB A, A.IsNative = true → h.GetClass Obj = UClass.Sub nD false (UClass.Sub nB false A) →
          ScopeMap h (h.ResolveWorld ctx) s2 (UClass.Sub nD false (UClass.Sub nB false A))
            = some (some Obj) ∧
          ScopeMap h (h.ResolveWorld ctx) s2 (UClass.Sub nB false A) = some (some Obj) ∧
          ScopeMap h (h.ResolveWorld ctx) s2 A = some (some Obj) ∧
          ∀ k, k ≠ UClass.Sub nD false (UClass.Sub nB false A) → k ≠ UClass.Sub nB false A → k ≠ A →
            ScopeMap h (h.ResolveWorld ctx) s2 k = ScopeMap h (h.ResolveWorld ctx) s k)) := by
  have hUE : ∃ ret s2, UE4Singleton.RegisterAsSingletonImpl h (some Obj) ctx true none s = some (ret, s2) ∧
      (∀ k, ScopeMap h (h.ResolveWorld ctx) s2 k =
        if k ∈ ChainUpTo (NearestNative (h.GetClass Obj)) (h.GetClass Obj) then some (some Obj)
        else ScopeMap h (h.ResolveWorld ctx) s k) ∧
      (∀ nD nB A, A.IsNative = true → h.GetClass Obj = UClass.Sub nD false (UClass.Sub nB false A) →
        ScopeMap h (h.ResolveWorld ctx) s2 (UClass.Sub nD false (UClass.Sub nB false A)) = some (some Obj) ∧
        ScopeMap h (h.ResolveWorld ctx) s2 (UClass.Sub nB false A) = some (some Obj) ∧
        ScopeMap h (h.ResolveWorld ctx) s2 A = some (some Obj) ∧
        ∀ k, k ≠ UClass.Sub nD false (UClass.Sub nB false A) → k ≠ UClass.Sub nB false A → k ≠ A →
          ScopeMap h (h.ResolveWorld ctx) s2 k = ScopeMap h (h.ResolveWorld ctx) s k) := by
    obtain ⟨Mgr, s1, hr, hreg⟩ := UE4Singleton.Register_spec h Obj ctx true none s hv hW rfl hskip
    have hmap : ∀ k, ScopeMap h (h.ResolveWorld ctx) (s1.SetMap Mgr (UE4Singleton.RegisterInMap Obj
          (h.GetClass Obj) true none (ScopeMap h (h.ResolveWorld ctx) s)).2) k =
        if k ∈ ChainUpTo (NearestNative (h.GetClass Obj)) (h.GetClass Obj) then some (some Obj)
        else ScopeMap h (h.ResolveWorld ctx) s k := by
      intro k
      rw [UE4Singleton.ScopeMap_SetMap hr]
      simp only [UE4Singleton.RegisterInMap, Bool.not_true, Bool.false_eq_true, if_false]
      rw [UE4Singleton.Walk_map, WalkedClasses_none]
    refine ⟨_, _, hreg, hmap, ?_⟩
    intro nD nB A hA hc
    have hlist : ChainUpTo (NearestNative (h.GetClass Obj)) (h.GetClass Obj)
        = [UClass.Sub nD false (UClass.Sub nB false A), UClass.Sub nB false A, A] := by
      rw [← WalkedClasses_none, hc]
      cases A with
      | Root n b => simp [WalkedClasses, UE4Singleton.WalkBreaks, UClass.IsNative]
      | Sub n b p =>
        have hb : b = true := hA
        subst hb
        simp [WalkedClasses, UE4Singleton.WalkBreaks, UClass.IsNative]
    refine ⟨?_, ?_, ?_, ?_⟩
    · rw [hmap, hlist]; simp
    · rw [hmap, hlist]; simp
    · rw [hmap, hlist]; simp
    · intro k h1 h2 h3
      rw [hmap, hlist]; simp [h1, h2, h3]
  refine ⟨hUE, ?_⟩
  intro hact
  have heq : UMMPSingletons.RegisterAsSingletonImpl h (some Obj) ctx true none s
      = UE4Singleton.RegisterAsSingletonImpl h (some Obj) ctx true none s := by
    rw [Variant_Register, hact]
    simp
  rw [heq]
  exact hUE

/-- Instance of C3 (amended): object 7 of class `D` registered under world 1
with `UE4Singleton`, and object 10 of class `ScriptPawn`, which passes the
actor-world check, registered under world 1 with `UMMPSingletons`. -/
theorem C3_Register_walk_up_to_nearest_native_witness :
    Sample.Engine.IsValidObject 7 = true ∧
    ScopeOk Sample.Engine (Sample.Engine.ResolveWorld (some (UContext.World 1))) ∧
    SkipsRegistration Sample.Engine 7 (some (UContext.World 1)) = false ∧
    (∃ ret s2, UE4Singleton.RegisterAsSingletonImpl Sample.Engine (some 7) (some (UContext.World 1)) true none
        Sample.S1 = some (ret, s2) ∧
      (∀ k, ScopeMap Sample.Engine (Sample.Engine.ResolveWorld (some (UContext.World 1))) s2 k =
        if k ∈ ChainUpTo (NearestNative (Sample.Engine.GetClass 7)) (Sample.Engine.GetClass 7)
        then some (some 7)
        else ScopeMap Sample.Engine (Sample.Engine.ResolveWorld (some (UContext.World 1))) Sample.S1 k) ∧
      (∀ nD nB A, A.IsNative = true →
        Sample.Engine.GetClass 7 = UClass.Sub nD false (UClass.Sub nB false A) →
        ScopeMap Sample.Engine (Sample.Engine.ResolveWorld (some (UContext.World 1))) s2
          (UClass.Sub nD false (UClass.Sub nB false A)) = some (some 7) ∧
        ScopeMap Sample.Engine (Sample.Engine.ResolveWorld (some (UContext.World 1))) s2
          (UClass.Sub nB false A) = some (some 7) ∧
        ScopeMap Sample.Engine (Sample.Engine.ResolveWorld (some (UContext.World 1))) s2 A = some (some 7) ∧
        ∀ k, k ≠ UClass.Sub nD false (UClass.Sub nB false A) → k ≠ UClass.Sub nB false A → k ≠ A →
          ScopeMap Sample.Engine (Sample.Engine.ResolveWorld (some (UContext.World 1))) s2 k
            = ScopeMap Sample.Engine (Sample.Engine.ResolveWorld (some (UContext.World 1))) Sample.S1 k)) ∧
    Sample.Engine.IsValidObject 10 = true ∧
    SkipsRegistration Sample.Engine 10 (some (UContext.World 1)) = false ∧
    UMMPSingletons.EnsureActorWorld Sample.Engine 10
      (Sample.Engine.ResolveWorld (some (UContext.World 1))) = true ∧
    ChainUpTo (NearestNative (Sample.Engine.GetClass 10)) (Sample.Engine.GetClass 10)
      = [Sample.ScriptPawn, Sample.Pawn] ∧
    (∃ ret s2, UMMPSingletons.RegisterAsSingletonImpl Sample.Engine (some 10) (some (UContext.World 1)) true
        none Sample.S1 = some (ret, s2) ∧
      ∀ k, ScopeMap Sample.Engine (Sample.Engine.ResolveWorld (some (UContext.World 1))) s2 k =
        if k ∈ ChainUpTo (NearestNative (Sample.Engine.GetClass 10)) (Sample.Engine.GetClass 10)
        then some (some 10)
        else ScopeMap Sample.Engine (Sample.Engine.ResolveWorld (some (UContext.World 1))) Sample.S1 k) := by
  obtain ⟨ret, s2, hreg, hmap, -⟩ :=
    (C3_Register_walk_up_to_nearest_native Sample.Engine 10 (some (UContext.World 1)) Sample.S1 rfl (Or.inr rfl) rfl).2 (by decide)
  exact ⟨rfl, Or.inr rfl, rfl,
    (C3_Register_walk_up_to_nearest_native Sample.Engine 7 (some (UContext.World 1)) Sample.S1 rfl (Or.inr rfl) rfl).1,
    rfl, rfl, by decide, by decide, ret, s2, hreg, hmap⟩

/-- C4: an object of the dynamic class D (D -> B dynamic -> A native)
registered with the stop class B is turned down by the check of lines 139-144:
the call returns null and the state, in particular the entries of D and B,
is unchanged. -/
theorem C4_dynamic_stop_class_is_turned_down :
    Sample.Engine.IsValidObject 7 = true ∧ Sample.Engine.GetClass 7 = Sample.D ∧
    Sample.D = UClass.Sub 2 false Sample.B ∧ Sample.B = UClass.Sub 1 false Sample.A ∧
    Sample.A.IsNative = true ∧
    UE4Singleton.RegisterAsSingletonImpl Sample.Engine (some 7) (some (UContext.World 1)) true
      (some Sample.B) Sample.S1 = some (none, Sample.S1) ∧
    ScopeMap Sample.Engine (some 1) Sample.S1 Sample.D = none ∧
    ScopeMap Sample.Engine (some 1) Sample.S1 Sample.B = none :=
  ⟨rfl, rfl, rfl, rfl, rfl, rfl, by decide, by decide⟩

/-- Counterexample to C5 as stated: world 1 binds the stop class `A` to object
5 and has no key for `D`; registering object 7 of class `D` with
`bReplaceExist = false` returns 5 and leaves the key of `D` added, bound to
null. -/
theorem C5_counterexample_key_added :
    Sample.Engine.IsValidObject 7 = true ∧ Sample.Engine.GetClass 7 = Sample.D ∧
    ScopedLookup Sample.Engine (some 1) Sample.S1 Sample.A = some 5 ∧
    ScopeMap Sample.Engine (some 1) Sample.S1 Sample.D = none ∧
    (UE4Singleton.RegisterAsSingletonImpl Sample.Engine (some 7) (some (UContext.World 1)) false
        (some Sample.A) Sample.S1).map (fun r => (r.1, ScopeMap Sample.Engine (some 1) r.2 Sample.D))
      = some (some 5, some none) := by
  decide

/-- C5 (amended): when the object's class resolves to an instance A in the
scope, or resolves to nothing while the supplied stop class resolves to A, an
accepted call `RegisterAsSingletonImpl(B, ctx, false, stopClass)` returns A and
neither removes nor rebinds a key: every class resolves to the same instance as
before, so a later lookup still yields A; the one change the mapping can see is
the key of the object's class, added bound to null when it was absent. -/
theorem C5_Register_keeps_existing_entry (h : Host) (Obj : UObject) (ctx : Option UContext)
    (N : Option UClass) (s : State) (A : UObject)
    (hv : h.IsValidObject Obj = true) (hW : ScopeOk h (h.ResolveWorld ctx))
    (hstop : UE4Singleton.EnsureStopClass h Obj N = true) (hskip : SkipsRegistration h Obj ctx = false)
    (hex : ScopedLookup h (h.ResolveWorld ctx) s (h.GetClass Obj) = some A ∨
      (ScopedLookup h (h.ResolveWorld ctx) s (h.GetClass Obj) = none ∧
        ∃ R, N = some R ∧ ScopedLookup h (h.ResolveWorld ctx) s R = some A)) :
    ∃ s2, UE4Singleton.RegisterAsSingletonImpl h (some Obj) ctx false N s = some (some A, s2) ∧
      ScopeMap h (h.ResolveWorld ctx) s2 = TMap.FindOrAdd (ScopeMap h (h.ResolveWorld ctx) s) (h.GetClass Obj) ∧
      (∀ k, ScopedLookup h (h.ResolveWorld ctx) s2 k = ScopedLookup h (h.ResolveWorld ctx) s k) ∧
      (∀ k v, ScopeMap h (h.ResolveWorld ctx) s k = some v → ScopeMap h (h.ResolveWorld ctx) s2 k = some v) ∧
      (∀ k, k ≠ h.GetClass Obj →
        ScopeMap h (h.ResolveWorld ctx) s2 k = ScopeMap h (h.ResolveWorld ctx) s k) := by
  obtain ⟨Mgr, s1, hr, hreg⟩ := UE4Singleton.Register_spec h Obj ctx false N s hv hW hstop hskip
  have hfound := UE4Singleton.LookupExisting_found (c := h.GetClass Obj) (N := N)
    (m := ScopeMap h (h.ResolveWorld ctx) s) (A := A) hex
  have hrim : UE4Singleton.RegisterInMap Obj (h.GetClass Obj) false N (ScopeMap h (h.ResolveWorld ctx) s)
      = (some A, TMap.FindOrAdd (ScopeMap h (h.ResolveWorld ctx) s) (h.GetClass Obj)) := by
    unfold UE4Singleton.RegisterInMap
    simp [hfound]
  rw [hrim] at hreg
  have hmap : ScopeMap h (h.ResolveWorld ctx)
      (s1.SetMap Mgr (TMap.FindOrAdd (ScopeMap h (h.ResolveWorld ctx) s) (h.GetClass Obj)))
      = TMap.FindOrAdd (ScopeMap h (h.ResolveWorld ctx) s) (h.GetClass Obj) :=
    UE4Singleton.ScopeMap_SetMap hr _
  refine ⟨_, hreg, hmap, ?_, ?_, ?_⟩
  · intro k
    simp only [ScopedLookup, hmap, TMap.Value_FindOrAdd]
  · intro k v hk
    rw [hmap]
    by_cases hkc : k = h.GetClass Obj
    · subst hkc; rw [TMap.FindOrAdd_of_bound hk]; exact hk
    · rw [TMap.FindOrAdd_other _ hkc]; exact hk
  · intro k hkc
    rw [hmap, TMap.FindOrAdd_other _ hkc]

/-- Instance of C5 (amended): object 7 registered under world 1 with stop class `A`, which is bound to 5. -/
theorem C5_Register_keeps_existing_entry_witness :
    Sample.Engine.IsValidObject 7 = true ∧
    ScopeOk Sample.Engine (Sample.Engine.ResolveWorld (some (UContext.World 1))) ∧
    UE4Singleton.EnsureStopClass Sample.Engine 7 (some Sample.A) = true ∧
    SkipsRegistration Sample.Engine 7 (some (UContext.World 1)) = false ∧
    (ScopedLookup Sample.Engine (Sample.Engine.ResolveWorld (some (UContext.World 1))) Sample.S1
        (Sample.Engine.GetClass 7) = some 5 ∨
      (ScopedLookup Sample.Engine (Sample.Engine.ResolveWorld (some (UContext.World 1))) Sample.S1
          (Sample.Engine.GetClass 7) = none ∧
        ∃ R, some Sample.A = some R ∧
          ScopedLookup Sample.Engine (Sample.Engine.ResolveWorld (some (UContext.World 1))) Sample.S1 R
            = some 5)) ∧
    ∃ s2, UE4Singleton.RegisterAsSingletonImpl Sample.Engine (some 7) (some (UContext.World 1)) false
        (some Sample.A) Sample.S1 = some (some 5, s2) ∧
      ScopeMap Sample.Engine (Sample.Engine.ResolveWorld (some (UContext.World 1))) s2
        = TMap.FindOrAdd (ScopeMap Sample.Engine (Sample.Engine.ResolveWorld (some (UContext.World 1)))
            Sample.S1) (Sample.Engine.GetClass 7) ∧
      (∀ k, ScopedLookup Sample.Engine (Sample.Engine.ResolveWorld (some (UContext.World 1))) s2 k
        = ScopedLookup Sample.Engine (Sample.Engine.ResolveWorld (some (UContext.World 1))) Sample.S1 k) ∧
      (∀ k v, ScopeMap Sample.Engine (Sample.Engine.ResolveWorld (some (UContext.World 1))) Sample.S1 k
          = some v →
        ScopeMap Sample.Engine (Sample.Engine.ResolveWorld (some (UContext.World 1))) s2 k = some v) ∧
      (∀ k, k ≠ Sample.Engine.GetClass 7 →
        ScopeMap Sample.Engine (Sample.Engine.ResolveWorld (some (UContext.World 1))) s2 k
          = ScopeMap Sample.Engine (Sample.Engine.ResolveWorld (some (UContext.World 1))) Sample.S1 k) :=
  ⟨rfl, Or.inr rfl, rfl, rfl, Or.inr ⟨by decide, Sample.A, rfl, by decide⟩,
    C5_Register_keeps_existing_entry Sample.Engine 7 (some (UContext.World 1)) (some Sample.A) Sample.S1 5
      rfl (Or.inr rfl) rfl rfl (Or.inr ⟨by decide, Sample.A, rfl, by decide⟩)⟩

/-- C6: the stop-class check of lines 139-144 (lines 134-139 in the other
variant) turns down the object of class D for its dynamic ancestor B, and lets
the same object through for the unrelated native class `Other`, under which it
is then registered. -/
theorem C6_stop_class_check_evaluated :
    Sample.Engine.GetClass 7 = Sample.D ∧
    Sample.D.IsChildOf Sample.B = true ∧ Sample.B.IsNative = false ∧
    UE4Singleton.EnsureStopClass Sample.Engine 7 (some Sample.B) = false ∧
    UMMPSingletons.EnsureStopClass Sample.Engine 7 (some Sample.B) = false ∧
    Sample.D.IsChildOf Sample.Other = false ∧ Sample.Other.IsNative = true ∧
    UE4Singleton.EnsureStopClass Sample.Engine 7 (some Sample.Other) = true ∧
    UMMPSingletons.EnsureStopClass Sample.Engine 7 (some Sample.Other) = true ∧
    (UE4Singleton.RegisterAsSingletonImpl Sample.Engine (some 7) (some (UContext.World 1)) true
        (some Sample.Other) State.Initial).map
        (fun r => (ScopedLookup Sample.Engine (some 1) r.2 Sample.D,
          ScopedLookup Sample.Engine (some 1) r.2 Sample.A))
      = some (some 7, some 7) := by
  decide

/-- C7: the actor 8 of class `Pawn`, which lives in world 1, registered with
world 2 as context is accepted by both variants and bound in the scope of
world 2; the variant `UMMPSingletons` turns down the same actor under its own
world 1 and the object 7, which is no actor. -/
theorem C7_actor_world_check_evaluated :
    Sample.Engine.GetClass 8 = Sample.Pawn ∧ Sample.Pawn.IsChildOf Sample.Engine.AActor = true ∧
    Sample.Engine.ObjectWorld 8 = some 1 ∧
    (UMMPSingletons.RegisterAsSingletonImpl Sample.Engine (some 8) (some (UContext.World 2)) true none
        State.Initial).map (fun r => ScopedLookup Sample.Engine (some 2) r.2 Sample.Pawn) = some (some 8) ∧
    (UE4Singleton.RegisterAsSingletonImpl Sample.Engine (some 8) (some (UContext.World 2)) true none
        State.Initial).map (fun r => ScopedLookup Sample.Engine (some 2) r.2 Sample.Pawn) = some (some 8) ∧
    UMMPSingletons.RegisterAsSingletonImpl Sample.Engine (some 8) (some (UContext.World 1)) true none
      State.Initial = some (none, State.Initial) ∧
    Sample.D.IsChildOf Sample.Engine.AActor = false ∧
    UMMPSingletons.RegisterAsSingletonImpl Sample.Engine (some 7) (some (UContext.World 1)) true none
      State.Initial = some (none, State.Initial) :=
  ⟨rfl, rfl, rfl, by decide, by decide, rfl, rfl, rfl⟩

/-- Counterexample to C8 as stated: object 10 of class `ScriptPawn` (chain
ScriptPawn -> Pawn -> Actor) registered in replace mode with the native stop
class `Other`, which is not on the chain, is accepted; the nearest native
ancestor `Pawn` was bound to object 9, yet the call returns null, the previous
entry of the root. -/
theorem C8_counterexample_stop_class_off_chain :
    Sample.Engine.IsValidObject 10 = true ∧ Sample.Engine.GetClass 10 = Sample.ScriptPawn ∧
    Sample.Other ∉ UClass.Chain Sample.ScriptPawn ∧
    UE4Singleton.EnsureStopClass Sample.Engine 10 (some Sample.Other) = true ∧
    SkipsRegistration Sample.Engine 10 (some (UContext.World 1)) = false ∧
    NearestNative Sample.ScriptPawn = Sample.Pawn ∧
    ScopedLookup Sample.Engine (some 1) Sample.S1 Sample.Pawn = some 9 ∧
    (UE4Singleton.RegisterAsSingletonImpl Sample.Engine (some 10) (some (UContext.World 1)) true
        (some Sample.Other) Sample.S1).map Prod.fst = some none := by
  decide

/-- C8 (amended): an accepted replace-mode call returns the value the mapping
of the scope held, before the call, for the last class the ancestor loop
processes, null when that class had no entry; that class is the stop class
when one is supplied and lies on the object's chain, the nearest native class
when no stop class is supplied, and the root of the chain when a supplied stop
class does not lie on the chain. -/
theorem C8_Register_returns_previous_of_last_class (h : Host) (Obj : UObject) (ctx : Option UContext)
    (N : Option UClass) (s : State)
    (hv : h.IsValidObject Obj = true) (hW : ScopeOk h (h.ResolveWorld ctx))
    (hstop : UE4Singleton.EnsureStopClass h Obj N = true) (hskip : SkipsRegistration h Obj ctx = false) :
    ∃ s2, UE4Singleton.RegisterAsSingletonImpl h (some Obj) ctx true N s
        = some (ScopedLookup h (h.ResolveWorld ctx) s (WalkEnd N (h.GetClass Obj)), s2) ∧
      (WalkedClasses N (h.GetClass Obj)).getLast? = some (WalkEnd N (h.GetClass Obj)) ∧
      (ScopeMap h (h.ResolveWorld ctx) s (WalkEnd N (h.GetClass Obj)) = none →
        ScopedLookup h (h.ResolveWorld ctx) s (WalkEnd N (h.GetClass Obj)) = none) ∧
      (∀ R, N = some R → R ∈ UClass.Chain (h.GetClass Obj) → WalkEnd N (h.GetClass Obj) = R) ∧
      (N = none → WalkEnd N (h.GetClass Obj) = NearestNative (h.GetClass Obj)) ∧
      (∀ R, N = some R → R ∉ UClass.Chain (h.GetClass Obj) →
        WalkEnd N (h.GetClass Obj) = RootOf (h.GetClass Obj)) := by
  obtain ⟨Mgr, s1, hr, hreg⟩ := UE4Singleton.Register_spec h Obj ctx true N s hv hW hstop hskip
  refine ⟨s1.SetMap Mgr (UE4Singleton.RegisterInMap Obj (h.GetClass Obj) true N
      (ScopeMap h (h.ResolveWorld ctx) s)).2, ?_, WalkedClasses_getLast N _, ?_, ?_, ?_, ?_⟩
  · rw [hreg]
    simp only [UE4Singleton.RegisterInMap, Bool.not_true, Bool.false_eq_true, if_false,
      UE4Singleton.Walk_result, ScopedLookup]
  · intro hnone
    simp [ScopedLookup, TMap.Value, hnone]
  · intro R hN hR
    subst hN; exact WalkEnd_some_on_chain hR
  · intro hN
    subst hN; exact WalkEnd_none _
  · intro R hN hR
    subst hN; exact WalkEnd_some_off_chain hR

/-- Instance of C8 (amended): object 7 registered under world 1 with stop class `A`. -/
theorem C8_Register_returns_previous_of_last_class_witness :
    Sample.Engine.IsValidObject 7 = true ∧
    ScopeOk Sample.Engine (Sample.Engine.ResolveWorld (some (UContext.World 1))) ∧
    UE4Singleton.EnsureStopClass Sample.Engine 7 (some Sample.A) = true ∧
    SkipsRegistration Sample.Engine 7 (some (UContext.World 1)) = false ∧
    ∃ s2, UE4Singleton.RegisterAsSingletonImpl Sample.Engine (some 7) (some (UContext.World 1)) true
          (some Sample.A) Sample.S1
        = some (ScopedLookup Sample.Engine (Sample.Engine.ResolveWorld (some (UContext.World 1))) Sample.S1
            (WalkEnd (some Sample.A) (Sample.Engine.GetClass 7)), s2) ∧
      (WalkedClasses (some Sample.A) (Sample.Engine.GetClass 7)).getLast?
        = some (WalkEnd (some Sample.A) (Sample.Engine.GetClass 7)) ∧
      (ScopeMap Sample.Engine (Sample.Engine.ResolveWorld (some (UContext.World 1))) Sample.S1
          (WalkEnd (some Sample.A) (Sample.Engine.GetClass 7)) = none →
        ScopedLookup Sample.Engine (Sample.Engine.ResolveWorld (some (UContext.World 1))) Sample.S1
          (WalkEnd (some Sample.A) (Sample.Engine.GetClass 7)) = none) ∧
      (∀ R, some Sample.A = some R → R ∈ UClass.Chain (Sample.Engine.GetClass 7) →
        WalkEnd (some Sample.A) (Sample.Engine.GetClass 7) = R) ∧
      (some Sample.A = none →
        WalkEnd (some Sample.A) (Sample.Engine.GetClass 7) = NearestNative (Sample.Engine.GetClass 7)) ∧
      (∀ R, some Sample.A = some R → R ∉ UClass.Chain (Sample.Engine.GetClass 7) →
        WalkEnd (some Sample.A) (Sample.Engine.GetClass 7) = RootOf (Sample.Engine.GetClass 7)) :=
  ⟨rfl, Or.inr rfl, rfl, rfl,
    C8_Register_returns_previous_of_last_class Sample.Engine 7 (some (UContext.World 1)) (some Sample.A)
      Sample.S1 rfl (Or.inr rfl) rfl rfl⟩

/-- Counterexample to C9 as stated: world 1 has no key for `D`; the lookup
with `bCreate = false` returns null and leaves the key of `D` added, bound to
null. -/
theorem C9_counterexample_key_added :
    ScopeMap Sample.Engine (some 1) Sample.S1 Sample.D = none ∧
    (UE4Singleton.GetSingletonImpl Sample.Engine (some Sample.D) (some (UContext.World 1)) false none
        Sample.S1).map (fun r => (r.1, ScopeMap Sample.Engine (some 1) r.2 Sample.D))
      = some (none, some none) := by
  decide

/-- C9 (amended): when the registration class resolves to no instance in the
scope (its entry is absent or null), `GetSingletonImpl(class, ctx, false,
registrationClass)` returns null, removes and rebinds no key, and leaves every
class resolving to what it resolved to before; the one change to the mapping
is the key of the registration class, present afterwards and bound to null. -/
theorem C9_GetSingletonImpl_without_create (h : Host) (C : UClass) (ctx : Option UContext)
    (RegClass : Option UClass) (s : State) (hW : ScopeOk h (h.ResolveWorld ctx))
    (hnull : ScopedLookup h (h.ResolveWorld ctx) s (RegClass.getD C) = none) :
    ∃ s2, UE4Singleton.GetSingletonImpl h (some C) ctx false RegClass s = some (none, s2) ∧
      ScopeMap h (h.ResolveWorld ctx) s2 (RegClass.getD C) = some none ∧
      (∀ k, k ≠ RegClass.getD C →
        ScopeMap h (h.ResolveWorld ctx) s2 k = ScopeMap h (h.ResolveWorld ctx) s k) ∧
      (∀ k v, ScopeMap h (h.ResolveWorld ctx) s k = some v → ScopeMap h (h.ResolveWorld ctx) s2 k = some v) ∧
      (∀ k, ScopedLookup h (h.ResolveWorld ctx) s2 k = ScopedLookup h (h.ResolveWorld ctx) s k) := by
  obtain ⟨Mgr, s1, hr, hget⟩ := UE4Singleton.Get_nocreate h C ctx RegClass s hW
  rw [hnull] at hget
  have hmap : ScopeMap h (h.ResolveWorld ctx)
      (s1.SetMap Mgr (TMap.FindOrAdd (ScopeMap h (h.ResolveWorld ctx) s) (RegClass.getD C)))
      = TMap.FindOrAdd (ScopeMap h (h.ResolveWorld ctx) s) (RegClass.getD C) :=
    UE4Singleton.ScopeMap_SetMap hr _
  refine ⟨_, hget, ?_, ?_, ?_, ?_⟩
  · rw [hmap, TMap.FindOrAdd_same]
    exact congrArg some hnull
  · intro k hk
    rw [hmap, TMap.FindOrAdd_other _ hk]
  · intro k v hk
    rw [hmap]
    by_cases hkc : k = RegClass.getD C
    · subst hkc; rw [TMap.FindOrAdd_of_bound hk]; exact hk
    · rw [TMap.FindOrAdd_other _ hkc]; exact hk
  · intro k
    simp only [ScopedLookup, hmap, TMap.Value_FindOrAdd]

/-- Instance of C9 (amended): class `D` looked up in world 1, where it has no entry. -/
theorem C9_GetSingletonImpl_without_create_witness :
    ScopeOk Sample.Engine (Sample.Engine.ResolveWorld (some (UContext.World 1))) ∧
    ScopedLookup Sample.Engine (Sample.Engine.ResolveWorld (some (UContext.World 1))) Sample.S1
      ((none : Option UClass).getD Sample.D) = none ∧
    ∃ s2, UE4Singleton.GetSingletonImpl Sample.Engine (some Sample.D) (some (UContext.World 1)) false none
        Sample.S1 = some (none, s2) ∧
      ScopeMap Sample.Engine (Sample.Engine.ResolveWorld (some (UContext.World 1))) s2
        ((none : Option UClass).getD Sample.D) = some none ∧
      (∀ k, k ≠ (none : Option UClass).getD Sample.D →
        ScopeMap Sample.Engine (Sample.Engine.ResolveWorld (some (UContext.World 1))) s2 k
          = ScopeMap Sample.Engine (Sample.Engine.ResolveWorld (some (UContext.World 1))) Sample.S1 k) ∧
      (∀ k v, ScopeMap Sample.Engine (Sample.Engine.ResolveWorld (some (UContext.World 1))) Sample.S1 k
          = some v →
        ScopeMap Sample.Engine (Sample.Engine.ResolveWorld (some (UContext.World 1))) s2 k = some v) ∧
      (∀ k, ScopedLookup Sample.Engine (Sample.Engine.ResolveWorld (some (UContext.World 1))) s2 k
        = ScopedLookup Sample.Engine (Sample.Engine.ResolveWorld (some (UContext.World 1))) Sample.S1 k) :=
  ⟨Or.inr rfl, by decide,
    C9_GetSingletonImpl_without_create Sample.Engine Sample.D (some (UContext.World 1)) none Sample.S1
      (Or.inr rfl) (by decide)⟩

/-- C10: when the registration class resolves to no valid instance in the
scope and the factory yields an invalid instance, `GetSingletonImpl(class,
ctx, true, registrationClass)` returns null; afterwards the registration class
is bound to null and resolves to no instance, the entry of every other class
is as before, and the call binds no class to the failed instance: if no class
was bound to it before, none is afterwards. -/
theorem C10_GetSingletonImpl_failed_creation (h : Host) (C : UClass) (ctx : Option UContext)
    (RegClass : Option UClass) (s : State) (New : Option UObject)
    (hW : ScopeOk h (h.ResolveWorld ctx))
    (hinv : h.IsValid (ScopedLookup h (h.ResolveWorld ctx) s (RegClass.getD C)) = false)
    (hnew : UE4Singleton.CreateInstanceImpl h ((h.ResolveWorld ctx).map UContext.World) (some C) = some New)
    (hfail : h.IsValid New = false) :
    ∃ s2, UE4Singleton.GetSingletonImpl h (some C) ctx true RegClass s = some (none, s2) ∧
      ScopeMap h (h.ResolveWorld ctx) s2 (RegClass.getD C) = some none ∧
      ScopedLookup h (h.ResolveWorld ctx) s2 (RegClass.getD C) = none ∧
      (∀ k, k ≠ RegClass.getD C →
        ScopeMap h (h.ResolveWorld ctx) s2 k = ScopeMap h (h.ResolveWorld ctx) s k) ∧
      (∀ p, New = some p → (∀ k, ScopeMap h (h.ResolveWorld ctx) s k ≠ some (some p)) →
        ∀ k, ScopeMap h (h.ResolveWorld ctx) s2 k ≠ some (some p)) := by
  obtain ⟨Mgr, s1, hg, hr, hm⟩ := UE4Singleton.GetManager_spec h (h.ResolveWorld ctx) true s hW
  have hinv2 : h.IsValid (TMap.Value (s1.Singletons Mgr) (RegClass.getD C)) = false := by
    rw [hm]; exact hinv
  have hcond : (!h.IsValid (TMap.Value (s1.Singletons Mgr) (RegClass.getD C)) && true) = true := by
    simp [hinv2]
  have hget : UE4Singleton.GetSingletonImpl h (some C) ctx true RegClass s =
      some (none, s1.SetMap Mgr (TMap.Assign (ScopeMap h (h.ResolveWorld ctx) s) (RegClass.getD C) none)) := by
    unfold UE4Singleton.GetSingletonImpl
    simp only [hg]
    rw [if_pos hcond]
    simp only [hnew, hfail, Bool.false_eq_true, if_false, State.SetMap_SetMap,
      State.SetMap_Singletons_same, TMap.Assign_FindOrAdd, hm]
    simp [TMap.Assign]
  have hmap : ScopeMap h (h.ResolveWorld ctx)
      (s1.SetMap Mgr (TMap.Assign (ScopeMap h (h.ResolveWorld ctx) s) (RegClass.getD C) none))
      = TMap.Assign (ScopeMap h (h.ResolveWorld ctx) s) (RegClass.getD C) none :=
    UE4Singleton.ScopeMap_SetMap hr _
  refine ⟨_, hget, ?_, ?_, ?_, ?_⟩
  · rw [hmap]; simp
  · simp only [ScopedLookup, hmap, TMap.Value_Assign_same]
  · intro k hk
    rw [hmap, TMap.Assign_other _ _ hk]
  · intro p _ hfresh k
    rw [hmap]
    by_cases hk : k = RegClass.getD C
    · subst hk; simp
    · rw [TMap.Assign_other _ _ hk]; exact hfresh k

/-- Instance of C10: the factory of `Broken` hands out the pending-kill object 6. -/
theorem C10_GetSingletonImpl_failed_creation_witness :
    ScopeOk Sample.Broken (Sample.Broken.ResolveWorld (some (UContext.World 1))) ∧
    Sample.Broken.IsValid (ScopedLookup Sample.Broken (Sample.Broken.ResolveWorld (some (UContext.World 1)))
      Sample.S1 ((none : Option UClass).getD Sample.D)) = false ∧
    UE4Singleton.CreateInstanceImpl Sample.Broken
      ((Sample.Broken.ResolveWorld (some (UContext.World 1))).map UContext.World) (some Sample.D)
      = some (some 6) ∧
    Sample.Broken.IsValid (some 6) = false ∧
    ∃ s2, UE4Singleton.GetSingletonImpl Sample.Broken (some Sample.D) (some (UContext.World 1)) true none
        Sample.S1 = some (none, s2) ∧
      ScopeMap Sample.Broken (Sample.Broken.ResolveWorld (some (UContext.World 1))) s2
        ((none : Option UClass).getD Sample.D) = some none ∧
      ScopedLookup Sample.Broken (Sample.Broken.ResolveWorld (some (UContext.World 1))) s2
        ((none : Option UClass).getD Sample.D) = none ∧
      (∀ k, k ≠ (none : Option UClass).getD Sample.D →
        ScopeMap Sample.Broken (Sample.Broken.ResolveWorld (some (UContext.World 1))) s2 k
          = ScopeMap Sample.Broken (Sample.Broken.ResolveWorld (some (UContext.World 1))) Sample.S1 k) ∧
      (∀ p, some 6 = some p →
        (∀ k, ScopeMap Sample.Broken (Sample.Broken.ResolveWorld (some (UContext.World 1))) Sample.S1 k
          ≠ some (some p)) →
        ∀ k, ScopeMap Sample.Broken (Sample.Broken.ResolveWorld (some (UContext.World 1))) s2 k
          ≠ some (some p)) :=
  ⟨Or.inr rfl, by decide, rfl, rfl,
    C10_GetSingletonImpl_failed_creation Sample.Broken Sample.D (some (UContext.World 1)) none Sample.S1
      (some 6) (Or.inr rfl) (by decide) rfl rfl⟩

/-- Counterexample to C11 as stated: while a commandlet runs, the lookup of
class `D` with the native registration class `A` (an ancestor of `D`) creates
object 7 and returns it, but only `A` is bound to it: `D` and `B` stay
unbound. -/
theorem C11_counterexample_commandlet :
    Sample.A ∈ UClass.Chain Sample.D ∧ Sample.Cooker.GetClass 7 = Sample.D ∧
    Sample.Cooker.IsValidObject 7 = true ∧
    UE4Singleton.CreateInstanceImpl Sample.Cooker (some (UContext.World 1)) (some Sample.D)
      = some (some 7) ∧
    (UE4Singleton.GetSingletonImpl Sample.Cooker (some Sample.D) (some (UContext.World 1)) true
        (some Sample.A) State.Initial).map
        (fun r => (r.1, ScopeMap Sample.Cooker (some 1) r.2 Sample.D,
          ScopeMap Sample.Cooker (some 1) r.2 Sample.B, ScopeMap Sample.Cooker (some 1) r.2 Sample.A))
      = some (some 7, none, none, some (some 7)) := by
  decide

/-- C11 (amended): let the registration class R be the class C itself, or a
native ancestor of C in a call whose nested registration the guard of line 148
does not turn down. When R resolves to no valid instance in the scope and the
factory yields a valid instance of class C, `GetSingletonImpl(C, ctx, true, R)`
returns that new instance, afterwards every class on the chain from C up to
and including R is bound to it in the mapping of the scope, and no other key
of that mapping changes. -/
theorem C11_GetSingletonImpl_registers_chain (h : Host) (C : UClass) (ctx : Option UContext)
    (RegClass : Option UClass) (s : State) (New : UObject)
    (hW : ScopeOk h (h.ResolveWorld ctx))
    (hR : RegClass.getD C ∈ UClass.Chain C)
    (hinv : h.IsValid (ScopedLookup h (h.ResolveWorld ctx) s (RegClass.getD C)) = false)
    (hnew : UE4Singleton.CreateInstanceImpl h ((h.ResolveWorld ctx).map UContext.World) (some C)
      = some (some New))
    (hnv : h.IsValidObject New = true) (hclass : h.GetClass New = C)
    (hacc : RegClass.getD C = C ∨ ((RegClass.getD C).IsNative = true ∧
      SkipsRegistration h New ((h.ResolveWorld ctx).map UContext.World) = false)) :
    ∃ t, UE4Singleton.GetSingletonImpl h (some C) ctx true RegClass s = some (some New, t) ∧
      (∀ k ∈ ChainUpTo (RegClass.getD C) C, ScopeMap h (h.ResolveWorld ctx) t k = some (some New)) ∧
      (∀ k, k ∉ ChainUpTo (RegClass.getD C) C →
        ScopeMap h (h.ResolveWorld ctx) t k = ScopeMap h (h.ResolveWorld ctx) s k) := by
  obtain ⟨Mgr, s1, hr, -, hget⟩ := UE4Singleton.Get_create_spec h C ctx RegClass s New hW hinv hnew hnv
  have hmap : ∀ k, ScopeMap h (h.ResolveWorld ctx)
      (s1.SetMap Mgr (CreatedMap h New (RegClass.getD C) (h.ResolveWorld ctx)
        (ScopeMap h (h.ResolveWorld ctx) s))) k =
      if k ∈ ChainUpTo (RegClass.getD C) C then some (some New)
      else ScopeMap h (h.ResolveWorld ctx) s k := by
    intro k
    rw [UE4Singleton.ScopeMap_SetMap hr]
    have hRmem := mem_ChainUpTo_of_mem_Chain hR
    unfold CreatedMap
    by_cases hcond : (UE4Singleton.EnsureStopClass h New (some (RegClass.getD C)) &&
        !SkipsRegistration h New ((h.ResolveWorld ctx).map UContext.World)) = true
    · rw [if_pos hcond, UE4Singleton.Walk_map, hclass, WalkedClasses_some]
      by_cases hk : k ∈ ChainUpTo (RegClass.getD C) C
      · simp [hk]
      · have hkR : k ≠ RegClass.getD C := fun hh => hk (hh ▸ hRmem)
        simp [hk, TMap.Assign_other _ _ hkR]
    · rw [if_neg hcond]
      have hRC : RegClass.getD C = C := by
        rcases hacc with hacc | ⟨hnat, hskip⟩
        · exact hacc
        · exfalso
          apply hcond
          simp [UE4Singleton.EnsureStopClass, hnat, hskip]
      rw [hRC, ChainUpTo_self]
      by_cases hk : k = C
      · subst hk; simp
      · simp [hk, TMap.Assign_other _ _ hk]
  refine ⟨_, hget, ?_, ?_⟩
  · intro k hk
    rw [hmap, if_pos hk]
  · intro k hk
    rw [hmap, if_neg hk]

/-- Instance of C11 (amended): class `D` looked up in world 1 with the native
registration class `A`. -/
theorem C11_GetSingletonImpl_registers_chain_witness :
    ScopeOk Sample.Engine (Sample.Engine.ResolveWorld (some (UContext.World 1))) ∧
    (some Sample.A).getD Sample.D ∈ UClass.Chain Sample.D ∧
    Sample.Engine.IsValid (ScopedLookup Sample.Engine (Sample.Engine.ResolveWorld (some (UContext.World 1)))
      State.Initial ((some Sample.A).getD Sample.D)) = false ∧
    UE4Singleton.CreateInstanceImpl Sample.Engine
      ((Sample.Engine.ResolveWorld (some (UContext.World 1))).map UContext.World) (some Sample.D)
      = some (some 7) ∧
    Sample.Engine.IsValidObject 7 = true ∧ Sample.Engine.GetClass 7 = Sample.D ∧
    ((some Sample.A).getD Sample.D = Sample.D ∨ (((some Sample.A).getD Sample.D).IsNative = true ∧
      SkipsRegistration Sample.Engine 7
        ((Sample.Engine.ResolveWorld (some (UContext.World 1))).map UContext.World) = false)) ∧
    ∃ t, UE4Singleton.GetSingletonImpl Sample.Engine (some Sample.D) (some (UContext.World 1)) true
        (some Sample.A) State.Initial = some (some 7, t) ∧
      (∀ k ∈ ChainUpTo ((some Sample.A).getD Sample.D) Sample.D,
        ScopeMap Sample.Engine (Sample.Engine.ResolveWorld (some (UContext.World 1))) t k
          = some (some 7)) ∧
      (∀ k, k ∉ ChainUpTo ((some Sample.A).getD Sample.D) Sample.D →
        ScopeMap Sample.Engine (Sample.Engine.ResolveWorld (some (UContext.World 1))) t k
          = ScopeMap Sample.Engine (Sample.Engine.ResolveWorld (some (UContext.World 1)))
              State.Initial k) :=
  ⟨Or.inr rfl, by decide, by decide, rfl, rfl, rfl, Or.inr ⟨rfl, rfl⟩,
    C11_GetSingletonImpl_registers_chain Sample.Engine Sample.D (some (UContext.World 1)) (some Sample.A)
      State.Initial 7 (Or.inr rfl) (by decide) (by decide) rfl rfl rfl (Or.inr ⟨rfl, rfl⟩)⟩

/-- C12: let the live world W hold, in a registry satisfying the registry
predicate and the registry invariant, a manager that binds class C to S1.
After the world-cleanup handler has run `Remove(W)`, no entry is bound to W,
so `FindOrAdd(W)` appends a new entry with an empty manager slot and returns
it; `GetManager(W)` allocates the next manager, which no registry entry held
before, and its mapping is empty; and `GetSingletonImpl(C, W, true)` returns
the instance the factory creates and binds C to it, S1 being gone from the
scope. -/
theorem C12_cleanup_then_new_manager (h : Host) (C : UClass) (ctx : Option UContext) (W : UWorld)
    (S1 New : UObject) (s : State)
    (hctx : h.ResolveWorld ctx = some W) (hlive : h.IsValidWorld W = true)
    (hu : UniqueScopes h s.Managers) (hwf : RegistryWF s)
    (hS1 : ScopedLookup h (some W) s C = some S1)
    (hnew : UE4Singleton.CreateInstanceImpl h (some (UContext.World W)) (some C) = some (some New))
    (hnv : h.IsValidObject New = true) :
    NamespaceUE4Singleton.FindOrAdd h (some W) (UE4Singleton.OnWorldCleanup h (some W) s).Managers
        = (LiveEntries h (UE4Singleton.OnWorldCleanup h (some W) s).Managers
            ++ [{ WeakWorld := some W, Manager := none }],
          (LiveEntries h (UE4Singleton.OnWorldCleanup h (some W) s).Managers).length) ∧
      SlotAt (NamespaceUE4Singleton.FindOrAdd h (some W)
          (UE4Singleton.OnWorldCleanup h (some W) s).Managers).1
        (NamespaceUE4Singleton.FindOrAdd h (some W)
          (UE4Singleton.OnWorldCleanup h (some W) s).Managers).2 = none ∧
      ScopeMap h (some W) (UE4Singleton.OnWorldCleanup h (some W) s) = TMap.Empty ∧
      (∀ b, ∃ s1, UE4Singleton.GetManager h (some W) b (UE4Singleton.OnWorldCleanup h (some W) s)
          = some (s.NextManager, s1) ∧
        s.NextManager ∉ ManagerIds s.Managers ∧
        s1.Singletons s.NextManager = TMap.Empty ∧ ScopeMap h (some W) s1 = TMap.Empty) ∧
      ∃ t, UE4Singleton.GetSingletonImpl h (some C) ctx true none
          (UE4Singleton.OnWorldCleanup h (some W) s) = some (some New, t) ∧
        ScopedLookup h (some W) t C = some New := by
  have hWok : ScopeOk h (some W) := Or.inr hlive
  have hno : ∀ x ∈ (UE4Singleton.OnWorldCleanup h (some W) s).Managers, Matches h (some W) x = false :=
    NamespaceUE4Singleton.RemoveScan_no_match_left h W s.Managers hu
  have hMO : ManagerOf h (some W) (UE4Singleton.OnWorldCleanup h (some W) s).Managers = none :=
    ManagerOf_nomatch hno
  have hSM : ScopeMap h (some W) (UE4Singleton.OnWorldCleanup h (some W) s) = TMap.Empty := by
    simp [ScopeMap, hMO]
  refine ⟨?_, ?_, hSM, ?_, ?_⟩
  · rw [NamespaceUE4Singleton.FindOrAdd_nomatch h (some W) _ hno, NewEntry_of_ScopeOk hWok]
  · rw [NamespaceUE4Singleton.SlotAt_FindOrAdd, hMO]
  · intro b
    obtain ⟨Mgr, s1, hg, hr, hm⟩ := UE4Singleton.GetManager_spec h (some W) b
      (UE4Singleton.OnWorldCleanup h (some W) s) hWok
    have hMgr : Mgr = s.NextManager := by
      have heq := UE4Singleton.GetManager_eq h (some W) b (UE4Singleton.OnWorldCleanup h (some W) s) hWok
      rw [hMO, hg] at heq
      simp only [Option.some.injEq, Prod.mk.injEq] at heq
      exact heq.1
    subst hMgr
    refine ⟨s1, hg, ?_, ?_, ?_⟩
    · intro hmem
      exact Nat.lt_irrefl _ (hwf.2 _ hmem)
    · rw [hm, hSM]
    · rw [UE4Singleton.ScopeMap_of_Resolves hr, hm, hSM]
  · have hW2 : ScopeOk h (h.ResolveWorld ctx) := by rw [hctx]; exact hWok
    have hinv : h.IsValid (ScopedLookup h (h.ResolveWorld ctx)
        (UE4Singleton.OnWorldCleanup h (some W) s) ((none : Option UClass).getD C)) = false := by
      rw [hctx]
      simp [ScopedLookup, hSM, TMap.Value, TMap.Empty, Host.IsValid]
    have hnew2 : UE4Singleton.CreateInstanceImpl h ((h.ResolveWorld ctx).map UContext.World) (some C)
        = some (some New) := by
      rw [hctx]; exact hnew
    obtain ⟨Mgr, s1, hr, -, hget⟩ := UE4Singleton.Get_create_spec h C ctx none
      (UE4Singleton.OnWorldCleanup h (some W) s) New hW2 hinv hnew2 hnv
    refine ⟨_, hget, ?_⟩
    rw [hctx] at hr
    unfold ScopedLookup
    rw [UE4Singleton.ScopeMap_SetMap hr]
    unfold CreatedMap
    split
    · rw [UE4Singleton.Walk_Value]; simp
    · simp

/-- Instance of C12: world 2 of the state `S2`, which binds `D` to object 9. -/
theorem C12_cleanup_then_new_manager_witness :
    Sample.Engine.ResolveWorld (some (UContext.World 2)) = some 2 ∧
    Sample.Engine.IsValidWorld 2 = true ∧ UniqueScopes Sample.Engine Sample.S2.Managers ∧
    RegistryWF Sample.S2 ∧ ScopedLookup Sample.Engine (some 2) Sample.S2 Sample.D = some 9 ∧
    UE4Singleton.CreateInstanceImpl Sample.Engine (some (UContext.World 2)) (some Sample.D)
      = some (some 7) ∧
    Sample.Engine.IsValidObject 7 = true ∧
    ∃ t, UE4Singleton.GetSingletonImpl Sample.Engine (some Sample.D) (some (UContext.World 2)) true none
        (UE4Singleton.OnWorldCleanup Sample.Engine (some 2) Sample.S2) = some (some 7, t) ∧
      ScopedLookup Sample.Engine (some 2) t Sample.D = some 7 :=
  ⟨rfl, rfl, by unfold UniqueScopes; decide, by unfold RegistryWF; decide, by decide, rfl, rfl,
    (C12_cleanup_then_new_manager Sample.Engine Sample.D (some (UContext.World 2)) 2 9 7 Sample.S2
      rfl rfl (by unfold UniqueScopes; decide) (by unfold RegistryWF; decide) (by decide) rfl rfl).2.2.2.2⟩

/-- C13: in every reachable state at most one registry entry has a null world
pointer, and whenever the registry holds a live manager for the global scope,
`GetManager(null, _)` returns that manager, appends no entry (what is left of
the registry is a sublist of it), changes no map and no liveness, and leaves a
registry that still holds that manager for the global scope, so that every
later call returns it as well. -/
theorem C13_global_scope_has_one_manager (s : State) (hs : Reachable s) :
    ((s.Managers.map FWorldPair.WeakWorld).filter (fun w => decide (w = none))).length ≤ 1 ∧
      ∀ (h : Host) (b : Bool) (Mgr : UManager),
        ManagerOf h none s.Managers = some Mgr → s.ManagerValid Mgr = true →
        ∃ s2, UE4Singleton.GetManager h none b s = some (Mgr, s2) ∧ Reachable s2 ∧
          s2.Managers.Sublist s.Managers ∧ ManagerOf h none s2.Managers = some Mgr ∧
          s2.ManagerValid = s.ManagerValid ∧ s2.Singletons = s.Singletons ∧
          s2.NextManager = s.NextManager := by
  refine ⟨length_filter_eq_le_one (WorldsNodup_of_Reachable hs) none, ?_⟩
  intro h b Mgr hM hv
  have heq := UE4Singleton.GetManager_eq h none b s (Or.inl rfl)
  rw [hM] at heq
  simp only [hv, if_true] at heq
  refine ⟨_, heq, Reachable.GetManager h none b s _ Mgr hs heq, ?_, ?_, rfl, rfl, rfl⟩
  · rcases NamespaceUE4Singleton.FindOrAdd_sublist_or h none s.Managers with hsub | ⟨-, hno⟩
    · exact hsub
    · rw [ManagerOf_nomatch hno] at hM
      cases hM
  · exact (NamespaceUE4Singleton.ManagerOf_FindOrAdd h none none s.Managers).trans hM

/-- Instance of C13: the state after the first `GetManager` call for the
global scope. -/
theorem C13_global_scope_has_one_manager_witness :
    Reachable Sample.SG ∧
    (((Sample.SG.Managers.map FWorldPair.WeakWorld).filter (fun w => decide (w = none))).length ≤ 1 ∧
      ∀ (h : Host) (b : Bool) (Mgr : UManager),
        ManagerOf h none Sample.SG.Managers = some Mgr → Sample.SG.ManagerValid Mgr = true →
        ∃ s2, UE4Singleton.GetManager h none b Sample.SG = some (Mgr, s2) ∧ Reachable s2 ∧
          s2.Managers.Sublist Sample.SG.Managers ∧ ManagerOf h none s2.Managers = some Mgr ∧
          s2.ManagerValid = Sample.SG.ManagerValid ∧ s2.Singletons = Sample.SG.Singletons ∧
          s2.NextManager = Sample.SG.NextManager) :=
  ⟨Reachable.GetManager Sample.Engine none true State.Initial Sample.SG 0 Reachable.Initial rfl,
    C13_global_scope_has_one_manager Sample.SG
      (Reachable.GetManager Sample.Engine none true State.Initial Sample.SG 0 Reachable.Initial rfl)⟩

/-- C14: the registry predicate "at most one entry per distinct live world and
at most one null-world entry" holds for the empty registry, and from a registry
that satisfies it `FindOrAdd(W)` for a null or valid world `W` and `Remove(V)`
for any world `V` lead to a registry that satisfies it. -/
theorem C14_registry_predicate_preserved (h : Host) (l : List FWorldPair) (W V : Option UWorld)
    (hu : UniqueScopes h l) (hW : ScopeOk h W) :
    UniqueScopes h [] ∧
      UniqueScopes h (NamespaceUE4Singleton.FindOrAdd h W l).1 ∧
      UniqueScopes h (NamespaceUE4Singleton.Remove h V l) := by
  refine ⟨by simp [UniqueScopes, LiveScopes, LiveEntries], ?_, ?_⟩
  · unfold UniqueScopes at hu ⊢
    rw [NamespaceUE4Singleton.LiveScopes_FindOrAdd h W hW l]
    by_cases hm : W ∈ LiveScopes h l
    · simpa [hm] using hu
    · simp only [hm, if_false]
      exact List.Nodup.append hu (List.nodup_singleton W) (by simpa using hm)
  · cases V with
    | none => exact hu
    | some v =>
      unfold UniqueScopes at hu ⊢
      show (LiveScopes h (NamespaceUE4Singleton.RemoveScan h v l)).Nodup
      rw [NamespaceUE4Singleton.LiveScopes_RemoveScan]
      exact hu.erase _

/-- Instance of C14: the registry `L`, world 2 looked up and world 1 removed. -/
theorem C14_registry_predicate_preserved_witness :
    UniqueScopes Sample.Engine Sample.L ∧ ScopeOk Sample.Engine (some 2) ∧
    (UniqueScopes Sample.Engine [] ∧
      UniqueScopes Sample.Engine (NamespaceUE4Singleton.FindOrAdd Sample.Engine (some 2) Sample.L).1 ∧
      UniqueScopes Sample.Engine (NamespaceUE4Singleton.Remove Sample.Engine (some 1) Sample.L)) :=
  ⟨by unfold UniqueScopes; decide, Or.inr rfl,
    C14_registry_predicate_preserved Sample.Engine Sample.L (some 2) (some 1)
      (by unfold UniqueScopes; decide) (Or.inr rfl)⟩

/-- Counterexample to C15 as stated: in the registry `L`, which holds one
entry per live world, the stale world 4 stands behind the entry of world 1;
the first `Remove` of world 1 ends at that entry, the second one scans on and
removes the stale entry, so it changes a registry that has no entry for world
1. -/
theorem C15_counterexample_stale_entry_pruned :
    UniqueScopes Sample.Engine Sample.L ∧
    NamespaceUE4Singleton.Remove Sample.Engine (some 1) Sample.L
      = [{ WeakWorld := some 4, Manager := some 5 }, { WeakWorld := none, Manager := some 2 }] ∧
    NamespaceUE4Singleton.Remove Sample.Engine (some 1)
        (NamespaceUE4Singleton.Remove Sample.Engine (some 1) Sample.L)
      = [{ WeakWorld := none, Manager := some 2 }] ∧
    NamespaceUE4Singleton.Remove Sample.Engine (some 1)
        (NamespaceUE4Singleton.Remove Sample.Engine (some 1) Sample.L)
      ≠ NamespaceUE4Singleton.Remove Sample.Engine (some 1) Sample.L := by
  unfold UniqueScopes
  decide

/-- C15 (amended): on a registry that satisfies the registry predicate, a
second `Remove(W)` removes nothing but stale entries: the live entries are the
same as after the first one, for a non-null `W` the result is exactly the live
entries left by the first one, and a third `Remove(W)` changes nothing; on a
registry in which no live entry is bound to `W`, `Remove(W)` removes exactly
the stale entries, so it leaves a registry without stale entries unchanged;
`Remove(null)` never changes anything. -/
theorem C15_Remove_idempotent_on_live_entries (h : Host) (l : List FWorldPair) (W : Option UWorld)
    (hu : UniqueScopes h l) :
    LiveEntries h (NamespaceUE4Singleton.Remove h W (NamespaceUE4Singleton.Remove h W l))
        = LiveEntries h (NamespaceUE4Singleton.Remove h W l) ∧
      (W ≠ none → NamespaceUE4Singleton.Remove h W (NamespaceUE4Singleton.Remove h W l)
        = LiveEntries h (NamespaceUE4Singleton.Remove h W l)) ∧
      NamespaceUE4Singleton.Remove h W
          (NamespaceUE4Singleton.Remove h W (NamespaceUE4Singleton.Remove h W l))
        = NamespaceUE4Singleton.Remove h W (NamespaceUE4Singleton.Remove h W l) ∧
      ((∀ x ∈ l, Matches h W x = false) → W ≠ none →
        NamespaceUE4Singleton.Remove h W l = LiveEntries h l) ∧
      ((∀ x ∈ l, Matches h W x = false) → LiveEntries h l = l →
        NamespaceUE4Singleton.Remove h W l = l) ∧
      NamespaceUE4Singleton.Remove h none l = l := by
  cases W with
  | none =>
    refine ⟨rfl, fun hh => absurd rfl hh, rfl, fun _ hh => absurd rfl hh, fun _ _ => rfl, rfl⟩
  | some w =>
    have hR : ∀ a, NamespaceUE4Singleton.Remove h (some w) a = NamespaceUE4Singleton.RemoveScan h w a :=
      fun _ => rfl
    simp only [hR]
    have hno := NamespaceUE4Singleton.RemoveScan_no_match_left h w l hu
    have h2 : NamespaceUE4Singleton.RemoveScan h w (NamespaceUE4Singleton.RemoveScan h w l)
        = LiveEntries h (NamespaceUE4Singleton.RemoveScan h w l) :=
      NamespaceUE4Singleton.RemoveScan_nomatch h w _ hno
    have hno2 : ∀ x ∈ LiveEntries h (NamespaceUE4Singleton.RemoveScan h w l),
        Matches h (some w) x = false :=
      fun x hx => hno x ((LiveEntries_sublist h _).subset hx)
    refine ⟨?_, fun _ => h2, ?_, ?_, ?_, rfl⟩
    · rw [h2, LiveEntries_idem]
    · rw [h2, NamespaceUE4Singleton.RemoveScan_nomatch h w _ hno2, LiveEntries_idem]
    · intro hl _
      exact NamespaceUE4Singleton.RemoveScan_nomatch h w l hl
    · intro hl hlive
      rw [NamespaceUE4Singleton.RemoveScan_nomatch h w l hl, hlive]

/-- Instance of C15 (amended): world 1 removed from the registry `L`. -/
theorem C15_Remove_idempotent_on_live_entries_witness :
    UniqueScopes Sample.Engine Sample.L ∧
    (LiveEntries Sample.Engine (NamespaceUE4Singleton.Remove Sample.Engine (some 1)
          (NamespaceUE4Singleton.Remove Sample.Engine (some 1) Sample.L))
        = LiveEntries Sample.Engine (NamespaceUE4Singleton.Remove Sample.Engine (some 1) Sample.L) ∧
      (some 1 ≠ none → NamespaceUE4Singleton.Remove Sample.Engine (some 1)
          (NamespaceUE4Singleton.Remove Sample.Engine (some 1) Sample.L)
        = LiveEntries Sample.Engine (NamespaceUE4Singleton.Remove Sample.Engine (some 1) Sample.L)) ∧
      NamespaceUE4Singleton.Remove Sample.Engine (some 1)
          (NamespaceUE4Singleton.Remove Sample.Engine (some 1)
            (NamespaceUE4Singleton.Remove Sample.Engine (some 1) Sample.L))
        = NamespaceUE4Singleton.Remove Sample.Engine (some 1)
            (NamespaceUE4Singleton.Remove Sample.Engine (some 1) Sample.L) ∧
      ((∀ x ∈ Sample.L, Matches Sample.Engine (some 1) x = false) → some 1 ≠ none →
        NamespaceUE4Singleton.Remove Sample.Engine (some 1) Sample.L = LiveEntries Sample.Engine Sample.L) ∧
      ((∀ x ∈ Sample.L, Matches Sample.Engine (some 1) x = false) →
        LiveEntries Sample.Engine Sample.L = Sample.L →
        NamespaceUE4Singleton.Remove Sample.Engine (some 1) Sample.L = Sample.L) ∧
      NamespaceUE4Singleton.Remove Sample.Engine none Sample.L = Sample.L) :=
  ⟨by unfold UniqueScopes; decide,
    C15_Remove_idempotent_on_live_entries Sample.Engine Sample.L (some 1) (by unfold UniqueScopes; decide)⟩

/-- C16: for a non-null world `W`, `Remove(W)` deletes the first live entry
bound to `W` and no other live entry: the live entries afterwards are the live
entries before without that first match, each with its manager and in the
original order; what remains is a sublist of the registry, and every entry that
is gone was stale or is that match; `Remove(null)` returns the registry
unchanged. -/
theorem C16_Remove_deletes_first_match_only (h : Host) (w : UWorld) (l : List FWorldPair) :
    LiveEntries h (NamespaceUE4Singleton.Remove h (some w) l)
        = (LiveEntries h l).eraseP (Matches h (some w)) ∧
      (NamespaceUE4Singleton.Remove h (some w) l).Sublist l ∧
      (∀ x ∈ l, x ∉ NamespaceUE4Singleton.Remove h (some w) l →
        h.IsStale x.WeakWorld = true ∨ Matches h (some w) x = true) ∧
      (l.length ≤ (NamespaceUE4Singleton.Remove h (some w) l).length + 1 ∨
        ∃ x ∈ l, h.IsStale x.WeakWorld = true) ∧
      NamespaceUE4Singleton.Remove h none l = l := by
  have h1 : LiveEntries h (NamespaceUE4Singleton.Remove h (some w) l)
      = (LiveEntries h l).eraseP (Matches h (some w)) := NamespaceUE4Singleton.LiveEntries_RemoveScan h w l
  refine ⟨h1, NamespaceUE4Singleton.RemoveScan_sublist h w l, ?_, ?_, rfl⟩
  · intro x hx hxr
    by_contra hcon
    simp only [not_or] at hcon
    obtain ⟨hs, hm⟩ := hcon
    have hxl : x ∈ LiveEntries h l := by
      simp only [LiveEntries, List.mem_filter]
      exact ⟨hx, by simpa using hs⟩
    have hxe : x ∈ (LiveEntries h l).eraseP (Matches h (some w)) :=
      (List.mem_eraseP_of_neg hm).mpr hxl
    rw [← h1] at hxe
    exact hxr ((LiveEntries_sublist h _).subset hxe)
  · by_cases hst : ∃ x ∈ l, h.IsStale x.WeakWorld = true
    · exact Or.inr hst
    · left
      have hall : LiveEntries h l = l := by
        simp only [LiveEntries, List.filter_eq_self]
        intro x hx
        have : ¬ h.IsStale x.WeakWorld = true := fun hh => hst ⟨x, hx, hh⟩
        simpa using this
      have hlen : (LiveEntries h (NamespaceUE4Singleton.Remove h (some w) l)).length
          ≤ (NamespaceUE4Singleton.Remove h (some w) l).length :=
        (LiveEntries_sublist h _).length_le
      rw [h1, hall] at hlen
      have hle : l.length ≤ (l.eraseP (Matches h (some w))).length + 1 := by
        rw [List.length_eraseP]
        split <;> omega
      omega

/-- C17: with a null context `CreateInstanceImpl` (and `CreateInstance` of the
other variant) hands the class, actor-like or not, to `NewObject`, with the
instance `FindInstance` yields or the transient package as outer, and returns
what `NewObject` returns; for the actor class `Pawn` on the sample engine that
is the allocated object 7, not null. -/
theorem C17_CreateInstanceImpl_null_world_allocates (h : Host) (C : UClass) :
    UE4Singleton.CreateInstanceImpl h none (some C) =
        some (h.NewObject
          (match NamespaceUE4Singleton.FindInstance h with
            | some Instance =>
              if h.SingletonsCreateMethod = 0 then Outer.Instance Instance else Outer.TransientPackage
            | none => Outer.TransientPackage) C) ∧
      UMMPSingletons.CreateInstance h (some C) none =
        some (h.NewObject
          (match MMPSingletonsManager.FindInstance h with
            | some Instance =>
              if h.SingletonsCreateMethod = 0 then Outer.Instance Instance else Outer.TransientPackage
            | none => Outer.TransientPackage) C) ∧
      Sample.Pawn.IsChildOf Sample.Engine.AActor = true ∧
      UE4Singleton.CreateInstanceImpl Sample.Engine none (some Sample.Pawn) = some (some 7) ∧
      UMMPSingletons.CreateInstance Sample.Engine (some Sample.Pawn) none = some (some 7) ∧
      Sample.Engine.IsValidObject 7 = true := by
  refine ⟨?_, ?_, by decide, by decide, by decide, by decide⟩
  · unfold UE4Singleton.CreateInstanceImpl
    simp only [Host.ResolveWorld]
    cases NamespaceUE4Singleton.FindInstance h with
    | none => rfl
    | some I => by_cases hm : h.SingletonsCreateMethod = 0 <;> simp [hm]
  · unfold UMMPSingletons.CreateInstance
    simp only [Host.ResolveWorld]
    cases MMPSingletonsManager.FindInstance h with
    | none => rfl
    | some I => by_cases hm : h.SingletonsCreateMethod = 0 <;> simp [hm]

/-- C18: for a null or valid world `W`, when some live entry is bound to `W`
the scan of `FindOrAdd` removes exactly the stale entries before the first such
entry, leaves that entry and everything behind it untouched and returns its
slot; when no live entry is bound to `W` the registry afterwards is the live
entries in their original order followed by one new entry bound to `W` with an
empty manager slot, which is the slot returned; one of the two cases applies. -/
theorem C18_FindOrAdd_prunes_and_finds_or_appends (h : Host) (W : Option UWorld) (l : List FWorldPair)
    (hW : ScopeOk h W) :
    (∀ pre e post, l = pre ++ e :: post → Matches h W e = true →
        (∀ x ∈ pre, Matches h W x = false) →
        NamespaceUE4Singleton.FindOrAdd h W l
            = (LiveEntries h pre ++ e :: post, (LiveEntries h pre).length) ∧
          (NamespaceUE4Singleton.FindOrAdd h W l).1[(NamespaceUE4Singleton.FindOrAdd h W l).2]? = some e ∧
          SlotAt (NamespaceUE4Singleton.FindOrAdd h W l).1 (NamespaceUE4Singleton.FindOrAdd h W l).2
            = e.Manager) ∧
      ((∀ x ∈ l, Matches h W x = false) →
        NamespaceUE4Singleton.FindOrAdd h W l
            = (LiveEntries h l ++ [{ WeakWorld := W, Manager := none }], (LiveEntries h l).length) ∧
          (NamespaceUE4Singleton.FindOrAdd h W l).1[(NamespaceUE4Singleton.FindOrAdd h W l).2]?
            = some { WeakWorld := W, Manager := none } ∧
          SlotAt (NamespaceUE4Singleton.FindOrAdd h W l).1 (NamespaceUE4Singleton.FindOrAdd h W l).2
            = none) ∧
      ((∀ x ∈ l, Matches h W x = false) ∨
        ∃ pre e post, l = pre ++ e :: post ∧ Matches h W e = true ∧ ∀ x ∈ pre, Matches h W x = false) := by
  have hslot : ∀ (a : List FWorldPair) (e : FWorldPair) (b : List FWorldPair),
      SlotAt (a ++ e :: b) a.length = e.Manager := by
    intro a e b
    induction a with
    | nil => rfl
    | cons x a ih => simpa [SlotAt] using ih
  refine ⟨?_, ?_, first_match_split h W l⟩
  · intro pre e post hl he hpre
    have heq := NamespaceUE4Singleton.FindOrAdd_match h W pre e post he hpre
    rw [hl, heq]
    exact ⟨rfl, by rw [List.getElem?_append_right (Nat.le_refl _), Nat.sub_self]; simp, hslot _ _ _⟩
  · intro hno
    have heq := NamespaceUE4Singleton.FindOrAdd_nomatch h W l hno
    rw [NewEntry_of_ScopeOk hW] at heq
    rw [heq]
    exact ⟨rfl, by rw [List.getElem?_append_right (Nat.le_refl _), Nat.sub_self]; simp, hslot _ _ []⟩

/-- Instance of C18: world 1 looked up in the registry `L`. -/
theorem C18_FindOrAdd_prunes_and_finds_or_appends_witness :
    ScopeOk Sample.Engine (some 1) ∧
    NamespaceUE4Singleton.FindOrAdd Sample.Engine (some 1) Sample.L
      = ([{ WeakWorld := some 1, Manager := some 1 }, { WeakWorld := some 4, Manager := some 5 },
          { WeakWorld := none, Manager := some 2 }], 0) :=
  ⟨Or.inr rfl,
    ((C18_FindOrAdd_prunes_and_finds_or_appends Sample.Engine (some 1) Sample.L (Or.inr rfl)).1
      [{ WeakWorld := some 3, Manager := some 0 }] { WeakWorld := some 1, Manager := some 1 }
      [{ WeakWorld := some 4, Manager := some 5 }, { WeakWorld := none, Manager := some 2 }]
      rfl (by decide) (by decide)).1⟩

/-- C19: an accepted call `RegisterAsSingletonImpl(obj, ctx, true, stopClass)`
returns, binds every class of the walked chain to the object in the mapping of
the resolved scope, leaves every key outside the walked chain with the entry
it had (absent keys stay absent), and leaves the map of every manager other
than the one of the resolved scope as it was. -/
theorem C19_Register_changes_only_walked_chain (h : Host) (Obj : UObject) (ctx : Option UContext)
    (N : Option UClass) (s : State) (hv : h.IsValidObject Obj = true)
    (hW : ScopeOk h (h.ResolveWorld ctx))
    (hstop : UE4Singleton.EnsureStopClass h Obj N = true) (hskip : SkipsRegistration h Obj ctx = false) :
    ∃ ret Mgr t, UE4Singleton.RegisterAsSingletonImpl h (some Obj) ctx true N s = some (ret, t) ∧
      Resolves h (h.ResolveWorld ctx) t Mgr ∧
      (∀ k, k ∉ WalkedClasses N (h.GetClass Obj) →
        ScopeMap h (h.ResolveWorld ctx) t k = ScopeMap h (h.ResolveWorld ctx) s k) ∧
      (∀ k, k ∈ WalkedClasses N (h.GetClass Obj) →
        ScopeMap h (h.ResolveWorld ctx) t k = some (some Obj)) ∧
      (∀ M, M ≠ Mgr → t.Singletons M = s.Singletons M) := by
  obtain ⟨Mgr, s1, hr, hfr, hreg⟩ := UE4Singleton.Register_replace_full h Obj ctx N s hv hW hstop hskip
  refine ⟨_, Mgr, _, hreg, UE4Singleton.Resolves_SetMap hr Mgr _, ?_, ?_, ?_⟩
  · intro k hk
    rw [UE4Singleton.ScopeMap_SetMap hr, UE4Singleton.Walk_map, if_neg hk]
  · intro k hk
    rw [UE4Singleton.ScopeMap_SetMap hr, UE4Singleton.Walk_map, if_pos hk]
  · intro M hM
    rw [State.SetMap_Singletons_other _ _ hM]
    exact hfr M hM

/-- Instance of C19: object 10 of class `ScriptPawn` registered in world 1 of
the state `S1` with the stop class `Pawn`. -/
theorem C19_Register_changes_only_walked_chain_witness :
    Sample.Engine.IsValidObject 10 = true ∧
    ScopeOk Sample.Engine (Sample.Engine.ResolveWorld (some (UContext.World 1))) ∧
    UE4Singleton.EnsureStopClass Sample.Engine 10 (some Sample.Pawn) = true ∧
    SkipsRegistration Sample.Engine 10 (some (UContext.World 1)) = false ∧
    ∃ ret Mgr t, UE4Singleton.RegisterAsSingletonImpl Sample.Engine (some 10) (some (UContext.World 1)) true
        (some Sample.Pawn) Sample.S1 = some (ret, t) ∧
      Resolves Sample.Engine (Sample.Engine.ResolveWorld (some (UContext.World 1))) t Mgr ∧
      (∀ k, k ∉ WalkedClasses (some Sample.Pawn) (Sample.Engine.GetClass 10) →
        ScopeMap Sample.Engine (Sample.Engine.ResolveWorld (some (UContext.World 1))) t k
          = ScopeMap Sample.Engine (Sample.Engine.ResolveWorld (some (UContext.World 1))) Sample.S1 k) ∧
      (∀ k, k ∈ WalkedClasses (some Sample.Pawn) (Sample.Engine.GetClass 10) →
        ScopeMap Sample.Engine (Sample.Engine.ResolveWorld (some (UContext.World 1))) t k
          = some (some 10)) ∧
      (∀ M, M ≠ Mgr → t.Singletons M = Sample.S1.Singletons M) :=
  ⟨rfl, Or.inr rfl, rfl, rfl,
    C19_Register_changes_only_walked_chain Sample.Engine 10 (some (UContext.World 1)) (some Sample.Pawn)
      Sample.S1 rfl (Or.inr rfl) rfl rfl⟩

/-- C20: the ancestor walk of `RegisterAsSingletonImpl` is a total function of
the (finite) class chain: it is the fold of the loop body over the walked
classes, which form a duplicate-free prefix of the chain of the object's
class, so every class of the chain is processed at most once; every call on a
valid object with a null or live context world returns. When the supplied stop
class is not on the chain of the object's class, the precondition check lets
it through, the walked classes are the whole chain, the walk ends at the root,
and an accepted call leaves every class of the chain bound to the object and
returns the previous entry of the root. -/
theorem C20_walk_terminates_each_class_once (h : Host) (Obj : UObject) (ctx : Option UContext)
    (b : Bool) (N : Option UClass) (s : State) (hv : h.IsValidObject Obj = true)
    (hW : ScopeOk h (h.ResolveWorld ctx)) :
    (∃ r, UE4Singleton.RegisterAsSingletonImpl h (some Obj) ctx b N s = some r) ∧
      (∀ m, (UE4Singleton.Walk Obj N (h.GetClass Obj) m).2 =
        (WalkedClasses N (h.GetClass Obj)).foldl
          (fun a k => TMap.Assign (TMap.FindOrAdd a k) k (some Obj)) m) ∧
      (WalkedClasses N (h.GetClass Obj)).Nodup ∧
      WalkedClasses N (h.GetClass Obj) <+: UClass.Chain (h.GetClass Obj) ∧
      (WalkedClasses N (h.GetClass Obj)).length ≤ (UClass.Chain (h.GetClass Obj)).length ∧
      ∀ R, N = some R → R ∉ UClass.Chain (h.GetClass Obj) →
        UE4Singleton.EnsureStopClass h Obj N = true ∧
        WalkedClasses N (h.GetClass Obj) = UClass.Chain (h.GetClass Obj) ∧
        WalkEnd N (h.GetClass Obj) = RootOf (h.GetClass Obj) ∧
        (∀ m k, k ∈ UClass.Chain (h.GetClass Obj) →
          (UE4Singleton.Walk Obj N (h.GetClass Obj) m).2 k = some (some Obj)) ∧
        (SkipsRegistration h Obj ctx = false →
          ∃ t, UE4Singleton.RegisterAsSingletonImpl h (some Obj) ctx true N s
              = some (ScopedLookup h (h.ResolveWorld ctx) s (RootOf (h.GetClass Obj)), t) ∧
            ∀ k, k ∈ UClass.Chain (h.GetClass Obj) →
              ScopedLookup h (h.ResolveWorld ctx) t k = some Obj) := by
  refine ⟨?_, fun m => UE4Singleton.Walk_fold Obj N _ m, WalkedClasses_nodup N _,
    WalkedClasses_initial_segment N _, (WalkedClasses_initial_segment N _).length_le, ?_⟩
  · rcases UE4Singleton.Register_cases h Obj ctx b N s hv hW with hc | ⟨Mgr, s1, -, hc⟩
    · exact ⟨_, hc⟩
    · exact ⟨_, hc⟩
  · intro R hN hR
    subst hN
    have hstop : UE4Singleton.EnsureStopClass h Obj (some R) = true := by
      have hnc : (h.GetClass Obj).IsChildOf R = false := by
        apply eq_false_of_ne_true
        intro hh
        exact hR ((UClass.IsChildOf_iff_mem_Chain _ _).mp hh)
      simp [UE4Singleton.EnsureStopClass, hnc]
    have hwc := WalkedClasses_off_chain hR
    have hwe : WalkEnd (some R) (h.GetClass Obj) = RootOf (h.GetClass Obj) := WalkEnd_some_off_chain hR
    refine ⟨hstop, hwc, hwe, ?_, ?_⟩
    · intro m k hk
      rw [UE4Singleton.Walk_map, hwc, if_pos hk]
    · intro hskip
      obtain ⟨Mgr, s1, hr, -, hreg⟩ :=
        UE4Singleton.Register_replace_full h Obj ctx (some R) s hv hW hstop hskip
      rw [hwe] at hreg
      refine ⟨_, hreg, ?_⟩
      intro k hk
      unfold ScopedLookup
      rw [UE4Singleton.ScopeMap_SetMap hr, UE4Singleton.Walk_Value, hwc, if_pos hk]

/-- Instance of C20: object 10 of class `ScriptPawn` registered in world 1 of
the state `S1` with the native stop class `Other`, which is not on its chain:
`ScriptPawn`, `Pawn` and `Actor` all end bound to the object. -/
theorem C20_walk_terminates_each_class_once_witness :
    Sample.Engine.IsValidObject 10 = true ∧
    ScopeOk Sample.Engine (Sample.Engine.ResolveWorld (some (UContext.World 1))) ∧
    Sample.Other ∉ UClass.Chain (Sample.Engine.GetClass 10) ∧
    SkipsRegistration Sample.Engine 10 (some (UContext.World 1)) = false ∧
    UClass.Chain (Sample.Engine.GetClass 10) = [Sample.ScriptPawn, Sample.Pawn, Sample.Actor] ∧
    ∃ t, UE4Singleton.RegisterAsSingletonImpl Sample.Engine (some 10) (some (UContext.World 1)) true
        (some Sample.Other) Sample.S1
          = some (ScopedLookup Sample.Engine (Sample.Engine.ResolveWorld (some (UContext.World 1)))
              Sample.S1 (RootOf (Sample.Engine.GetClass 10)), t) ∧
      ∀ k, k ∈ UClass.Chain (Sample.Engine.GetClass 10) →
        ScopedLookup Sample.Engine (Sample.Engine.ResolveWorld (some (UContext.World 1))) t k
          = some 10 :=
  ⟨rfl, Or.inr rfl, by decide, rfl, rfl,
    ((C20_walk_terminates_each_class_once Sample.Engine 10 (some (UContext.World 1)) true
      (some Sample.Other) Sample.S1 rfl (Or.inr rfl)).2.2.2.2.2 Sample.Other rfl (by decide)).2.2.2.2 rfl⟩

/-- Counterexample to C21 as stated: the editor host `Editor` lists a `Game`
context for world 1 ahead of a play-in-editor context for world 2, both game
worlds. The selection by priority is world 2, but both variants of
`FindInstance` stop at the first context and return the instance 11 of world
1, not the instance 12 of the play-in-editor world. -/
theorem C21_counterexample_list_position :
    Sample.Editor.bEditor = true ∧
    Sample.Editor.WorldContexts =
      [{ World := some 1, WorldType := EWorldType.Game, PIEInstance := 0 },
        { World := some 2, WorldType := EWorldType.PIE, PIEInstance := 0 }] ∧
    Sample.Editor.IsGameWorld 1 = true ∧ Sample.Editor.IsGameWorld 2 = true ∧
    PrioritySelect Sample.Editor Sample.Editor.WorldContexts = some 2 ∧
    Sample.Editor.GetGameInstance 2 = some 12 ∧
    NamespaceUE4Singleton.FindInstanceWorld Sample.Editor Sample.Editor.WorldContexts = some 1 ∧
    NamespaceUE4Singleton.FindInstance Sample.Editor = some 11 ∧
    MMPSingletonsManager.FindInstance Sample.Editor = some 11 := by
  decide

/-- C21 (amended): in an editor-like host `FindInstance` (both variants)
selects by list position: it returns the game instance of the world of the
first context of the list whose world is a game world and that is a
play-in-editor context, or a `Game` context, or in standalone net mode, or in
client net mode with PIE instance 2; it returns null when no context of the
list is such a context. When at most one context of the list is such a
context, that is also the selection by priority. -/
theorem C21_FindInstance_first_qualifying_context (h : Host) (hed : h.bEditor = true) :
    NamespaceUE4Singleton.FindInstance h =
        ((h.WorldContexts.find? (Qualifies h)).bind FWorldContext.World).bind h.GetGameInstance ∧
      MMPSingletonsManager.FindInstance h = NamespaceUE4Singleton.FindInstance h ∧
      (∀ pre c post, h.WorldContexts = pre ++ c :: post → (∀ x ∈ pre, Qualifies h x = false) →
        Qualifies h c = true →
        NamespaceUE4Singleton.FindInstance h = c.World.bind h.GetGameInstance) ∧
      ((∀ c ∈ h.WorldContexts, Qualifies h c = false) → NamespaceUE4Singleton.FindInstance h = none) ∧
      ((h.WorldContexts.filter (Qualifies h)).length ≤ 1 →
        NamespaceUE4Singleton.FindInstance h = (PrioritySelect h h.WorldContexts).bind h.GetGameInstance) := by
  have hF : ∀ W, NamespaceUE4Singleton.FindInstanceWorld h h.WorldContexts = W →
      NamespaceUE4Singleton.FindInstance h = W.bind h.GetGameInstance := by
    intro W hW
    unfold NamespaceUE4Singleton.FindInstance
    rw [hW]
    cases W <;> simp [hed]
  refine ⟨?_, Variant_FindInstance h, ?_, ?_, ?_⟩
  · exact hF _ (NamespaceUE4Singleton.FindInstanceWorld_eq_find h _)
  · intro pre c post hl hpre hc
    apply hF
    rw [NamespaceUE4Singleton.FindInstanceWorld_eq_find, hl]
    have : (pre ++ c :: post).find? (Qualifies h) = some c := by
      rw [List.find?_append]
      have hnone : pre.find? (Qualifies h) = none := by
        rw [List.find?_eq_none]
        intro x hx hq
        rw [hpre x hx] at hq
        cases hq
      simp [hnone, List.find?, hc]
    rw [this]
    rfl
  · intro hno
    have hnone : h.WorldContexts.find? (Qualifies h) = none := by
      rw [List.find?_eq_none]
      intro x hx hq
      rw [hno x hx] at hq
      cases hq
    rw [hF _ (NamespaceUE4Singleton.FindInstanceWorld_eq_find h _), hnone]
    rfl
  · intro hone
    exact hF _ (PrioritySelect_eq_of_unique h _ hone).symm

/-- Instance of C21 (amended): the editor host `Editor`, whose first context
(world 1) makes the loop break. -/
theorem C21_FindInstance_first_qualifying_context_witness :
    Sample.Editor.bEditor = true ∧
    NamespaceUE4Singleton.FindInstance Sample.Editor = (some 1 : Option UWorld).bind Sample.Editor.GetGameInstance :=
  ⟨rfl, (C21_FindInstance_first_qualifying_context Sample.Editor rfl).2.2.1 []
    { World := some 1, WorldType := EWorldType.Game, PIEInstance := 0 }
    [{ World := some 2, WorldType := EWorldType.PIE, PIEInstance := 0 }] rfl (by decide) (by decide)⟩

/-- Counterexample to C23 as stated: object 10 of class `ScriptPawn` registered
in world 1 of the initial state with the native stop class `Other`, which is
not on its chain; neither class has an entry. Both modes return null, but
without replacement the key `Other` is left in the mapping, bound to null,
while in replace mode the mapping has no key `Other`. -/
theorem C23_counterexample_stop_class_key_added :
    Sample.Engine.IsValidObject 10 = true ∧ Sample.Engine.GetClass 10 = Sample.ScriptPawn ∧
    UE4Singleton.EnsureStopClass Sample.Engine 10 (some Sample.Other) = true ∧
    SkipsRegistration Sample.Engine 10 (some (UContext.World 1)) = false ∧
    ScopedLookup Sample.Engine (some 1) State.Initial Sample.ScriptPawn = none ∧
    ScopedLookup Sample.Engine (some 1) State.Initial Sample.Other = none ∧
    (UE4Singleton.RegisterAsSingletonImpl Sample.Engine (some 10) (some (UContext.World 1)) false
        (some Sample.Other) State.Initial).map
        (fun r => (r.1, ScopeMap Sample.Engine (some 1) r.2 Sample.Other)) = some (none, some none) ∧
    (UE4Singleton.RegisterAsSingletonImpl Sample.Engine (some 10) (some (UContext.World 1)) true
        (some Sample.Other) State.Initial).map
        (fun r => (r.1, ScopeMap Sample.Engine (some 1) r.2 Sample.Other)) = some (none, none) := by
  decide

/-- C23 (amended): an accepted call with `bReplaceExist = false` in which
neither the object's class nor the supplied stop class resolves to an instance
returns the same value as the call with `bReplaceExist = true` on the same
state, binds the same walked classes to the object, and leaves every class
resolving to the same instance; the two final mappings have the same entry at
every key other than the stop class, and the two final states are equal when
no stop class is supplied, or the stop class is on the chain of the object's
class, or it was a key of the mapping already. Otherwise the stop class, absent
before, is a key bound to null after the call without replacement and absent
after the call in replace mode. -/
theorem C23_Register_no_replace_without_entries (h : Host) (Obj : UObject) (ctx : Option UContext)
    (N : Option UClass) (s : State) (hv : h.IsValidObject Obj = true)
    (hW : ScopeOk h (h.ResolveWorld ctx))
    (hstop : UE4Singleton.EnsureStopClass h Obj N = true) (hskip : SkipsRegistration h Obj ctx = false)
    (hc : ScopedLookup h (h.ResolveWorld ctx) s (h.GetClass Obj) = none)
    (hN : ∀ R, N = some R → ScopedLookup h (h.ResolveWorld ctx) s R = none) :
    ∃ ret t1 t2,
      UE4Singleton.RegisterAsSingletonImpl h (some Obj) ctx false N s = some (ret, t1) ∧
      UE4Singleton.RegisterAsSingletonImpl h (some Obj) ctx true N s = some (ret, t2) ∧
      (∀ k, k ∈ WalkedClasses N (h.GetClass Obj) →
        ScopeMap h (h.ResolveWorld ctx) t1 k = some (some Obj) ∧
        ScopeMap h (h.ResolveWorld ctx) t2 k = some (some Obj)) ∧
      (∀ k, ScopedLookup h (h.ResolveWorld ctx) t1 k = ScopedLookup h (h.ResolveWorld ctx) t2 k) ∧
      (∀ k, N ≠ some k →
        ScopeMap h (h.ResolveWorld ctx) t1 k = ScopeMap h (h.ResolveWorld ctx) t2 k) ∧
      ((∀ R, N = some R → R ∈ UClass.Chain (h.GetClass Obj) ∨
          ScopeMap h (h.ResolveWorld ctx) s R ≠ none) → t1 = t2) ∧
      (∀ R, N = some R → R ∉ UClass.Chain (h.GetClass Obj) →
        ScopeMap h (h.ResolveWorld ctx) s R = none →
        ScopeMap h (h.ResolveWorld ctx) t1 R = some none ∧
        ScopeMap h (h.ResolveWorld ctx) t2 R = none) := by
  obtain ⟨Mgr, s1, hg, hr, hm, -⟩ := UE4Singleton.GetManager_full h (h.ResolveWorld ctx) true s hW
  have hc2 : TMap.Value (s1.Singletons Mgr) (h.GetClass Obj) = none := by rw [hm]; exact hc
  have hN2 : ∀ R, N = some R → TMap.Value (s1.Singletons Mgr) R = none := by
    intro R hR; rw [hm]; exact hN R hR
  obtain ⟨hret, hmf, hmt⟩ := UE4Singleton.RegisterInMap_no_replace Obj (h.GetClass Obj) N _ hc2 hN2
  have hkey : ∀ k, (N ≠ some k ∨ k ∈ UClass.Chain (h.GetClass Obj) ∨ s1.Singletons Mgr k ≠ none) →
      (UE4Singleton.RegisterInMap Obj (h.GetClass Obj) false N (s1.Singletons Mgr)).2 k
        = (UE4Singleton.RegisterInMap Obj (h.GetClass Obj) true N (s1.Singletons Mgr)).2 k := by
    intro k hk
    rw [hmf, hmt]
    by_cases hw : k ∈ WalkedClasses N (h.GetClass Obj)
    · simp [hw]
    · simp only [hw, if_false]
      by_cases hNk : N = some k
      · rw [if_pos hNk]
        rcases hk with hk | hk | hk
        · exact absurd hNk hk
        · exfalso
          apply hw
          rw [hNk, WalkedClasses_some]
          exact mem_ChainUpTo_of_mem_Chain hk
        · cases hmk : s1.Singletons Mgr k with
          | none => exact absurd hmk hk
          | some v => simp [TMap.Value, hmk]
      · rw [if_neg hNk]
  refine ⟨(UE4Singleton.RegisterInMap Obj (h.GetClass Obj) false N (s1.Singletons Mgr)).1,
    s1.SetMap Mgr (UE4Singleton.RegisterInMap Obj (h.GetClass Obj) false N (s1.Singletons Mgr)).2,
    s1.SetMap Mgr (UE4Singleton.RegisterInMap Obj (h.GetClass Obj) true N (s1.Singletons Mgr)).2,
    UE4Singleton.Register_at false hv hstop hskip hg, ?_, ?_, ?_, ?_, ?_, ?_⟩
  · rw [hret]
    exact UE4Singleton.Register_at true hv hstop hskip hg
  · intro k hk
    rw [UE4Singleton.ScopeMap_SetMap hr, UE4Singleton.ScopeMap_SetMap hr, hmf, hmt]
    simp [hk]
  · intro k
    unfold ScopedLookup
    rw [UE4Singleton.ScopeMap_SetMap hr, UE4Singleton.ScopeMap_SetMap hr]
    unfold TMap.Value
    rw [hmf, hmt]
    by_cases hw : k ∈ WalkedClasses N (h.GetClass Obj)
    · simp [hw]
    · rw [if_neg hw, if_neg hw]
      by_cases hNk : N = some k
      · rw [if_pos hNk]
        rfl
      · rw [if_neg hNk]
  · intro k hk
    rw [UE4Singleton.ScopeMap_SetMap hr, UE4Singleton.ScopeMap_SetMap hr]
    exact hkey k (Or.inl hk)
  · intro hall
    have : (UE4Singleton.RegisterInMap Obj (h.GetClass Obj) false N (s1.Singletons Mgr)).2
        = (UE4Singleton.RegisterInMap Obj (h.GetClass Obj) true N (s1.Singletons Mgr)).2 := by
      funext k
      apply hkey
      by_cases hNk : N = some k
      · right
        rcases hall k hNk with h1 | h1
        · exact Or.inl h1
        · right; rw [hm]; exact h1
      · exact Or.inl hNk
    rw [this]
  · intro R hNR hoff habs
    rw [UE4Singleton.ScopeMap_SetMap hr, UE4Singleton.ScopeMap_SetMap hr, hmf, hmt]
    have hw : R ∉ WalkedClasses N (h.GetClass Obj) := fun hh => hoff (WalkedClasses_subset_Chain N _ R hh)
    have hv0 := hN2 R hNR
    rw [← hm] at habs
    rw [if_neg hw, if_neg hw, if_pos hNR, hv0, habs]
    exact ⟨rfl, rfl⟩

/-- Instance of C23 (amended): object 10 of class `ScriptPawn` registered in
world 1 of the initial state with its native ancestor `Pawn` as stop class:
the two modes end in the same state. -/
theorem C23_Register_no_replace_without_entries_witness :
    Sample.Engine.IsValidObject 10 = true ∧
    ScopeOk Sample.Engine (Sample.Engine.ResolveWorld (some (UContext.World 1))) ∧
    UE4Singleton.EnsureStopClass Sample.Engine 10 (some Sample.Pawn) = true ∧
    SkipsRegistration Sample.Engine 10 (some (UContext.World 1)) = false ∧
    ScopedLookup Sample.Engine (Sample.Engine.ResolveWorld (some (UContext.World 1))) State.Initial
      (Sample.Engine.GetClass 10) = none ∧
    (∀ R, some Sample.Pawn = some R →
      ScopedLookup Sample.Engine (Sample.Engine.ResolveWorld (some (UContext.World 1))) State.Initial R
        = none) ∧
    ∃ ret t1 t2,
      UE4Singleton.RegisterAsSingletonImpl Sample.Engine (some 10) (some (UContext.World 1)) false
        (some Sample.Pawn) State.Initial = some (ret, t1) ∧
      UE4Singleton.RegisterAsSingletonImpl Sample.Engine (some 10) (some (UContext.World 1)) true
        (some Sample.Pawn) State.Initial = some (ret, t2) ∧ t1 = t2 := by
  have hN : ∀ R, some Sample.Pawn = some R →
      ScopedLookup Sample.Engine (Sample.Engine.ResolveWorld (some (UContext.World 1))) State.Initial R
        = none := fun R _ => rfl
  obtain ⟨ret, t1, t2, h1, h2, -, -, -, h6, -⟩ :=
    C23_Register_no_replace_without_entries Sample.Engine 10 (some (UContext.World 1)) (some Sample.Pawn)
      State.Initial rfl (Or.inr rfl) rfl rfl rfl hN
  refine ⟨rfl, Or.inr rfl, rfl, rfl, rfl, hN, ret, t1, t2, h1, h2, h6 ?_⟩
  intro R hR
  left
  cases hR
  decide

/-- C24: on a null or live context world, when the registration class R
resolves to no valid instance and the factory yields a valid instance, the call
`GetSingletonImpl(C, ctx, true, R)` of either variant returns the new instance
and leaves R bound to it in the mapping of the scope, whatever the nested
`RegisterAsSingletonImpl` call does; when that call is turned down (stop-class
check, guard of line 148, or the actor-world check of `UMMPSingletons`), the
mapping afterwards is the mapping before with R bound to the new instance. A
later lookup of R in the resulting state, creating or not, returns the same
instance and changes nothing. -/
theorem C24_created_instance_is_bound_to_registration_class (h : Host) (C : UClass)
    (ctx : Option UContext) (RegClass : Option UClass) (s : State) (New : UObject)
    (hW : ScopeOk h (h.ResolveWorld ctx))
    (hinv : h.IsValid (ScopedLookup h (h.ResolveWorld ctx) s (RegClass.getD C)) = false)
    (hnew : UE4Singleton.CreateInstanceImpl h ((h.ResolveWorld ctx).map UContext.World) (some C)
      = some (some New))
    (hnv : h.IsValidObject New = true) :
    (∃ t, UE4Singleton.GetSingletonImpl h (some C) ctx true RegClass s = some (some New, t) ∧
        ScopedLookup h (h.ResolveWorld ctx) t (RegClass.getD C) = some New ∧
        (∀ b, UE4Singleton.GetSingletonImpl h (some C) ctx b RegClass t = some (some New, t)) ∧
        ((UE4Singleton.EnsureStopClass h New (some (RegClass.getD C)) = false ∨
            SkipsRegistration h New ((h.ResolveWorld ctx).map UContext.World) = true) →
          ScopeMap h (h.ResolveWorld ctx) t =
            TMap.Assign (ScopeMap h (h.ResolveWorld ctx) s) (RegClass.getD C) (some New))) ∧
      UMMPSingletons.CreateInstance h (some C) ((h.ResolveWorld ctx).map UContext.World)
        = some (some New) ∧
      (∃ t, UMMPSingletons.GetSingletonImpl h (some C) ctx true RegClass s = some (some New, t) ∧
        ScopedLookup h (h.ResolveWorld ctx) t (RegClass.getD C) = some New ∧
        (∀ b, UMMPSingletons.GetSingletonImpl h (some C) ctx b RegClass t = some (some New, t)) ∧
        ((UMMPSingletons.EnsureStopClass h New (some (RegClass.getD C)) = false ∨
            SkipsRegistration h New ((h.ResolveWorld ctx).map UContext.World) = true ∨
            UMMPSingletons.EnsureActorWorld h New (h.ResolveWorld ctx) = false) →
          ScopeMap h (h.ResolveWorld ctx) t =
            TMap.Assign (ScopeMap h (h.ResolveWorld ctx) s) (RegClass.getD C) (some New))) := by
  refine ⟨?_, (Variant_CreateInstance h _ _).trans hnew, ?_⟩
  · obtain ⟨Mgr, s1, hr, -, hget⟩ := UE4Singleton.Get_create_spec h C ctx RegClass s New hW hinv hnew hnv
    have hr2 := UE4Singleton.Resolves_SetMap hr Mgr (CreatedMap h New (RegClass.getD C) (h.ResolveWorld ctx)
      (ScopeMap h (h.ResolveWorld ctx) s))
    have hval : TMap.Value ((s1.SetMap Mgr (CreatedMap h New (RegClass.getD C) (h.ResolveWorld ctx)
        (ScopeMap h (h.ResolveWorld ctx) s))).Singletons Mgr) (RegClass.getD C) = some New := by
      rw [State.SetMap_Singletons_same, CreatedMap_Value]
    refine ⟨_, hget, ?_, ?_, ?_⟩
    · unfold ScopedLookup
      rw [UE4Singleton.ScopeMap_SetMap hr, CreatedMap_Value]
    · intro b
      exact UE4Singleton.Get_found b hW hr2 hval hnv
    · intro hrej
      rw [UE4Singleton.ScopeMap_SetMap hr, CreatedMap_rejected h New _ _ _ hrej]
  · obtain ⟨Mgr, s1, hr, -, hget⟩ := Variant_Get_create_spec h C ctx RegClass s New hW hinv hnew hnv
    have hvalm : ∀ m, m = (if UMMPSingletons.EnsureActorWorld h New (h.ResolveWorld ctx) = true then
          CreatedMap h New (RegClass.getD C) (h.ResolveWorld ctx) (ScopeMap h (h.ResolveWorld ctx) s)
        else TMap.Assign (ScopeMap h (h.ResolveWorld ctx) s) (RegClass.getD C) (some New)) →
        TMap.Value m (RegClass.getD C) = some New := by
      intro m hm
      rw [hm]
      split
      · exact CreatedMap_Value _ _ _ _ _
      · simp
    have hr2 := UE4Singleton.Resolves_SetMap hr Mgr
      (if UMMPSingletons.EnsureActorWorld h New (h.ResolveWorld ctx) = true then
          CreatedMap h New (RegClass.getD C) (h.ResolveWorld ctx) (ScopeMap h (h.ResolveWorld ctx) s)
        else TMap.Assign (ScopeMap h (h.ResolveWorld ctx) s) (RegClass.getD C) (some New))
    have hlook : ScopedLookup h (h.ResolveWorld ctx) (s1.SetMap Mgr
        (if UMMPSingletons.EnsureActorWorld h New (h.ResolveWorld ctx) = true then
          CreatedMap h New (RegClass.getD C) (h.ResolveWorld ctx) (ScopeMap h (h.ResolveWorld ctx) s)
        else TMap.Assign (ScopeMap h (h.ResolveWorld ctx) s) (RegClass.getD C) (some New)))
        (RegClass.getD C) = some New := by
      unfold ScopedLookup
      rw [UE4Singleton.ScopeMap_SetMap hr]
      exact hvalm _ rfl
    refine ⟨_, hget, hlook, ?_, ?_⟩
    · intro b
      have hval : TMap.Value ((s1.SetMap Mgr
          (if UMMPSingletons.EnsureActorWorld h New (h.ResolveWorld ctx) = true then
            CreatedMap h New (RegClass.getD C) (h.ResolveWorld ctx) (ScopeMap h (h.ResolveWorld ctx) s)
          else TMap.Assign (ScopeMap h (h.ResolveWorld ctx) s) (RegClass.getD C) (some New))).Singletons Mgr)
          (RegClass.getD C) = some New := by
        rw [State.SetMap_Singletons_same]
        exact hvalm _ rfl
      rcases Variant_Get_cases h (some C) ctx b RegClass _ with hc | ⟨c, New2, hC, -, -, hinv2, -⟩
      · rw [hc]
        exact UE4Singleton.Get_found b hW hr2 hval hnv
      · exfalso
        cases hC
        rw [hlook] at hinv2
        have : h.IsValid (some New) = true := hnv
        rw [this] at hinv2
        cases hinv2
    · intro hrej
      rw [UE4Singleton.ScopeMap_SetMap hr]
      rcases hrej with hr1 | hr1 | hr1
      · rw [Variant_EnsureStopClass] at hr1
        rw [CreatedMap_rejected h New _ _ _ (Or.inl hr1)]
        simp
      · rw [CreatedMap_rejected h New _ _ _ (Or.inr hr1)]
        simp
      · simp [hr1]

/-- Instance of C24: class `D` looked up in world 1 with its dynamic ancestor
`B` as registration class: the nested registration of the new object 7 is
turned down by the stop-class check, and `B` is bound to object 7. -/
theorem C24_created_instance_is_bound_to_registration_class_witness :
    ScopeOk Sample.Engine (Sample.Engine.ResolveWorld (some (UContext.World 1))) ∧
    Sample.Engine.IsValid (ScopedLookup Sample.Engine (Sample.Engine.ResolveWorld (some (UContext.World 1)))
      State.Initial ((some Sample.B).getD Sample.D)) = false ∧
    UE4Singleton.CreateInstanceImpl Sample.Engine
      ((Sample.Engine.ResolveWorld (some (UContext.World 1))).map UContext.World) (some Sample.D)
      = some (some 7) ∧
    Sample.Engine.IsValidObject 7 = true ∧
    UE4Singleton.EnsureStopClass Sample.Engine 7 (some ((some Sample.B).getD Sample.D)) = false ∧
    ∃ t, UE4Singleton.GetSingletonImpl Sample.Engine (some Sample.D) (some (UContext.World 1)) true
        (some Sample.B) State.Initial = some (some 7, t) ∧
      ScopedLookup Sample.Engine (Sample.Engine.ResolveWorld (some (UContext.World 1))) t
        ((some Sample.B).getD Sample.D) = some 7 ∧
      (∀ b, UE4Singleton.GetSingletonImpl Sample.Engine (some Sample.D) (some (UContext.World 1)) b
        (some Sample.B) t = some (some 7, t)) ∧
      ((UE4Singleton.EnsureStopClass Sample.Engine 7 (some ((some Sample.B).getD Sample.D)) = false ∨
          SkipsRegistration Sample.Engine 7
            ((Sample.Engine.ResolveWorld (some (UContext.World 1))).map UContext.World) = true) →
        ScopeMap Sample.Engine (Sample.Engine.ResolveWorld (some (UContext.World 1))) t =
          TMap.Assign (ScopeMap Sample.Engine (Sample.Engine.ResolveWorld (some (UContext.World 1)))
            State.Initial) ((some Sample.B).getD Sample.D) (some 7)) :=
  ⟨Or.inr rfl, by decide, rfl, rfl, by decide,
    (C24_created_instance_is_bound_to_registration_class Sample.Engine Sample.D (some (UContext.World 1))
      (some Sample.B) State.Initial 7 (Or.inr rfl) (by decide) rfl rfl).1⟩
